import Mathlib

/-! # go-webrtc-decoder: VP9 payload format and frame reassembly

A shallow embedding of `decoder/vpx/vp9_packet.go` (the VP9 payloader and the
VP9 payload-header parser) and of the frame builder of package `decoder`.

Conventions of the embedding

* A byte is a natural number below 256; a byte slice is a `List Nat`.  A slice
  that may be `nil` is an `Option (List Nat)`, `none` being `nil`.
* Go's `int` is the 64-bit two's complement integer: arithmetic that can leave
  the range is wrapped by `wrapInt`.
* A Go run-time panic (index or slice bound out of range) is the value `none`
  of the outer `Option` of a parser result; a call that returns normally is
  `some` of the returned values and the receiver left behind.
-/

namespace vpx

/-! ## Constants and helpers -/

def vp9HeaderSize : Int := 3

def maxSpatialLayers : Nat := 5

def noPictureID : Int := -1

def maxVP9RefPics : Nat := 3

/-- Two's complement wrap of a mathematical integer into Go's 64-bit `int`. -/
def wrapInt (x : Int) : Int :=
  (x + 9223372036854775808) % 18446744073709551616 - 9223372036854775808

/-- Modelled from the spec: the helper `min` of package `vpx` is not among the
sources (only its test `TestMin` is); it returns the smaller of two ints, as
the test table fixes it (`min(0,1) = 0`, `min(2,1) = 1`). -/
def min (a b : Int) : Int :=
  if a < b then a else b

/-- The error values `Unmarshal` can return. -/
inductive Error where
  | errNilPacket
  | errShortPacket
  | errTooManyPDiff
  | errNoPictureID
  | errTooManySpatialLayers
  deriving DecidableEq, Repr

/-! ## VP9Payloader -/

/-- State of a `VP9Payloader`: the `uint16` picture ID and the flag telling
whether it has been seeded.  The random source `Rand` is external: the value
it yields on the seeding call is an argument of `Payload`. -/
structure VP9Payloader where
  pictureID : Nat
  initialized : Bool
  deriving DecidableEq, Repr

/-- The loop `for payloadDataRemaining > 0` of `Payload`.  `fuel` bounds the
number of iterations; `none` means the bound was reached with data left. -/
def payloadLoop (pictureID : Nat) (maxFragmentSize : Int) (payload : List Nat) :
    Nat → Int → Int → List (List Nat) → Option (List (List Nat))
  | 0, payloadDataRemaining, _, payloads =>
    if payloadDataRemaining > 0 then none else some payloads
  | fuel + 1, payloadDataRemaining, payloadDataIndex, payloads =>
    if payloadDataRemaining > 0 then
      let currentFragmentSize := vpx.min maxFragmentSize payloadDataRemaining
      let out0 : Nat := 0x90
      let out0 := if payloadDataIndex = 0 then out0 ||| 0x08 else out0
      let out0 := if payloadDataRemaining = currentFragmentSize then out0 ||| 0x04 else out0
      let out1 : Nat := ((pictureID >>> 8) % 256) ||| 0x80
      let out2 : Nat := pictureID % 256
      let out := [out0, out1, out2] ++
        (payload.drop payloadDataIndex.toNat).take currentFragmentSize.toNat
      payloadLoop pictureID maxFragmentSize payload fuel
        (payloadDataRemaining - currentFragmentSize)
        (payloadDataIndex + currentFragmentSize) (payloads ++ [out])
    else some payloads

/-- The picture ID a call works with: the stored one, or `uint16(seed)` when the
payloader has not been initialised, `seed` being `p.Rand.Int31n(0x7FFF)`. -/
def effectivePictureID (p : VP9Payloader) (seed : Nat) : Nat :=
  if p.initialized then p.pictureID else seed % 65536

/-- `VP9Payloader.Payload(mtu, payload)`: the new state and the chunks. -/
def VP9Payloader.Payload (p : VP9Payloader) (seed : Nat) (mtu : Int)
    (payload : Option (List Nat)) : Option (VP9Payloader × List (List Nat)) :=
  let p : VP9Payloader :=
    if !p.initialized then { pictureID := seed % 65536, initialized := true } else p
  match payload with
  | none => some (p, [])
  | some payload =>
    let maxFragmentSize := wrapInt (mtu - vp9HeaderSize)
    let payloadDataRemaining : Int := payload.length
    let payloadDataIndex : Int := 0
    if vpx.min maxFragmentSize payloadDataRemaining ≤ 0 then some (p, [])
    else
      match payloadLoop p.pictureID maxFragmentSize payload payload.length
          payloadDataRemaining payloadDataIndex [] with
      | none => none
      | some payloads =>
        let pictureID := (p.pictureID + 1) % 65536
        let pictureID := if pictureID ≥ 0x8000 then 0 else pictureID
        some ({ p with pictureID := pictureID }, payloads)

/-! ## VP9Packet -/

/-- The VP9 payload header as stored by `Unmarshal`. -/
structure VP9Packet where
  I : Bool
  P : Bool
  L : Bool
  F : Bool
  B : Bool
  E : Bool
  V : Bool
  PictureID : Int
  TID : Nat
  U : Bool
  SID : Nat
  D : Bool
  PDiff : List Nat
  TL0PICIDX : Nat
  N_S : Nat
  Y : Bool
  G : Bool
  N_G : Nat
  Width : List Nat
  Height : List Nat
  Payload : Option (List Nat)
  deriving DecidableEq, Repr

/-- The zero value `VP9Packet{}`. -/
def VP9Packet.zero : VP9Packet :=
  { I := false, P := false, L := false, F := false, B := false, E := false, V := false,
    PictureID := 0, TID := 0, U := false, SID := 0, D := false, PDiff := [],
    TL0PICIDX := 0, N_S := 0, Y := false, G := false, N_G := 0,
    Width := [], Height := [], Payload := none }

/-- What a parsing step returns: the receiver, the position and the error. -/
abbrev Step := VP9Packet × Nat × Option Error

def parsePictureID (p : VP9Packet) (packet : List Nat) (pos : Nat) : Option Step :=
  if packet.length ≤ pos then some (p, pos, some Error.errShortPacket)
  else do
    let b ← packet[pos]?
    let p := { p with PictureID := Int.ofNat (b &&& 0x7F) }
    if b &&& 0x80 ≠ 0 then
      let pos := pos + 1
      if packet.length ≤ pos then some (p, pos, some Error.errShortPacket)
      else do
        let b2 ← packet[pos]?
        let p := { p with PictureID := Int.ofNat ((p.PictureID.toNat <<< 8) ||| b2) }
        some (p, pos + 1, none)
    else some (p, pos + 1, none)

def parseLayerInfoCommon (p : VP9Packet) (packet : List Nat) (pos : Nat) : Option Step :=
  if packet.length ≤ pos then some (p, pos, some Error.errShortPacket)
  else do
    let b ← packet[pos]?
    let p := { p with TID := b >>> 5, U := b &&& 0x10 ≠ 0,
                      SID := (b >>> 1) &&& 0x7, D := b &&& 0x01 ≠ 0 }
    if p.SID ≥ maxSpatialLayers then some (p, pos, some Error.errTooManySpatialLayers)
    else some (p, pos + 1, none)

def parseLayerInfoNonFlexibleMode (p : VP9Packet) (packet : List Nat) (pos : Nat) :
    Option Step :=
  if packet.length ≤ pos then some (p, pos, some Error.errShortPacket)
  else do
    let b ← packet[pos]?
    some ({ p with TL0PICIDX := b }, pos + 1, none)

def parseLayerInfo (p : VP9Packet) (packet : List Nat) (pos : Nat) : Option Step := do
  let (p, pos, err) ← parseLayerInfoCommon p packet pos
  if err ≠ none then some (p, pos, err)
  else if p.F then some (p, pos, none)
  else parseLayerInfoNonFlexibleMode p packet pos

/-- The `for` loop of `parseRefIndices`; `rest` is `packet[pos:]`, so that the
test `len(packet) <= pos` is `rest = []` and `packet[pos]` is its head. -/
def parseRefIndicesLoop (p : VP9Packet) : List Nat → Nat → Step
  | [], pos => (p, pos, some Error.errShortPacket)
  | b :: rest, pos =>
    let p := { p with PDiff := p.PDiff ++ [b >>> 1] }
    if b &&& 0x01 = 0 then (p, pos + 1, none)
    else if p.PDiff.length ≥ maxVP9RefPics then (p, pos, some Error.errTooManyPDiff)
    else parseRefIndicesLoop p rest (pos + 1)

def parseRefIndices (p : VP9Packet) (packet : List Nat) (pos : Nat) : Option Step :=
  if p.PictureID = noPictureID then some (p, pos, some Error.errNoPictureID)
  else some (parseRefIndicesLoop p (packet.drop pos) pos)

/-- The loop over the `N_S + 1` width/height pairs of `parseSSData`: no bound
is checked before the four reads of an iteration. -/
def parseSSResolutions (packet : List Nat) :
    Nat → Nat → List Nat → List Nat → Option (Nat × List Nat × List Nat)
  | 0, pos, width, height => some (pos, width, height)
  | n + 1, pos, width, height => do
    let w1 ← packet[pos]?
    let w2 ← packet[pos + 1]?
    let pos := pos + 2
    let h1 ← packet[pos]?
    let h2 ← packet[pos + 1]?
    let pos := pos + 2
    parseSSResolutions packet n pos (width ++ [(w1 <<< 8) ||| w2]) (height ++ [(h1 <<< 8) ||| h2])

/-- The loop over the `N_G` picture-group descriptors of `parseSSData`: `R` is
read without a bound check and `pos` then skips `R` bytes. -/
def parseSSGroups (packet : List Nat) : Nat → Nat → Option Nat
  | 0, pos => some pos
  | n + 1, pos => do
    let b ← packet[pos]?
    let R := (b >>> 2) &&& 0x3
    let pos := pos + 1
    parseSSGroups packet n (pos + R)

def parseSSData (p : VP9Packet) (packet : List Nat) (pos : Nat) : Option Step :=
  if packet.length ≤ pos then some (p, pos, some Error.errShortPacket)
  else do
    let b ← packet[pos]?
    let p := { p with N_S := b >>> 5, Y := b &&& 0x10 ≠ 0, G := (b >>> 1) &&& 0x7 ≠ 0 }
    let pos := pos + 1
    let NS := (p.N_S + 1) % 256
    let p := { p with N_G := 0 }
    let (p, pos) ←
      if p.Y then do
        let (pos, width, height) ← parseSSResolutions packet NS pos [] []
        pure ({ p with Width := width, Height := height }, pos)
      else pure (p, pos)
    let (p, pos) ←
      if p.G then do
        let g ← packet[pos]?
        pure ({ p with N_G := g }, pos + 1)
      else pure (p, pos)
    let pos ← parseSSGroups packet p.N_G pos
    some (p, pos, none)

/-- What `Unmarshal` returns: the receiver as left behind, the returned slice
and the returned error. -/
abbrev Outcome := VP9Packet × Option (List Nat) × Option Error

/-- `VP9Packet.Unmarshal(packet)`; `none` is a run-time panic. -/
def VP9Packet.Unmarshal (p : VP9Packet) (packet : Option (List Nat)) : Option Outcome :=
  match packet with
  | none => some (p, none, some Error.errNilPacket)
  | some packet =>
    if packet.length < 1 then some (p, none, some Error.errShortPacket)
    else do
      let b0 ← packet[0]?
      let p := { p with I := b0 &&& 0x80 ≠ 0, P := b0 &&& 0x40 ≠ 0, L := b0 &&& 0x20 ≠ 0,
                        F := b0 &&& 0x10 ≠ 0, B := b0 &&& 0x08 ≠ 0, E := b0 &&& 0x04 ≠ 0,
                        V := b0 &&& 0x02 ≠ 0 }
      let pos := 1
      let (p, pos, err) ← (if p.I then parsePictureID p packet pos else some (p, pos, none))
      if err ≠ none then some (p, none, err) else
      let (p, pos, err) ← (if p.L then parseLayerInfo p packet pos else some (p, pos, none))
      if err ≠ none then some (p, none, err) else
      let (p, pos, err) ←
        (if p.F && p.P then parseRefIndices p packet pos else some (p, pos, none))
      if err ≠ none then some (p, none, err) else
      let (p, pos, err) ← (if p.V then parseSSData p packet pos else some (p, pos, none))
      if err ≠ none then some (p, none, err) else
      if pos ≤ packet.length then
        let payload := packet.drop pos
        some ({ p with Payload := some payload }, some payload, none)
      else none

/-- `VP9PartitionHeadChecker.IsPartitionHead(packet)`.  The receiver it parses
with is a fresh `codecs.VP9Packet` of the library pion/rtp, not the `VP9Packet`
of this package: `unmarshal` is that library's `Unmarshal` on a fresh receiver,
with the same result type (the fields `B`, `L` and `D` are read). -/
def IsPartitionHead (unmarshal : Option (List Nat) → Option Outcome)
    (packet : Option (List Nat)) : Option Bool :=
  match unmarshal packet with
  | none => none
  | some (p, _, err) => if err ≠ none then some false else some (p.B && (!p.L || !p.D))

end vpx

namespace decoder

/-! ## Frame builder

The file `framebuilder.go` is not among the sources (its tests are); the
definitions of this section follow sections 3, 4.1, 4.2 and 4.3 of the
specification. -/

/-- An RTP packet as the frame builder sees it. -/
structure Packet where
  SequenceNumber : Nat
  Timestamp : Nat
  Payload : List Nat
  deriving DecidableEq, Repr

/-- A reassembled frame: the depacketized payloads of one run and its timestamp. -/
structure Frame where
  Packets : List (List Nat)
  Timestamp : Nat
  deriving DecidableEq, Repr

/-- Modelled from the spec: `seqnumDistance` (framebuilder.go is missing): the
minimum of the two circular deltas `(x - y) mod 65536` and `(y - x) mod 65536`. -/
def seqnumDistance (x y : Nat) : Nat :=
  Nat.min ((x + 65536 - y % 65536) % 65536) ((y + 65536 - x % 65536) % 65536)

/-- Modelled from the spec: the state of a `FrameBuilder` (framebuilder.go is
missing): the ring of 65536 optional packet slots, the newest sequence number,
the lateness window, the cursor and the two injected capabilities (a
depacketizer error is `none`). -/
structure FrameBuilder where
  maxLate : Nat
  buffer : Nat → Option Packet
  newest : Option Nat
  cursor : Option Nat
  depacketizer : List Nat → Option (List Nat)
  checker : List Nat → Bool

/-- Modelled from the spec: `NewFrameBuilder` (framebuilder.go is missing): an
empty ring, no newest sequence number, no cursor. -/
def NewFrameBuilder (maxLate : Nat) (depacketizer : List Nat → Option (List Nat))
    (checker : List Nat → Bool) : FrameBuilder :=
  { maxLate := maxLate, buffer := fun _ => none, newest := none, cursor := none,
    depacketizer := depacketizer, checker := checker }

/-- Modelled from the spec: `FrameBuilder.Push` (framebuilder.go is missing),
the ring insertion of section 4.2: when `newest` is unset or the forward step
from `newest` to the sequence number is smaller than the backward step, the
sequence number becomes `newest` and every slot farther than the lateness
from it is evicted; then the packet is stored in its slot. -/
def FrameBuilder.Push (s : FrameBuilder) (p : Packet) : FrameBuilder :=
  let seq := p.SequenceNumber % 65536
  let ahead : Bool :=
    match s.newest with
    | none => true
    | some n => decide ((seq + 65536 - n) % 65536 < (n + 65536 - seq) % 65536)
  let s : FrameBuilder :=
    if ahead then
      { s with newest := some seq,
               buffer := fun i => if seqnumDistance i seq > s.maxLate then none else s.buffer i }
    else s
  { s with buffer := fun i => if i = seq then some p else s.buffer i }

/-- Modelled from the spec: step 1 of `Pop` (framebuilder.go is missing): the
lowest occupied slot among `i, i+1, ...`, looking at `fuel` slots. -/
def lowestBuffered (buffer : Nat → Option Packet) : Nat → Nat → Option Nat
  | 0, _ => none
  | fuel + 1, i =>
    match buffer i with
    | some _ => some i
    | none => lowestBuffered buffer fuel (i + 1)

/-- Modelled from the spec: the head search of `Pop`, step 2 (framebuilder.go
is missing): scan forward from `i` up to `newest` inclusive and stop at the
first occupied slot whose payload the head checker accepts. -/
def headSearch (buffer : Nat → Option Packet) (checker : List Nat → Bool) (newest : Nat) :
    Nat → Nat → Option Nat
  | 0, _ => none
  | fuel + 1, i =>
    match buffer i with
    | some pkt =>
      if checker pkt.Payload then some i
      else if i = newest then none
      else headSearch buffer checker newest fuel ((i + 1) % 65536)
    | none =>
      if i = newest then none
      else headSearch buffer checker newest fuel ((i + 1) % 65536)

/-- How the run extension of `Pop` ends. -/
inductive RunEnd where
  /-- The slot after the run holds a packet of another timestamp: the parts of
  the run and the sequence number of that slot. -/
  | complete (parts : List (List Nat)) (next : Nat)
  /-- The slot after the run is empty. -/
  | gap
  /-- The depacketizer rejected a packet of the run. -/
  | depacketizerError
  /-- The run went once around the whole ring. -/
  | exhausted
  deriving DecidableEq, Repr

/-- Modelled from the spec: the run extension of `Pop`, step 4 (framebuilder.go
is missing): walk forward over contiguous sequence numbers while the slot is
occupied by a packet of timestamp `ts`, depacketizing each payload. -/
def extendRun (buffer : Nat → Option Packet) (depacketizer : List Nat → Option (List Nat))
    (ts : Nat) : Nat → Nat → List (List Nat) → RunEnd
  | 0, _, _ => RunEnd.exhausted
  | fuel + 1, i, parts =>
    match buffer i with
    | none => RunEnd.gap
    | some pkt =>
      if pkt.Timestamp = ts then
        match depacketizer pkt.Payload with
        | none => RunEnd.depacketizerError
        | some part => extendRun buffer depacketizer ts fuel ((i + 1) % 65536) (parts ++ [part])
      else RunEnd.complete parts i

/-- Whether slot `i` lies in the circular range from `a` (inclusive) to `b`
(exclusive). -/
def inRange (a b i : Nat) : Bool :=
  decide ((i + 65536 - a) % 65536 < (b + 65536 - a) % 65536)

/-- Modelled from the spec: `FrameBuilder.Pop` (framebuilder.go is missing),
steps 1 to 6 of section 4.3: the state left behind and the frame, if any. -/
def FrameBuilder.Pop (s : FrameBuilder) : FrameBuilder × Option Frame :=
  match s.newest with
  | none => (s, none)
  | some newest =>
    let start : Option Nat :=
      match s.cursor with
      | some c => some (c % 65536)
      | none => lowestBuffered s.buffer 65536 0
    match start with
    | none => (s, none)
    | some cursor =>
      match headSearch s.buffer s.checker newest 65536 cursor with
      | none => (s, none)
      | some h =>
        match s.buffer h with
        | none => (s, none)
        | some head =>
          match extendRun s.buffer s.depacketizer head.Timestamp 65536 h [] with
          | RunEnd.complete parts next =>
            ({ s with cursor := some next,
                      buffer := fun i =>
                        if (inRange cursor h i && i != cursor) || inRange h next i then none
                        else s.buffer i },
             some { Packets := parts, Timestamp := head.Timestamp })
          | RunEnd.gap =>
            ({ s with cursor := some h,
                      buffer := fun i =>
                        if inRange cursor h i && i != cursor then none else s.buffer i },
             none)
          | RunEnd.depacketizerError => (s, none)
          | RunEnd.exhausted => (s, none)

end decoder

/-! ## Auxiliary definitions used in the statements -/

namespace vpx

/-- Number of chunks `Payload` cuts `len` bytes into with fragments of `m` bytes. -/
def numChunks (len m : Nat) : Nat := (len + m - 1) / m

/-- Chunk number `i` out of `n`, for picture ID `k` and fragment size `m`. -/
def chunkAt (k m : Nat) (payload : List Nat) (n i : Nat) : List Nat :=
  [(if i + 1 = n then (if i = 0 then 0x90 ||| 0x08 else 0x90) ||| 0x04
    else (if i = 0 then 0x90 ||| 0x08 else 0x90)),
   ((k >>> 8) % 256) ||| 0x80, k % 256] ++ (payload.drop (i * m)).take m

end vpx

namespace vpx

/-- Largest value of Go's 64-bit `int`. -/
def maxInt : Int := 9223372036854775807

/-- Number of chunks whose start-of-frame bit (0x08 of byte 0) is set. -/
def startCount (chunks : List (List Nat)) : Nat :=
  chunks.countP (fun c => decide (c.headD 0 &&& 0x08 ≠ 0))

/-- Number of chunks whose end-of-frame bit (0x04 of byte 0) is set. -/
def endCount (chunks : List (List Nat)) : Nat :=
  chunks.countP (fun c => decide (c.headD 0 &&& 0x04 ≠ 0))

/-- States of a payloader reachable from the zero value `VP9Payloader{}` by calls
of `Payload`, the random source yielding a seed in `[0, 0x7FFF)`. -/
inductive Reachable : VP9Payloader → Prop where
  | zero : Reachable { pictureID := 0, initialized := false }
  | call {p p2 : VP9Payloader} {seed : Nat} {mtu : Int} {payload : Option (List Nat)}
      {chunks : List (List Nat)} :
      Reachable p → seed < 0x7FFF → p.Payload seed mtu payload = some (p2, chunks) →
      Reachable p2

end vpx

namespace vpx

/-- Two receivers agree on what `Unmarshal` reads before it writes: the flags,
the picture ID and the list of reference indices. -/
def Agree (p1 p2 : VP9Packet) : Prop :=
  p1.I = p2.I ∧ p1.P = p2.P ∧ p1.L = p2.L ∧ p1.F = p2.F ∧ p1.B = p2.B ∧ p1.E = p2.E ∧
  p1.V = p2.V ∧ p1.PictureID = p2.PictureID ∧ p1.PDiff = p2.PDiff

/-- Two parsing steps end alike: both panic, or both return the same position
and error and leave receivers that agree. -/
def StepRel (r1 r2 : Option Step) : Prop :=
  match r1, r2 with
  | none, none => True
  | some (q1, pos1, e1), some (q2, pos2, e2) => Agree q1 q2 ∧ pos1 = pos2 ∧ e1 = e2
  | _, _ => False

end vpx

namespace vpx

/-- Two calls of `Unmarshal` end alike: both panic, or both return the same slice
and the same error and leave receivers with the same picture ID and the same
reference indices and, when `flags` is set, the same flags I, P, L, F, B, E, V. -/
def UnmarshalRel (flags : Bool) (r1 r2 : Option Outcome) : Prop :=
  match r1, r2 with
  | none, none => True
  | some (q1, payload1, e1), some (q2, payload2, e2) =>
    payload1 = payload2 ∧ e1 = e2 ∧ q1.PictureID = q2.PictureID ∧ q1.PDiff = q2.PDiff ∧
    (flags = true → q1.I = q2.I ∧ q1.P = q2.P ∧ q1.L = q2.L ∧ q1.F = q2.F ∧ q1.B = q2.B ∧
      q1.E = q2.E ∧ q1.V = q2.V)
  | _, _ => False

end vpx

namespace decoder

/-- The builder of the test "FrameBuilder should emit a packet after a gap if
PartitionHeadChecker assumes it head": lateness 50, the identity depacketizer,
head byte 0x02, and the packets 5000, 5007 and 5008 pushed. -/
def gapScenario : FrameBuilder :=
  (((NewFrameBuilder 50 (fun payload => some payload)
        (fun payload => decide (payload.head? = some 0x02))).Push
      { SequenceNumber := 5000, Timestamp := 5, Payload := [0x01] }).Push
    { SequenceNumber := 5007, Timestamp := 6, Payload := [0x02] }).Push
  { SequenceNumber := 5008, Timestamp := 7, Payload := [0x03] }

end decoder


namespace decoder

/-- Whether pushing `p` moves `newest`: it is unset, or the forward step from it
to the sequence number of `p` is smaller than the backward step. -/
def FrameBuilder.advances (s : FrameBuilder) (p : Packet) : Bool :=
  match s.newest with
  | none => true
  | some n =>
    decide ((p.SequenceNumber % 65536 + 65536 - n) % 65536
      < (n + 65536 - p.SequenceNumber % 65536) % 65536)

/-- The builder of `TestFrameBuilderCleanReference` after its five pushes,
starting at sequence number `seqStart`: lateness 10 and no head byte. -/
def cleanReferenceScenario (seqStart : Nat) : FrameBuilder :=
  (((((NewFrameBuilder 10 (fun payload => some payload) (fun _ => false)).Push
          { SequenceNumber := (0 + seqStart) % 65536, Timestamp := 0, Payload := [0x01] }).Push
        { SequenceNumber := (1 + seqStart) % 65536, Timestamp := 0, Payload := [0x02] }).Push
      { SequenceNumber := (2 + seqStart) % 65536, Timestamp := 0, Payload := [0x03] }).Push
    { SequenceNumber := (14 + seqStart) % 65536, Timestamp := 120, Payload := [0x04] }).Push
  { SequenceNumber := (12 + seqStart) % 65536, Timestamp := 120, Payload := [0x05] }

/-- A builder of lateness 10 into which packet 100 and then the late packet 50
have been pushed. -/
def latePacketScenario : FrameBuilder :=
  ((NewFrameBuilder 10 (fun payload => some payload) (fun _ => false)).Push
      { SequenceNumber := 100, Timestamp := 7, Payload := [0x01] }).Push
    { SequenceNumber := 50, Timestamp := 3, Payload := [0x02] }

end decoder

namespace decoder

/-- Where `Pop` starts its head search: the cursor, or the lowest buffered slot
when the cursor is unset. -/
def FrameBuilder.popStart (s : FrameBuilder) : Option Nat :=
  match s.cursor with
  | some c => some (c % 65536)
  | none => lowestBuffered s.buffer 65536 0

/-- A builder whose cursor stands on a packet that is not a head: lateness 50,
head byte 0x01; packets 0 (head), 1 (not a head) and 2 (head) of timestamps 1,
2 and 3 are pushed and the frame of packet 0 is popped. -/
def gapAfterPopScenario : FrameBuilder :=
  ((((NewFrameBuilder 50 (fun payload => some payload)
          (fun payload => decide (payload.head? = some 0x01))).Push
        { SequenceNumber := 0, Timestamp := 1, Payload := [0x01] }).Push
      { SequenceNumber := 1, Timestamp := 2, Payload := [0x02] }).Push
    { SequenceNumber := 2, Timestamp := 3, Payload := [0x01] }).Pop.1

end decoder

namespace decoder

/-- A builder whose slot after `newest` holds an older packet: lateness 50, every
payload a head; packet 32774 is pushed, then packet 6 (as far ahead of 32774 as
behind it, so `newest` stays), then packet 5 (ahead of 32774, so `newest`
becomes 5 and packet 32774 is evicted). -/
def staleAheadScenario : FrameBuilder :=
  (((NewFrameBuilder 50 (fun payload => some payload) (fun _ => true)).Push
        { SequenceNumber := 32774, Timestamp := 1, Payload := [0x01] }).Push
      { SequenceNumber := 6, Timestamp := 2, Payload := [0x01] }).Push
    { SequenceNumber := 5, Timestamp := 3, Payload := [0x01] }

end decoder

namespace vpx

/-! ### The layout of the header, as the specification words it -/

/-- Bytes taken by the picture ID: none when the flag I is clear, else one, or
two when the marker bit 0x80 of the first is set. -/
def pictureIDLength (packet : List Nat) : Nat :=
  if packet.getD 0 0 &&& 0x80 ≠ 0 then (if packet.getD 1 0 &&& 0x80 ≠ 0 then 2 else 1) else 0

/-- The picture ID: the low 7 bits of the first byte, followed, when its marker
bit is set, by the 8 bits of the second byte (big-endian, 15 bits). -/
def pictureIDValue (packet : List Nat) : Nat :=
  if packet.getD 1 0 &&& 0x80 ≠ 0 then ((packet.getD 1 0 &&& 0x7F) <<< 8) ||| packet.getD 2 0
  else packet.getD 1 0 &&& 0x7F

/-- Bytes taken by the layer indices: none when the flag L is clear, else one in
flexible mode (F set) and two otherwise (TL0PICIDX follows). -/
def layerLength (packet : List Nat) : Nat :=
  if packet.getD 0 0 &&& 0x20 ≠ 0 then (if packet.getD 0 0 &&& 0x10 ≠ 0 then 1 else 2) else 0

/-- Number of reference-index bytes at the head of `rest`: up to and including
the first one whose continuation bit N (bit 0) is clear. -/
def refIndexCount : List Nat → Nat
  | [] => 0
  | b :: rest => if b &&& 0x01 = 0 then 1 else 1 + refIndexCount rest

/-- Bytes taken by the reference indices: none unless F and P are both set. -/
def refIndexLength (packet : List Nat) : Nat :=
  if packet.getD 0 0 &&& 0x10 ≠ 0 ∧ packet.getD 0 0 &&& 0x40 ≠ 0 then
    refIndexCount (packet.drop (1 + pictureIDLength packet + layerLength packet))
  else 0

/-- Length of the header of a packet without scalability structure. -/
def headerLength (packet : List Nat) : Nat :=
  1 + pictureIDLength packet + layerLength packet + refIndexLength packet

/-! ### `Unmarshal` cut into its stages -/

/-- The receiver after the flag byte `b0` has been stored. -/
def setFlags (p : VP9Packet) (b0 : Nat) : VP9Packet :=
  { p with I := b0 &&& 0x80 ≠ 0, P := b0 &&& 0x40 ≠ 0, L := b0 &&& 0x20 ≠ 0,
           F := b0 &&& 0x10 ≠ 0, B := b0 &&& 0x08 ≠ 0, E := b0 &&& 0x04 ≠ 0,
           V := b0 &&& 0x02 ≠ 0 }

/-- The end of `Unmarshal`, from the result of the scalability-structure stage. -/
def finish (packet : List Nat) (s : Step) : Option Outcome :=
  match s with
  | (p, pos, err) =>
    if err ≠ none then some (p, none, err) else
    if pos ≤ packet.length then
      some ({ p with Payload := some (packet.drop pos) }, some (packet.drop pos), none)
    else none

/-- `Unmarshal` from the result of the reference-index stage on. -/
def fromSS (packet : List Nat) (s : Step) : Option Outcome :=
  match s with
  | (p, pos, err) =>
    if err ≠ none then some (p, none, err) else
    (if p.V then parseSSData p packet pos else some (p, pos, none)).bind (finish packet)

/-- `Unmarshal` from the result of the layer stage on. -/
def fromRefs (packet : List Nat) (s : Step) : Option Outcome :=
  match s with
  | (p, pos, err) =>
    if err ≠ none then some (p, none, err) else
    (if p.F && p.P then parseRefIndices p packet pos else some (p, pos, none)).bind
      (fromSS packet)

/-- `Unmarshal` from the result of the picture-ID stage on. -/
def fromLayer (packet : List Nat) (s : Step) : Option Outcome :=
  match s with
  | (p, pos, err) =>
    if err ≠ none then some (p, none, err) else
    (if p.L then parseLayerInfo p packet pos else some (p, pos, none)).bind (fromRefs packet)

/-- Two receivers with the same flags and picture ID. -/
def KeepsI (p q : VP9Packet) : Prop :=
  p.I = q.I ∧ p.P = q.P ∧ p.L = q.L ∧ p.F = q.F ∧ p.B = q.B ∧ p.E = q.E ∧ p.V = q.V ∧
  p.PictureID = q.PictureID

/-- Two receivers with, moreover, the same layer indices. -/
def KeepsL (p q : VP9Packet) : Prop :=
  KeepsI p q ∧ p.TID = q.TID ∧ p.U = q.U ∧ p.SID = q.SID ∧ p.D = q.D ∧
  p.TL0PICIDX = q.TL0PICIDX

/-- Two receivers with, moreover, the same reference indices. -/
def KeepsR (p q : VP9Packet) : Prop :=
  KeepsL p q ∧ p.PDiff = q.PDiff

end vpx
/-! ## The payloader loop in closed form -/

namespace vpx

theorem min_eq_of_le {a b : Int} (h : b ≤ a) : vpx.min a b = b := by
  unfold vpx.min; split <;> omega

theorem min_eq_of_lt {a b : Int} (h : a < b) : vpx.min a b = a := by
  unfold vpx.min; simp [h]

theorem payloadLoop_done (k : Nat) (m : Int) (payload : List Nat) (fuel : Nat) (idx : Int)
    (acc : List (List Nat)) : payloadLoop k m payload fuel 0 idx acc = some acc := by
  cases fuel <;> simp [payloadLoop]

theorem numChunks_last {len m j : Nat} (h1 : j * m < len) (h2 : len ≤ j * m + m) :
    numChunks len m = j + 1 := by
  unfold numChunks
  apply Nat.div_eq_of_lt_le
  · rw [Nat.add_mul]; omega
  · have : (j + 1 + 1) * m = j * m + m + m := by ring
    omega

theorem numChunks_more {len m j : Nat} (hm : 0 < m) (h1 : j * m + m < len) :
    j + 2 ≤ numChunks len m := by
  unfold numChunks
  rw [Nat.le_div_iff_mul_le hm]
  have : (j + 2) * m = j * m + m + m := by ring
  omega

theorem payloadLoop_closed (k m : Nat) (payload : List Nat) (hm : 0 < m) :
    ∀ (fuel j r : Nat) (acc : List (List Nat)), 0 < r → r ≤ fuel →
      r + j * m = payload.length →
      payloadLoop k (m : Int) payload fuel (r : Int) ((j * m : Nat) : Int) acc
        = some (acc ++ (List.range' j (numChunks payload.length m - j)).map
            (chunkAt k m payload (numChunks payload.length m))) := by
  intro fuel
  induction fuel with
  | zero => intro j r acc h1 h2; omega
  | succ fuel ih =>
    intro j r acc hr hf hlen
    have hidx : (((j * m : Nat) : Int) = 0) ↔ j = 0 := by
      constructor
      · intro h
        have h' : j * m = 0 := by exact_mod_cast h
        rcases Nat.mul_eq_zero.mp h' with h0 | h0
        · exact h0
        · omega
      · intro h; subst h; simp
    by_cases hcase : r ≤ m
    · have hn : numChunks payload.length m = j + 1 := numChunks_last (by omega) (by omega)
      have hmin : vpx.min (m : Int) (r : Int) = (r : Int) := min_eq_of_le (by omega)
      have htake : List.take r (List.drop (j * m) payload)
          = List.take m (List.drop (j * m) payload) := by
        rw [List.take_of_length_le (by simp; omega), List.take_of_length_le (by simp; omega)]
      simp only [payloadLoop, hmin, hn]
      have hr' : ((r : Int) > 0) := by omega
      simp only [hr', if_true, sub_self, payloadLoop_done, Int.toNat_ofNat, hidx, htake]
      simp [chunkAt]
    · have hn : j + 2 ≤ numChunks payload.length m := numChunks_more hm (by omega)
      have hmin : vpx.min (m : Int) (r : Int) = (m : Int) := min_eq_of_lt (by omega)
      have hr' : ((r : Int) > 0) := by omega
      have hne : ¬ ((r : Int) = (m : Int)) := by omega
      have hne2 : ¬ (j + 1 = numChunks payload.length m) := by omega
      have e1 : (r : Int) - (m : Int) = ((r - m : Nat) : Int) := by omega
      have e2 : ((j * m : Nat) : Int) + (m : Int) = (((j + 1) * m : Nat) : Int) := by
        push_cast; ring
      have hsplit : numChunks payload.length m - j = (numChunks payload.length m - (j + 1)) + 1 := by
        omega
      simp only [payloadLoop, hmin, hr', if_true, hne, if_false, Int.toNat_ofNat, hidx]
      rw [e1, e2, ih (j + 1) (r - m) _ (by omega) (by omega)
        (by rw [Nat.add_mul]; omega), hsplit, List.range'_succ]
      simp [chunkAt, hne2]

end vpx

/-! ## `Payload` in closed form -/

namespace vpx

theorem wrapInt_sub_header {mtu : Int} (h4 : 4 ≤ mtu) (hmax : mtu ≤ maxInt) :
    wrapInt (mtu - vp9HeaderSize) = mtu - 3 := by
  unfold wrapInt vp9HeaderSize; unfold maxInt at hmax; omega

theorem range_eq_range' (n : Nat) : List.range n = List.range' 0 n := by
  rw [List.range_eq_range']

/-- The state a call leaves when it emits nothing. -/
theorem Payload_nil (p : VP9Payloader) (seed : Nat) (mtu : Int) :
    p.Payload seed mtu none
      = some ({ pictureID := effectivePictureID p seed, initialized := true }, []) := by
  cases p with
  | mk k ini => cases ini <;> simp [VP9Payloader.Payload, effectivePictureID]

theorem Payload_empty (p : VP9Payloader) (seed : Nat) (mtu : Int) (payload : List Nat)
    (h : payload = [] ∨ wrapInt (mtu - vp9HeaderSize) ≤ 0) :
    p.Payload seed mtu (some payload)
      = some ({ pictureID := effectivePictureID p seed, initialized := true }, []) := by
  have hmin : vpx.min (wrapInt (mtu - vp9HeaderSize)) (payload.length : Int) ≤ 0 := by
    unfold vpx.min
    rcases h with h | h
    · subst h; simp only [List.length_nil, Nat.cast_zero]; split <;> omega
    · split <;> omega
  cases p with
  | mk k ini => cases ini <;> simp [VP9Payloader.Payload, effectivePictureID, hmin]

theorem Payload_chunks (p : VP9Payloader) (seed : Nat) (mtu : Int) (payload : List Nat)
    (m : Nat) (hm : 0 < m) (hw : wrapInt (mtu - vp9HeaderSize) = (m : Int))
    (hp : payload ≠ []) :
    p.Payload seed mtu (some payload)
      = some ({ pictureID :=
                  if (effectivePictureID p seed + 1) % 65536 ≥ 0x8000 then 0
                  else (effectivePictureID p seed + 1) % 65536,
                initialized := true },
              (List.range (numChunks payload.length m)).map
                (chunkAt (effectivePictureID p seed) m payload (numChunks payload.length m))) := by
  have hlen : 0 < payload.length := List.length_pos.mpr hp
  have hmin : ¬ (vpx.min (m : Int) (payload.length : Int) ≤ 0) := by
    unfold vpx.min; split <;> omega
  have hloop := payloadLoop_closed (effectivePictureID p seed) m payload hm payload.length 0
    payload.length [] hlen (le_refl _) (by simp)
  simp only [Nat.zero_mul, Nat.cast_zero, List.nil_append, Nat.sub_zero] at hloop
  rw [← range_eq_range'] at hloop
  cases p with
  | mk k ini =>
    cases ini
    · simp [effectivePictureID] at hloop ⊢
      simp [VP9Payloader.Payload, hw, hmin, hloop]
    · simp [effectivePictureID] at hloop ⊢
      simp [VP9Payloader.Payload, hw, hmin, hloop]

/-- The call always returns: the loop never runs out of its iteration bound. -/
theorem Payload_total (p : VP9Payloader) (seed : Nat) (mtu : Int)
    (payload : Option (List Nat)) :
    ∃ p2 chunks, p.Payload seed mtu payload = some (p2, chunks) := by
  cases payload with
  | none => exact ⟨_, _, Payload_nil p seed mtu⟩
  | some payload =>
    by_cases h : payload = [] ∨ wrapInt (mtu - vp9HeaderSize) ≤ 0
    · exact ⟨_, _, Payload_empty p seed mtu payload h⟩
    · push_neg at h
      obtain ⟨m, hm⟩ := Int.eq_ofNat_of_zero_le (le_of_lt h.2)
      exact ⟨_, _, Payload_chunks p seed mtu payload m (by omega) hm h.1⟩

end vpx

/-! ## Parsing the chunks the payloader emits -/

namespace vpx

theorem marker_bit_set (x : Nat) : (x ||| 0x80) &&& 0x80 ≠ 0 := by
  intro h
  have h1 : ((x ||| 0x80) &&& 0x80).testBit 7 = true := by
    have h2 : (0x80 : Nat).testBit 7 = true := by decide
    rw [Nat.testBit_and, Nat.testBit_or, h2]
    simp
  rw [h, Nat.zero_testBit] at h1
  exact Bool.noConfusion h1

/-- A packet whose flag byte has I set and P, L, V clear and whose picture ID is
extended parses, on any receiver, to the bytes after the three header bytes. -/
theorem Unmarshal_flexible (q : VP9Packet) (b0 b1 b2 : Nat) (data : List Nat)
    (hI : b0 &&& 0x80 ≠ 0) (hP : b0 &&& 0x40 = 0) (hL : b0 &&& 0x20 = 0)
    (hV : b0 &&& 0x02 = 0) (h1 : b1 &&& 0x80 ≠ 0) :
    ∃ q2, q.Unmarshal (some (b0 :: b1 :: b2 :: data)) = some (q2, some data, none) := by
  simp [VP9Packet.Unmarshal, parsePictureID, hI, hP, hL, hV, h1]

theorem Unmarshal_chunkAt (q : VP9Packet) (k m : Nat) (payload : List Nat) (n i : Nat) :
    ∃ q2, q.Unmarshal (some (chunkAt k m payload n i))
      = some (q2, some ((payload.drop (i * m)).take m), none) := by
  have hb := marker_bit_set ((k >>> 8) % 256)
  unfold chunkAt
  refine Unmarshal_flexible _ _ _ _ _ ?_ ?_ ?_ ?_ hb <;> split_ifs <;> decide

theorem flatten_fragments (payload : List Nat) (m : Nat) :
    ∀ n, ((List.range n).map (fun i => (payload.drop (i * m)).take m)).flatten
      = payload.take (n * m) := by
  intro n
  induction n with
  | zero => simp
  | succ n ih =>
    rw [List.range_succ, List.map_append, List.flatten_append, ih, Nat.succ_mul, List.take_add]
    simp

theorem numChunks_mul_ge (len m : Nat) (hm : 0 < m) : len ≤ numChunks len m * m := by
  unfold numChunks
  have h1 := Nat.div_add_mod (len + m - 1) m
  have h2 := Nat.mod_lt (len + m - 1) hm
  have h3 : m * ((len + m - 1) / m) = (len + m - 1) / m * m := Nat.mul_comm _ _
  omega

end vpx

/-! ## What a call of `Payload` returns -/

namespace vpx

theorem lt_numChunks {len m i : Nat} (hm : 0 < m) (h : i < numChunks len m) : i * m < len := by
  unfold numChunks at h
  have h2 : (i + 1) * m ≤ len + m - 1 := (Nat.le_div_iff_mul_le hm).mp h
  rw [Nat.add_mul] at h2
  omega

theorem numChunks_pos {len m : Nat} (hm : 0 < m) (hlen : 0 < len) : 0 < numChunks len m := by
  have h := numChunks_mul_ge len m hm
  rcases Nat.eq_zero_or_pos (numChunks len m) with h0 | h0
  · rw [h0] at h; omega
  · exact h0

/-- Every call falls in one of two cases: nothing is emitted and the picture ID
is kept, or the payload is cut into `numChunks` chunks and the picture ID moves. -/
theorem Payload_cases (p p2 : VP9Payloader) (seed : Nat) (mtu : Int)
    (payload : Option (List Nat)) (chunks : List (List Nat))
    (h : p.Payload seed mtu payload = some (p2, chunks)) :
    (chunks = [] ∧ p2 = { pictureID := effectivePictureID p seed, initialized := true } ∧
      (payload = none ∨ payload = some [] ∨ wrapInt (mtu - vp9HeaderSize) ≤ 0)) ∨
    (∃ (pl : List Nat) (m : Nat), payload = some pl ∧ pl ≠ [] ∧ 0 < m ∧ wrapInt (mtu - vp9HeaderSize) = (m : Int) ∧
      p2 = { pictureID :=
               if (effectivePictureID p seed + 1) % 65536 ≥ 0x8000 then 0
               else (effectivePictureID p seed + 1) % 65536,
             initialized := true } ∧
      chunks = (List.range (numChunks pl.length m)).map
        (chunkAt (effectivePictureID p seed) m pl (numChunks pl.length m)) ∧
      0 < numChunks pl.length m) := by
  cases payload with
  | none =>
    rw [Payload_nil] at h
    simp only [Option.some.injEq, Prod.mk.injEq] at h
    exact Or.inl ⟨h.2.symm, h.1.symm, Or.inl rfl⟩
  | some pl =>
    by_cases hc : pl = [] ∨ wrapInt (mtu - vp9HeaderSize) ≤ 0
    · rw [Payload_empty p seed mtu pl hc] at h
      simp only [Option.some.injEq, Prod.mk.injEq] at h
      refine Or.inl ⟨h.2.symm, h.1.symm, ?_⟩
      rcases hc with hc | hc
      · exact Or.inr (Or.inl (by rw [hc]))
      · exact Or.inr (Or.inr hc)
    · push_neg at hc
      obtain ⟨m, hm⟩ := Int.eq_ofNat_of_zero_le (le_of_lt hc.2)
      have hm0 : 0 < m := by omega
      rw [Payload_chunks p seed mtu pl m hm0 hm hc.1] at h
      simp only [Option.some.injEq, Prod.mk.injEq] at h
      exact Or.inr ⟨pl, m, rfl, hc.1, hm0, hm, h.1.symm, h.2.symm,
        numChunks_pos hm0 (List.length_pos.mpr hc.1)⟩

theorem chunkAt_length (k m : Nat) (payload : List Nat) (n i : Nat) :
    (chunkAt k m payload n i).length = 3 + Nat.min m (payload.length - i * m) := by
  simp only [chunkAt, List.length_append, List.length_cons, List.length_nil, List.length_take,
    List.length_drop]

theorem countP_range_eq_one (n a : Nat) (h : a < n) :
    (List.range n).countP (fun i => decide (i = a)) = 1 := by
  have h1 : List.count a (List.range n) = 1 :=
    List.count_eq_one_of_mem (List.nodup_range n) (List.mem_range.mpr h)
  rw [← h1, List.count]
  apply List.countP_congr
  intro x _
  simp

theorem chunkAt_start (k m : Nat) (payload : List Nat) (n i : Nat) :
    decide ((chunkAt k m payload n i).headD 0 &&& 0x08 ≠ 0) = decide (i = 0) := by
  unfold chunkAt
  simp only [List.cons_append, List.headD_cons]
  split_ifs with h1 h2 h2 <;> simp +decide [h2]

theorem chunkAt_end (k m : Nat) (payload : List Nat) (n i : Nat) (hn : 0 < n) :
    decide ((chunkAt k m payload n i).headD 0 &&& 0x04 ≠ 0) = decide (i = n - 1) := by
  have e : (i = n - 1) ↔ (i + 1 = n) := by omega
  unfold chunkAt
  simp only [List.cons_append, List.headD_cons]
  split_ifs with h1 h2 h2 <;> simp +decide [e, h1]

end vpx

/-! ## Claims about the payloader -/

namespace vpx

/-- C1: for every payload (nil included) and every mtu of at least 4, the call
`Payload(mtu, payload)` returns, `Unmarshal` succeeds on each chunk whatever the
receiver, and the media bytes it returns, concatenated in chunk order, are the
bytes of the payload. -/
theorem payload_unmarshal_roundtrip (p : VP9Payloader) (seed : Nat) (mtu : Int)
    (payload : Option (List Nat)) (h4 : 4 ≤ mtu) (hmax : mtu ≤ maxInt) :
    ∃ p2 chunks medias, p.Payload seed mtu payload = some (p2, chunks) ∧
      List.Forall₂ (fun c media => ∀ q : VP9Packet,
        ∃ q2, q.Unmarshal (some c) = some (q2, some media, none)) chunks medias ∧
      medias.flatten = payload.getD [] := by
  obtain ⟨p2, chunks, h⟩ := Payload_total p seed mtu payload
  refine ⟨p2, chunks, ?_⟩
  rcases Payload_cases p p2 seed mtu payload chunks h with ⟨hc, _, hp⟩ | ⟨pl, m, hp, hne, hm, hw, _, hc, _⟩
  · refine ⟨[], h, ?_, ?_⟩
    · rw [hc]; exact List.Forall₂.nil
    · rcases hp with hp | hp | hp
      · rw [hp]; rfl
      · rw [hp]; rfl
      · rw [wrapInt_sub_header h4 hmax] at hp; omega
  · refine ⟨(List.range (numChunks pl.length m)).map (fun i => (pl.drop (i * m)).take m), h, ?_, ?_⟩
    · rw [hc, List.forall₂_map_left_iff, List.forall₂_map_right_iff, List.forall₂_same]
      intro i _ q
      exact Unmarshal_chunkAt q _ m pl _ i
    · rw [flatten_fragments, hp, List.take_of_length_le (numChunks_mul_ge _ _ hm)]
      rfl

/-- Witness of C1: a five-byte payload cut with mtu 5. -/
theorem payload_unmarshal_roundtrip_witness :
    ∃ p2 chunks medias,
      VP9Payloader.Payload { pictureID := 0, initialized := false } 0x1234 5
        (some [1, 2, 3, 4, 5]) = some (p2, chunks) ∧
      List.Forall₂ (fun c media => ∀ q : VP9Packet,
        ∃ q2, q.Unmarshal (some c) = some (q2, some media, none)) chunks medias ∧
      medias.flatten = (some [1, 2, 3, 4, 5] : Option (List Nat)).getD [] :=
  payload_unmarshal_roundtrip { pictureID := 0, initialized := false } 0x1234 5
    (some [1, 2, 3, 4, 5]) (by decide) (by decide)

theorem header_byte1 (k : Nat) (hk : k < 0x8000) :
    ((k >>> 8) % 256) ||| 0x80 = 0x80 ||| (k >>> 8) := by
  have h : k >>> 8 < 256 := by
    rw [Nat.shiftRight_eq_div_pow]; omega
  rw [Nat.mod_eq_of_lt h, Nat.lor_comm]

theorem header_byte2 (k : Nat) : k % 256 = k &&& 0xFF := by
  have h := Nat.and_pow_two_sub_one_eq_mod k 8
  simpa using h.symm

/-- C6: when a call returns `n ≥ 1` chunks and the picture ID in effect is
`k < 0x8000`, chunk `i` starts with the header `0x90 | (0x08 if i = 0) |
(0x04 if i = n-1)`, `0x80 | (k >> 8)`, `k & 0xFF`: all chunks of the call carry
the same picture ID. -/
theorem payload_chunk_header (p p2 : VP9Payloader) (seed : Nat) (mtu : Int)
    (payload : Option (List Nat)) (chunks : List (List Nat))
    (h : p.Payload seed mtu payload = some (p2, chunks)) (hn : 1 ≤ chunks.length)
    (hk : effectivePictureID p seed < 0x8000) :
    ∀ (i : Nat) (c : List Nat), chunks[i]? = some c →
      c.take 3 =
        [0x90 ||| (if i = 0 then 0x08 else 0) ||| (if i = chunks.length - 1 then 0x04 else 0),
         0x80 ||| (effectivePictureID p seed >>> 8),
         effectivePictureID p seed &&& 0xFF] := by
  intro i c hi
  rcases Payload_cases p p2 seed mtu payload chunks h with ⟨hc, _, _⟩ | ⟨pl, m, _, _, _, _, _, hc, hpos⟩
  · rw [hc] at hn; simp at hn
  · have hlen : chunks.length = numChunks pl.length m := by rw [hc]; simp
    rw [hlen]
    rw [hc] at hi
    simp only [List.getElem?_map, Option.map_eq_some'] at hi
    obtain ⟨j, hj, hcj⟩ := hi
    have hji : j = i := by
      rw [List.getElem?_range] at hj
      · exact (Option.some.inj hj).symm
      · by_contra hcon
        rw [List.getElem?_eq_none (by simpa using hcon)] at hj
        exact Option.noConfusion hj
    subst hji
    rw [← hcj, ← header_byte1 _ hk, ← header_byte2]
    have e : (j = numChunks pl.length m - 1) ↔ (j + 1 = numChunks pl.length m) := by omega
    unfold chunkAt
    simp only [List.cons_append, List.take_succ_cons, List.take_zero, List.nil_append]
    split_ifs <;> first | rfl | omega

/-- Witness of C6: the last of the three chunks of a five-byte payload cut with
mtu 5, the picture ID being the seed 0x1234. -/
theorem payload_chunk_header_witness :
    ([0x94, 0x92, 0x34, 5] : List Nat).take 3 =
      [0x90 ||| (if 2 = 0 then 0x08 else 0) |||
         (if 2 = [[0x98, 0x92, 0x34, 1, 2], [0x90, 0x92, 0x34, 3, 4],
                  [0x94, 0x92, 0x34, 5]].length - 1 then 0x04 else 0),
       0x80 ||| (effectivePictureID { pictureID := 0, initialized := false } 0x1234 >>> 8),
       effectivePictureID { pictureID := 0, initialized := false } 0x1234 &&& 0xFF] :=
  payload_chunk_header { pictureID := 0, initialized := false }
    { pictureID := 0x1235, initialized := true } 0x1234 5 (some [1, 2, 3, 4, 5])
    [[0x98, 0x92, 0x34, 1, 2], [0x90, 0x92, 0x34, 3, 4], [0x94, 0x92, 0x34, 5]]
    (by decide) (by decide) (by decide) 2 [0x94, 0x92, 0x34, 5] (by decide)

end vpx

namespace vpx

/-- C7, as stated, fails on the empty payload: with mtu 4 the call returns no
chunk, so no chunk carries the start bit and none the end bit. -/
theorem payload_start_end_counterexample :
    ¬ ∃ p2 chunks,
        VP9Payloader.Payload { pictureID := 0, initialized := false } 0 4 (some [])
          = some (p2, chunks) ∧
        startCount chunks = 1 ∧ endCount chunks = 1 := by
  rintro ⟨p2, chunks, h, hs, _⟩
  have h2 : VP9Payloader.Payload { pictureID := 0, initialized := false } 0 4 (some [])
      = some ({ pictureID := 0, initialized := true }, []) := by decide
  rw [h2] at h
  simp only [Option.some.injEq, Prod.mk.injEq] at h
  rw [← h.2] at hs
  simp [startCount] at hs

/-- C7 (amended): for every non-empty payload and every mtu of at least 4, among
the chunks `Payload` returns exactly one has the start-of-frame bit (0x08 of
byte 0) set and exactly one has the end-of-frame bit (0x04 of byte 0) set. -/
theorem payload_start_end_unique (p : VP9Payloader) (seed : Nat) (mtu : Int)
    (payload : List Nat) (hne : payload ≠ []) (h4 : 4 ≤ mtu) (hmax : mtu ≤ maxInt) :
    ∃ p2 chunks, p.Payload seed mtu (some payload) = some (p2, chunks) ∧
      startCount chunks = 1 ∧ endCount chunks = 1 := by
  obtain ⟨p2, chunks, h⟩ := Payload_total p seed mtu (some payload)
  refine ⟨p2, chunks, h, ?_⟩
  rcases Payload_cases p p2 seed mtu (some payload) chunks h with
    ⟨_, _, hp⟩ | ⟨pl, m, hp, _, hm, _, _, hc, hpos⟩
  · rcases hp with hp | hp | hp
    · exact Option.noConfusion hp
    · exact absurd (Option.some.inj hp) hne
    · rw [wrapInt_sub_header h4 hmax] at hp; omega
  · rw [hc]
    constructor
    · rw [startCount, List.countP_map]
      rw [List.countP_congr (q := fun i => decide (i = 0))]
      · exact countP_range_eq_one _ 0 hpos
      · intro i _
        simp only [Function.comp]
        rw [chunkAt_start]
    · rw [endCount, List.countP_map]
      rw [List.countP_congr (q := fun i => decide (i = numChunks pl.length m - 1))]
      · exact countP_range_eq_one _ _ (by omega)
      · intro i _
        simp only [Function.comp]
        rw [chunkAt_end _ _ _ _ _ hpos]

/-- Witness of C7 (amended): a five-byte payload cut with mtu 5. -/
theorem payload_start_end_unique_witness :
    ∃ p2 chunks,
      VP9Payloader.Payload { pictureID := 0, initialized := false } 0x1234 5
        (some [1, 2, 3, 4, 5]) = some (p2, chunks) ∧
      startCount chunks = 1 ∧ endCount chunks = 1 :=
  payload_start_end_unique { pictureID := 0, initialized := false } 0x1234 5
    [1, 2, 3, 4, 5] (by decide) (by decide) (by decide)

/-- C8: for every mtu of at least 4 and every non-empty payload of `n` bytes,
`Payload` returns exactly `⌈n / (mtu - 3)⌉` chunks; every chunk is at most `mtu`
bytes long and carries between 1 and `mtu - 3` payload bytes after its three
header bytes, and every chunk but the last is exactly `mtu` bytes long. -/
theorem payload_chunk_sizes (p : VP9Payloader) (seed : Nat) (mtu : Int)
    (payload : List Nat) (hne : payload ≠ []) (h4 : 4 ≤ mtu) (hmax : mtu ≤ maxInt) :
    ∃ p2 chunks, p.Payload seed mtu (some payload) = some (p2, chunks) ∧
      ((chunks.length : Int) = ⌈(payload.length : ℚ) / ((mtu - 3 : Int) : ℚ)⌉) ∧
      ∀ (i : Nat) (c : List Nat), chunks[i]? = some c →
        (c.length : Int) ≤ mtu ∧ 1 ≤ (c.length : Int) - 3 ∧ (c.length : Int) - 3 ≤ mtu - 3 ∧
        (i + 1 < chunks.length → (c.length : Int) = mtu) := by
  obtain ⟨p2, chunks, h⟩ := Payload_total p seed mtu (some payload)
  refine ⟨p2, chunks, h, ?_⟩
  rcases Payload_cases p p2 seed mtu (some payload) chunks h with
    ⟨_, _, hp⟩ | ⟨pl, m, hp, _, hm, hw, _, hc, hpos⟩
  · rcases hp with hp | hp | hp
    · exact Option.noConfusion hp
    · exact absurd (Option.some.inj hp) hne
    · rw [wrapInt_sub_header h4 hmax] at hp; omega
  · have hpl : payload = pl := Option.some.inj hp
    subst hpl
    rw [wrapInt_sub_header h4 hmax] at hw
    have hlen : chunks.length = numChunks payload.length m := by rw [hc]; simp
    have hge := numChunks_mul_ge payload.length m hm
    have hlt : (numChunks payload.length m - 1) * m < payload.length :=
      lt_numChunks hm (by omega)
    constructor
    · rw [hlen, hw]
      symm
      rw [Int.ceil_eq_iff]
      have hmq : (0 : ℚ) < ((m : Int) : ℚ) := by exact_mod_cast hm
      constructor
      · rw [lt_div_iff₀ hmq]
        have h1 : (((numChunks payload.length m - 1) * m : Nat) : ℚ) < (payload.length : ℚ) := by
          exact_mod_cast hlt
        have h2 : (((numChunks payload.length m - 1 : Nat)) : ℚ)
            = (numChunks payload.length m : ℚ) - 1 := by
          rw [Nat.cast_sub hpos]; simp
        push_cast at h1 ⊢
        rw [h2] at h1
        exact h1
      · rw [div_le_iff₀ hmq]
        have h1 : ((payload.length : Nat) : ℚ) ≤ ((numChunks payload.length m * m : Nat) : ℚ) := by
          exact_mod_cast hge
        push_cast at h1 ⊢
        exact h1
    · intro i c hi
      rw [hc] at hi
      simp only [List.getElem?_map, Option.map_eq_some'] at hi
      obtain ⟨j, hj, hcj⟩ := hi
      have hjn : j < numChunks payload.length m ∧ j = i := by
        by_cases hcon : i < (List.range (numChunks payload.length m)).length
        · rw [List.getElem?_eq_getElem hcon, List.getElem_range] at hj
          exact ⟨by rw [← Option.some.inj hj]; simpa using hcon, (Option.some.inj hj).symm⟩
        · rw [List.getElem?_eq_none (by omega)] at hj
          exact Option.noConfusion hj
      obtain ⟨hjn, hji⟩ := hjn
      subst hji
      have hcl : c.length = 3 + Nat.min m (payload.length - j * m) := by
        rw [← hcj, chunkAt_length]
      have hj1 := lt_numChunks hm hjn
      have hmin : Nat.min m (payload.length - j * m) ≤ m := Nat.min_le_left _ _
      have hmin1 : 1 ≤ Nat.min m (payload.length - j * m) := by
        rw [Nat.le_min]; omega
      refine ⟨by omega, by omega, by omega, ?_⟩
      intro hnext
      rw [hlen] at hnext
      have hj2 := lt_numChunks hm hnext
      rw [Nat.add_mul] at hj2
      have : Nat.min m (payload.length - j * m) = m := Nat.min_eq_left (by omega)
      omega

/-- Witness of C8: a five-byte payload cut with mtu 5. -/
theorem payload_chunk_sizes_witness :
    ∃ p2 chunks,
      VP9Payloader.Payload { pictureID := 0, initialized := false } 0x1234 5
        (some [1, 2, 3, 4, 5]) = some (p2, chunks) ∧
      ((chunks.length : Int) = ⌈(([1, 2, 3, 4, 5] : List Nat).length : ℚ) / (((5 : Int) - 3 : Int) : ℚ)⌉) ∧
      ∀ (i : Nat) (c : List Nat), chunks[i]? = some c →
        (c.length : Int) ≤ 5 ∧ 1 ≤ (c.length : Int) - 3 ∧ (c.length : Int) - 3 ≤ 5 - 3 ∧
        (i + 1 < chunks.length → (c.length : Int) = 5) :=
  payload_chunk_sizes { pictureID := 0, initialized := false } 0x1234 5
    [1, 2, 3, 4, 5] (by decide) (by decide) (by decide)

end vpx

namespace vpx

theorem effectivePictureID_lt (p : VP9Payloader) (seed : Nat) (hp : p.pictureID < 0x8000)
    (hs : seed < 0x7FFF) : effectivePictureID p seed < 0x8000 := by
  unfold effectivePictureID
  split <;> omega

theorem nextPictureID_lt (k : Nat) :
    (if (k + 1) % 65536 ≥ 0x8000 then 0 else (k + 1) % 65536) < 0x8000 := by
  split_ifs with h <;> omega

theorem nextPictureID_eq (k : Nat) (hk : k < 0x8000) :
    (if (k + 1) % 65536 ≥ 0x8000 then 0 else (k + 1) % 65536) = (k + 1) % 0x8000 := by
  split_ifs with h <;> omega

/-- The picture ID of a reachable payloader fits in 15 bits. -/
theorem Reachable.pictureID_lt {p : VP9Payloader} (hr : Reachable p) : p.pictureID < 0x8000 := by
  induction hr with
  | zero => decide
  | call _ hs h ih =>
    have hk := effectivePictureID_lt _ _ ih hs
    rcases Payload_cases _ _ _ _ _ _ h with ⟨_, hp2, _⟩ | ⟨_, _, _, _, _, _, hp2, _, _⟩
    · rw [hp2]; exact hk
    · rw [hp2]
      exact nextPictureID_lt _

/-- C9: in a state reachable from the zero-value payloader with seeds drawn from
`[0, 0x7FFF)`, if the picture ID in effect for a call is `k`, the stored picture
ID is `(k + 1) mod 0x8000` after a call that emits a chunk and `k` after a call
that emits none; the stored picture ID is below `0x8000` before and after. -/
theorem pictureID_counter (p : VP9Payloader) (hr : Reachable p) (seed : Nat)
    (hs : seed < 0x7FFF) (mtu : Int) (payload : Option (List Nat)) :
    p.pictureID < 0x8000 ∧
    ∃ p2 chunks, p.Payload seed mtu payload = some (p2, chunks) ∧
      (chunks ≠ [] → p2.pictureID = (effectivePictureID p seed + 1) % 0x8000) ∧
      (chunks = [] → p2.pictureID = effectivePictureID p seed) ∧
      p2.pictureID < 0x8000 ∧ Reachable p2 := by
  have hp := hr.pictureID_lt
  refine ⟨hp, ?_⟩
  obtain ⟨p2, chunks, h⟩ := Payload_total p seed mtu payload
  have hr2 : Reachable p2 := Reachable.call hr hs h
  refine ⟨p2, chunks, h, ?_, ?_, hr2.pictureID_lt, hr2⟩
  · intro hne
    have hk := effectivePictureID_lt p seed hp hs
    rcases Payload_cases p p2 seed mtu payload chunks h with ⟨hc, _, _⟩ | ⟨_, _, _, _, _, _, hp2, _, _⟩
    · exact absurd hc hne
    · rw [hp2]
      exact nextPictureID_eq _ hk
  · intro he
    rcases Payload_cases p p2 seed mtu payload chunks h with ⟨_, hp2, _⟩ | ⟨_, _, _, _, _, _, _, hc, hpos⟩
    · rw [hp2]
    · rw [hc] at he
      have := congrArg List.length he
      simp at this
      omega

/-- Witness of C9: the first call on the zero-value payloader, seeded with
`0x7FFE`, the largest seed. -/
theorem pictureID_counter_witness :
    (0 : Nat) < 0x8000 ∧
    ∃ p2 chunks,
      VP9Payloader.Payload { pictureID := 0, initialized := false } 0x7FFE 5 (some [1, 2, 3])
        = some (p2, chunks) ∧
      (chunks ≠ [] → p2.pictureID =
        (effectivePictureID { pictureID := 0, initialized := false } 0x7FFE + 1) % 0x8000) ∧
      (chunks = [] → p2.pictureID =
        effectivePictureID { pictureID := 0, initialized := false } 0x7FFE) ∧
      p2.pictureID < 0x8000 ∧ Reachable p2 :=
  pictureID_counter { pictureID := 0, initialized := false } Reachable.zero 0x7FFE (by decide) 5
    (some [1, 2, 3])

/-- C10: `Payload(mtu, payload)` returns, and it returns no chunk exactly when
the payload is nil, or empty, or the fragment capacity `mtu - 3` (Go's `int`
subtraction) is not positive; for every `mtu` that does not underflow that
subtraction the capacity is the integer `mtu - 3`. -/
theorem payload_empty_iff (p : VP9Payloader) (seed : Nat) (mtu : Int)
    (payload : Option (List Nat)) :
    ∃ p2 chunks, p.Payload seed mtu payload = some (p2, chunks) ∧
      (chunks = [] ↔
        (payload = none ∨ payload = some [] ∨ wrapInt (mtu - vp9HeaderSize) ≤ 0)) ∧
      (chunks ≠ [] ↔ 1 ≤ chunks.length) ∧
      (-maxInt + 2 ≤ mtu ∧ mtu ≤ maxInt → wrapInt (mtu - vp9HeaderSize) = mtu - 3) := by
  obtain ⟨p2, chunks, h⟩ := Payload_total p seed mtu payload
  refine ⟨p2, chunks, h, ?_, ?_, ?_⟩
  · rcases Payload_cases p p2 seed mtu payload chunks h with
      ⟨hc, _, hp⟩ | ⟨pl, m, hp, hne, hm, hw, _, hc, hpos⟩
    · exact ⟨fun _ => hp, fun _ => hc⟩
    · constructor
      · intro he
        rw [hc] at he
        have := congrArg List.length he
        simp at this
        omega
      · intro hor
        rcases hor with hor | hor | hor
        · rw [hp] at hor; exact Option.noConfusion hor
        · rw [hp] at hor; exact absurd (Option.some.inj hor) hne
        · omega
  · cases chunks with
    | nil => simp
    | cons c cs => simp
  · intro hr
    unfold wrapInt vp9HeaderSize
    unfold maxInt at hr
    omega

end vpx

/-! ## Claims about `Unmarshal` -/

namespace vpx

/-- C2: `Unmarshal` panics on truncated scalability-structure blocks: the reads
of `parseSSData` after its first byte are not bound-checked (a width byte, the
`N_G` byte, a group descriptor), and the skipped `P_DIFF` bytes can move the
position past the end of the packet, where `packet[pos:]` panics. -/
theorem unmarshal_panics_on_truncated_ss :
    VP9Packet.zero.Unmarshal (some [0x02, 0x10]) = none ∧
    VP9Packet.zero.Unmarshal (some [0x02, 0x08]) = none ∧
    VP9Packet.zero.Unmarshal (some [0x02, 0x08, 0x01]) = none ∧
    VP9Packet.zero.Unmarshal (some [0x02, 0x08, 0x01, 0x0C]) = none :=
  ⟨by decide, by decide, by decide, by decide⟩

/-- C5: `Unmarshal` is not stateless across calls: `parseRefIndices` appends the
reference indices of a packet to the list `PDiff` the receiver already holds and
never resets it, so its cap of three counts the indices left by earlier packets.
The packet `50 03 02` carries two reference indices: a fresh receiver parses it
(`PDiff = [1, 1]`), and the same receiver parsing the same bytes again fails with
the too-many-PDiff error, holding `PDiff = [1, 1, 1]`. -/
theorem unmarshal_appends_reference_indices :
    (VP9Packet.zero.Unmarshal (some [0x50, 0x03, 0x02])).map (fun r => (r.1.PDiff, r.2))
      = some ([1, 1], some [], none) ∧
    ((VP9Packet.zero.Unmarshal (some [0x50, 0x03, 0x02])).bind
        (fun r => r.1.Unmarshal (some [0x50, 0x03, 0x02]))).map (fun r => (r.1.PDiff, r.2))
      = some ([1, 1, 1], none, some Error.errTooManyPDiff) :=
  ⟨by decide, by decide⟩

theorem parsePictureID_rel (p1 p2 : VP9Packet) (packet : List Nat) (pos : Nat)
    (h : Agree p1 p2) :
    StepRel (parsePictureID p1 packet pos) (parsePictureID p2 packet pos) := by
  obtain ⟨h1, h2, h3, h4, h5, h6, h7, h8, h9⟩ := h
  unfold parsePictureID
  split
  · exact ⟨⟨h1, h2, h3, h4, h5, h6, h7, h8, h9⟩, rfl, rfl⟩
  · cases packet[pos]? with
    | none => simp [StepRel]
    | some b =>
      simp only [Option.bind_eq_bind, Option.some_bind]
      split
      · split
        · exact ⟨⟨h1, h2, h3, h4, h5, h6, h7, rfl, h9⟩, rfl, rfl⟩
        · cases packet[pos + 1]? with
          | none => simp [StepRel]
          | some b2 => exact ⟨⟨h1, h2, h3, h4, h5, h6, h7, rfl, h9⟩, rfl, rfl⟩
      · exact ⟨⟨h1, h2, h3, h4, h5, h6, h7, rfl, h9⟩, rfl, rfl⟩

end vpx

namespace vpx

theorem StepRel.bind {β : Type} {r1 r2 : Option Step} (R : Option β → Option β → Prop)
    (hnone : R none none) (f1 f2 : Step → Option β) (h : StepRel r1 r2)
    (hf : ∀ q1 q2 pos e, Agree q1 q2 → R (f1 (q1, pos, e)) (f2 (q2, pos, e))) :
    R (r1.bind f1) (r2.bind f2) := by
  cases r1 with
  | none =>
    cases r2 with
    | none => exact hnone
    | some s2 => exact absurd h (by simp [StepRel])
  | some s1 =>
    cases r2 with
    | none => exact absurd h (by simp [StepRel])
    | some s2 =>
      obtain ⟨q1, pos1, e1⟩ := s1
      obtain ⟨q2, pos2, e2⟩ := s2
      obtain ⟨ha, hp, he⟩ := h
      subst hp he
      exact hf q1 q2 pos1 e1 ha

theorem parseLayerInfoCommon_rel (p1 p2 : VP9Packet) (packet : List Nat) (pos : Nat)
    (h : Agree p1 p2) :
    StepRel (parseLayerInfoCommon p1 packet pos) (parseLayerInfoCommon p2 packet pos) := by
  obtain ⟨h1, h2, h3, h4, h5, h6, h7, h8, h9⟩ := h
  unfold parseLayerInfoCommon
  split
  · exact ⟨⟨h1, h2, h3, h4, h5, h6, h7, h8, h9⟩, rfl, rfl⟩
  · cases packet[pos]? with
    | none => simp [StepRel]
    | some b =>
      simp only [Option.bind_eq_bind, Option.some_bind]
      split
      · exact ⟨⟨h1, h2, h3, h4, h5, h6, h7, h8, h9⟩, rfl, rfl⟩
      · exact ⟨⟨h1, h2, h3, h4, h5, h6, h7, h8, h9⟩, rfl, rfl⟩

theorem parseLayerInfoNonFlexibleMode_rel (p1 p2 : VP9Packet) (packet : List Nat) (pos : Nat)
    (h : Agree p1 p2) :
    StepRel (parseLayerInfoNonFlexibleMode p1 packet pos)
      (parseLayerInfoNonFlexibleMode p2 packet pos) := by
  obtain ⟨h1, h2, h3, h4, h5, h6, h7, h8, h9⟩ := h
  unfold parseLayerInfoNonFlexibleMode
  split
  · exact ⟨⟨h1, h2, h3, h4, h5, h6, h7, h8, h9⟩, rfl, rfl⟩
  · cases packet[pos]? with
    | none => simp [StepRel]
    | some b => exact ⟨⟨h1, h2, h3, h4, h5, h6, h7, h8, h9⟩, rfl, rfl⟩

theorem parseLayerInfo_rel (p1 p2 : VP9Packet) (packet : List Nat) (pos : Nat)
    (h : Agree p1 p2) :
    StepRel (parseLayerInfo p1 packet pos) (parseLayerInfo p2 packet pos) := by
  unfold parseLayerInfo
  apply StepRel.bind StepRel trivial _ _ (parseLayerInfoCommon_rel p1 p2 packet pos h)
  intro q1 q2 pos2 e hq
  dsimp only
  split
  · exact ⟨hq, rfl, rfl⟩
  · rw [hq.2.2.2.1]
    split
    · exact ⟨hq, rfl, rfl⟩
    · exact parseLayerInfoNonFlexibleMode_rel q1 q2 packet pos2 hq

theorem parseRefIndicesLoop_rel (rest : List Nat) :
    ∀ (p1 p2 : VP9Packet) (pos : Nat), Agree p1 p2 →
      StepRel (some (parseRefIndicesLoop p1 rest pos)) (some (parseRefIndicesLoop p2 rest pos)) := by
  induction rest with
  | nil => intro p1 p2 pos h; exact ⟨h, rfl, rfl⟩
  | cons b rest ih =>
    intro p1 p2 pos h
    obtain ⟨h1, h2, h3, h4, h5, h6, h7, h8, h9⟩ := h
    have hagree : Agree { p1 with PDiff := p1.PDiff ++ [b >>> 1] }
        { p2 with PDiff := p2.PDiff ++ [b >>> 1] } :=
      ⟨h1, h2, h3, h4, h5, h6, h7, h8, by simp [h9]⟩
    simp only [parseRefIndicesLoop]
    split
    · exact ⟨hagree, rfl, rfl⟩
    · split <;> split
      · exact ⟨hagree, rfl, rfl⟩
      · exfalso; simp_all
      · exfalso; simp_all; omega
      · exact ih _ _ _ hagree

theorem parseRefIndices_rel (p1 p2 : VP9Packet) (packet : List Nat) (pos : Nat)
    (h : Agree p1 p2) :
    StepRel (parseRefIndices p1 packet pos) (parseRefIndices p2 packet pos) := by
  unfold parseRefIndices
  rw [h.2.2.2.2.2.2.2.1]
  split
  · exact ⟨h, rfl, rfl⟩
  · exact parseRefIndicesLoop_rel _ p1 p2 pos h

end vpx

namespace vpx

theorem parseSSData_rel (p1 p2 : VP9Packet) (packet : List Nat) (pos : Nat)
    (h : Agree p1 p2) :
    StepRel (parseSSData p1 packet pos) (parseSSData p2 packet pos) := by
  obtain ⟨h1, h2, h3, h4, h5, h6, h7, h8, h9⟩ := h
  unfold parseSSData
  split
  · exact ⟨⟨h1, h2, h3, h4, h5, h6, h7, h8, h9⟩, rfl, rfl⟩
  · cases packet[pos]? with
    | none => simp [StepRel]
    | some b =>
      simp only [Option.bind_eq_bind, Option.some_bind, Option.pure_def]
      split
      · cases parseSSResolutions packet ((b >>> 5 + 1) % 256) (pos + 1) [] [] with
        | none => simp [StepRel]
        | some r =>
          obtain ⟨pos2, w, hh⟩ := r
          simp only [Option.some_bind]
          split
          · cases packet[pos2]? with
            | none => simp [StepRel]
            | some g =>
              simp only [Option.some_bind]
              cases parseSSGroups packet g (pos2 + 1) with
              | none => simp [StepRel]
              | some a => exact ⟨⟨h1, h2, h3, h4, h5, h6, h7, h8, h9⟩, rfl, rfl⟩
          · cases parseSSGroups packet 0 pos2 with
            | none => simp [StepRel]
            | some a => exact ⟨⟨h1, h2, h3, h4, h5, h6, h7, h8, h9⟩, rfl, rfl⟩
      · split
        · cases packet[pos + 1]? with
          | none => simp [StepRel]
          | some g =>
            simp only [Option.some_bind]
            cases parseSSGroups packet g (pos + 1 + 1) with
            | none => simp [StepRel]
            | some a => exact ⟨⟨h1, h2, h3, h4, h5, h6, h7, h8, h9⟩, rfl, rfl⟩
        · cases parseSSGroups packet 0 (pos + 1) with
          | none => simp [StepRel]
          | some a => exact ⟨⟨h1, h2, h3, h4, h5, h6, h7, h8, h9⟩, rfl, rfl⟩

theorem StepRel.cond (c1 c2 : Bool) (hc : c1 = c2) {g1 g2 : Option Step} {a1 a2 : VP9Packet}
    {pos : Nat} (hg : StepRel g1 g2) (ha : Agree a1 a2) :
    StepRel (if c1 = true then g1 else some (a1, pos, none))
      (if c2 = true then g2 else some (a2, pos, none)) := by
  subst hc
  split
  · exact hg
  · exact ⟨ha, rfl, rfl⟩

theorem UnmarshalRel_of_agree {q1 q2 : VP9Packet} (h : Agree q1 q2) (payload : Option (List Nat))
    (e : Option Error) : UnmarshalRel true (some (q1, payload, e)) (some (q2, payload, e)) :=
  ⟨rfl, rfl, h.2.2.2.2.2.2.2.1, h.2.2.2.2.2.2.2.2, fun _ =>
    ⟨h.1, h.2.1, h.2.2.1, h.2.2.2.1, h.2.2.2.2.1, h.2.2.2.2.2.1, h.2.2.2.2.2.2.1⟩⟩

theorem Unmarshal_rel (p1 p2 : VP9Packet) (packet : List Nat) (hne : ¬ packet.length < 1)
    (hpid : p1.PictureID = p2.PictureID) (hpd : p1.PDiff = p2.PDiff) :
    UnmarshalRel true (p1.Unmarshal (some packet)) (p2.Unmarshal (some packet)) := by
  unfold VP9Packet.Unmarshal
  dsimp only
  rw [if_neg hne, if_neg hne]
  cases packet[0]? with
  | none => simp [UnmarshalRel]
  | some b0 =>
    dsimp only [Option.bind_eq_bind, Option.some_bind]
    have hA : Agree
        { p1 with I := b0 &&& 0x80 ≠ 0, P := b0 &&& 0x40 ≠ 0, L := b0 &&& 0x20 ≠ 0,
                  F := b0 &&& 0x10 ≠ 0, B := b0 &&& 0x08 ≠ 0, E := b0 &&& 0x04 ≠ 0,
                  V := b0 &&& 0x02 ≠ 0 }
        { p2 with I := b0 &&& 0x80 ≠ 0, P := b0 &&& 0x40 ≠ 0, L := b0 &&& 0x20 ≠ 0,
                  F := b0 &&& 0x10 ≠ 0, B := b0 &&& 0x08 ≠ 0, E := b0 &&& 0x04 ≠ 0,
                  V := b0 &&& 0x02 ≠ 0 } :=
      ⟨rfl, rfl, rfl, rfl, rfl, rfl, rfl, hpid, hpd⟩
    refine StepRel.bind (UnmarshalRel true) trivial _ _
      (StepRel.cond _ _ rfl (parsePictureID_rel _ _ _ _ hA) hA) ?_
    intro b1 b2 pos1 e1 hB
    dsimp only
    split
    · exact UnmarshalRel_of_agree hB _ _
    refine StepRel.bind (UnmarshalRel true) trivial _ _
      (StepRel.cond _ _ hB.2.2.1 (parseLayerInfo_rel _ _ _ _ hB) hB) ?_
    intro c1 c2 pos2 e2 hC
    dsimp only
    split
    · exact UnmarshalRel_of_agree hC _ _
    refine StepRel.bind (UnmarshalRel true) trivial _ _
      (StepRel.cond _ _ (by rw [hC.2.2.2.1, hC.2.1]) (parseRefIndices_rel _ _ _ _ hC) hC) ?_
    intro d1 d2 pos3 e3 hD
    dsimp only
    split
    · exact UnmarshalRel_of_agree hD _ _
    refine StepRel.bind (UnmarshalRel true) trivial _ _
      (StepRel.cond _ _ hD.2.2.2.2.2.2.1 (parseSSData_rel _ _ _ _ hD) hD) ?_
    intro f1 f2 pos4 e4 hF
    dsimp only
    split
    · exact UnmarshalRel_of_agree hF _ _
    split
    · exact @UnmarshalRel_of_agree { f1 with Payload := some (List.drop pos4 packet) }
        { f2 with Payload := some (List.drop pos4 packet) } hF _ _
    · trivial

end vpx

namespace vpx

/-- What does not depend on the receiver: on two receivers that hold the same
picture ID and the same list of reference indices (two fresh ones, for
instance), `Unmarshal(b)` panics on both or on neither, returns the same slice
and the same error, and leaves the same picture ID, the same reference indices
and, for a non-empty packet, the same flags I, P, L, F, B, E, V. -/
theorem unmarshal_receiver_independent (b : Option (List Nat)) (p1 p2 : VP9Packet)
    (hpid : p1.PictureID = p2.PictureID) (hpd : p1.PDiff = p2.PDiff) :
    (p1.Unmarshal b = none ∧ p2.Unmarshal b = none) ∨
    ∃ q1 q2 payload err,
      p1.Unmarshal b = some (q1, payload, err) ∧ p2.Unmarshal b = some (q2, payload, err) ∧
      q1.PictureID = q2.PictureID ∧ q1.PDiff = q2.PDiff ∧
      (∀ packet, b = some packet → packet ≠ [] →
        q1.I = q2.I ∧ q1.P = q2.P ∧ q1.L = q2.L ∧ q1.F = q2.F ∧ q1.B = q2.B ∧
        q1.E = q2.E ∧ q1.V = q2.V) := by
  cases b with
  | none =>
    exact Or.inr ⟨p1, p2, none, some Error.errNilPacket, rfl, rfl, hpid, hpd,
      fun _ h => Option.noConfusion h⟩
  | some packet =>
    by_cases hlen : packet.length < 1
    · refine Or.inr ⟨p1, p2, none, some Error.errShortPacket, ?_, ?_, hpid, hpd, ?_⟩
      · simp [VP9Packet.Unmarshal, hlen]
      · simp [VP9Packet.Unmarshal, hlen]
      · intro pk hpk hne
        have : pk = packet := (Option.some.inj hpk).symm
        subst this
        cases pk with
        | nil => exact absurd rfl hne
        | cons x xs => simp at hlen
    · have hrel := Unmarshal_rel p1 p2 packet hlen hpid hpd
      cases h1 : p1.Unmarshal (some packet) with
      | none =>
        cases h2 : p2.Unmarshal (some packet) with
        | none => exact Or.inl ⟨rfl, rfl⟩
        | some r2 => rw [h1, h2] at hrel; exact absurd hrel (by simp [UnmarshalRel])
      | some r1 =>
        cases h2 : p2.Unmarshal (some packet) with
        | none => rw [h1, h2] at hrel; exact absurd hrel (by simp [UnmarshalRel])
        | some r2 =>
          rw [h1, h2] at hrel
          obtain ⟨q1, pl1, e1⟩ := r1
          obtain ⟨q2, pl2, e2⟩ := r2
          obtain ⟨hpl, he, hq1, hq2, hfl⟩ := hrel
          subst hpl he
          exact Or.inr ⟨q1, q2, pl1, e1, rfl, rfl, hq1, hq2, fun _ _ _ => hfl rfl⟩

/-- An instance: a fresh receiver and one with other layer indices and an old
payload, on a packet with two reference indices. -/
theorem unmarshal_receiver_independent_witness :
    (VP9Packet.zero.Unmarshal (some [0x50, 0x03, 0x02]) = none ∧
      VP9Packet.Unmarshal { VP9Packet.zero with TID := 3, L := true, Payload := some [9] }
        (some [0x50, 0x03, 0x02]) = none) ∨
    ∃ q1 q2 payload err,
      VP9Packet.zero.Unmarshal (some [0x50, 0x03, 0x02]) = some (q1, payload, err) ∧
      VP9Packet.Unmarshal { VP9Packet.zero with TID := 3, L := true, Payload := some [9] }
        (some [0x50, 0x03, 0x02]) = some (q2, payload, err) ∧
      q1.PictureID = q2.PictureID ∧ q1.PDiff = q2.PDiff ∧
      (∀ packet, some [0x50, 0x03, 0x02] = some packet → packet ≠ [] →
        q1.I = q2.I ∧ q1.P = q2.P ∧ q1.L = q2.L ∧ q1.F = q2.F ∧ q1.B = q2.B ∧
        q1.E = q2.E ∧ q1.V = q2.V) :=
  unmarshal_receiver_independent (some [0x50, 0x03, 0x02]) VP9Packet.zero
    { VP9Packet.zero with TID := 3, L := true, Payload := some [9] } rfl rfl

end vpx

/-! ## Claims about the frame builder -/

namespace decoder

theorem headSearch_some (buffer : Nat → Option Packet) (checker : List Nat → Bool)
    (newest : Nat) :
    ∀ (fuel i h : Nat), i < 65536 → headSearch buffer checker newest fuel i = some h →
      h < 65536 ∧ ∃ pkt, buffer h = some pkt ∧ checker pkt.Payload = true := by
  intro fuel
  induction fuel with
  | zero => intro i h _ hs; simp [headSearch] at hs
  | succ fuel ih =>
    intro i h hi hs
    have hnext : (i + 1) % 65536 < 65536 := Nat.mod_lt _ (by decide)
    unfold headSearch at hs
    cases hb : buffer i with
    | none =>
      rw [hb] at hs
      dsimp only at hs
      split at hs
      · exact Option.noConfusion hs
      · exact ih _ _ hnext hs
    | some pkt =>
      rw [hb] at hs
      dsimp only at hs
      split at hs
      · rename_i hc
        have : i = h := Option.some.inj hs
        subst this
        exact ⟨hi, pkt, hb, hc⟩
      · split at hs
        · exact Option.noConfusion hs
        · exact ih _ _ hnext hs

theorem extendRun_complete (buffer : Nat → Option Packet)
    (depacketizer : List Nat → Option (List Nat)) (ts : Nat) :
    ∀ (fuel i : Nat) (parts ps : List (List Nat)) (next : Nat), i < 65536 →
      extendRun buffer depacketizer ts fuel i parts = RunEnd.complete ps next →
      ∃ new : List (List Nat), ps = parts ++ new ∧ new.length < fuel ∧
        next = (i + new.length) % 65536 ∧
        (∀ j, j < new.length → ∃ pkt, buffer ((i + j) % 65536) = some pkt ∧
          pkt.Timestamp = ts ∧ depacketizer pkt.Payload = new[j]?) ∧
        ∃ q, buffer next = some q ∧ q.Timestamp ≠ ts := by
  intro fuel
  induction fuel with
  | zero => intro i parts ps next _ h; simp [extendRun] at h
  | succ fuel ih =>
    intro i parts ps next hi h
    unfold extendRun at h
    cases hb : buffer i with
    | none => rw [hb] at h; exact RunEnd.noConfusion h
    | some pkt =>
      rw [hb] at h
      dsimp only at h
      split at h
      · rename_i hts
        cases hd : depacketizer pkt.Payload with
        | none => rw [hd] at h; exact RunEnd.noConfusion h
        | some part =>
          rw [hd] at h
          dsimp only at h
          obtain ⟨new, hps, hlen, hnext, hrun, hq⟩ :=
            ih _ _ _ _ (Nat.mod_lt _ (by decide)) h
          refine ⟨part :: new, by simp [hps], by simp; omega, ?_, ?_, hq⟩
          · rw [hnext]; simp only [List.length_cons]; omega
          · intro j hj
            cases j with
            | zero =>
              refine ⟨pkt, ?_, hts, by simp [hd]⟩
              rw [Nat.add_zero, Nat.mod_eq_of_lt hi]; exact hb
            | succ j =>
              obtain ⟨pk, h1, h2, h3⟩ := hrun j (by simpa using hj)
              refine ⟨pk, ?_, h2, by simpa using h3⟩
              have e : (i + (j + 1)) % 65536 = ((i + 1) % 65536 + j) % 65536 := by omega
              rw [e]; exact h1
      · rename_i hts
        simp only [RunEnd.complete.injEq] at h
        obtain ⟨h1, h2⟩ := h
        subst h1 h2
        exact ⟨[], by simp, by simp, by simp [Nat.mod_eq_of_lt hi], by simp, pkt, hb, hts⟩

theorem lowestBuffered_lt (buffer : Nat → Option Packet) :
    ∀ (fuel i c : Nat), i + fuel ≤ 65536 → lowestBuffered buffer fuel i = some c → c < 65536 := by
  intro fuel
  induction fuel with
  | zero => intro i c _ h; simp [lowestBuffered] at h
  | succ fuel ih =>
    intro i c hi h
    unfold lowestBuffered at h
    cases hb : buffer i with
    | none => rw [hb] at h; exact ih _ _ (by omega) h
    | some pkt =>
      rw [hb] at h
      have : i = c := Option.some.inj h
      omega

/-- What a call of `Pop` that returns a frame went through. -/
theorem Pop_some (s : FrameBuilder) (f : Frame) (h : s.Pop.2 = some f) :
    ∃ newest cursor start head next,
      s.newest = some newest ∧ cursor < 65536 ∧
      headSearch s.buffer s.checker newest 65536 cursor = some start ∧
      s.buffer start = some head ∧
      extendRun s.buffer s.depacketizer head.Timestamp 65536 start [] =
        RunEnd.complete f.Packets next ∧
      f.Timestamp = head.Timestamp ∧ s.Pop.1.cursor = some next := by
  unfold FrameBuilder.Pop at h ⊢
  cases hn : s.newest with
  | none => rw [hn] at h; exact Option.noConfusion h
  | some newest =>
    rw [hn] at h
    dsimp only at h ⊢
    have hstart : ∀ c, (match s.cursor with
        | some c => some (c % 65536)
        | none => lowestBuffered s.buffer 65536 0) = some c → c < 65536 := by
      intro c hc
      cases hcur : s.cursor with
      | none => rw [hcur] at hc; exact lowestBuffered_lt _ _ _ _ (by omega) hc
      | some c0 =>
        rw [hcur] at hc
        have := Option.some.inj hc
        omega
    revert hstart h
    generalize (match s.cursor with
        | some c => some (c % 65536)
        | none => lowestBuffered s.buffer 65536 0) = st
    intro h hstart
    cases st with
    | none => exact Option.noConfusion h
    | some cursor =>
      dsimp only at h ⊢
      cases hh : headSearch s.buffer s.checker newest 65536 cursor with
      | none => rw [hh] at h; exact Option.noConfusion h
      | some start =>
        rw [hh] at h
        dsimp only at h ⊢
        cases hb : s.buffer start with
        | none => rw [hb] at h; exact Option.noConfusion h
        | some head =>
          rw [hb] at h
          dsimp only at h ⊢
          cases hr : extendRun s.buffer s.depacketizer head.Timestamp 65536 start [] with
          | gap => rw [hr] at h; exact Option.noConfusion h
          | depacketizerError => rw [hr] at h; exact Option.noConfusion h
          | exhausted => rw [hr] at h; exact Option.noConfusion h
          | complete parts next =>
            rw [hr] at h
            dsimp only at h ⊢
            have hf := Option.some.inj h
            subst hf
            exact ⟨newest, cursor, start, head, next, rfl, hstart _ rfl, hh, hb, hr, rfl, rfl⟩

end decoder

namespace decoder

set_option maxRecDepth 1000000 in
/-- The model reproduces the expected result of that test: one frame, of
timestamp 6, holding the payload of packet 5007. -/
theorem gapScenario_pop :
    gapScenario.Pop.2 = some { Packets := [[0x02]], Timestamp := 6 } := by
  decide

/-- C3: a frame returned by `Pop` is one non-empty run of contiguous slots
`start, start+1, ...` (mod 65536) of the buffer, each holding a packet of the
frame's timestamp, its parts being the depacketized payloads of these packets in
sequence order; the packet at `start` satisfies the head checker, so a checker
that accepts nothing lets no frame out. -/
theorem pop_frame_is_run (s : FrameBuilder) (f : Frame) (h : s.Pop.2 = some f) :
    ∃ start, start < 65536 ∧ 1 ≤ f.Packets.length ∧ f.Packets.length < 65536 ∧
      (∀ j, j < f.Packets.length → ∃ pkt, s.buffer ((start + j) % 65536) = some pkt ∧
        pkt.Timestamp = f.Timestamp ∧ s.depacketizer pkt.Payload = f.Packets[j]?) ∧
      (∃ head, s.buffer start = some head ∧ s.checker head.Payload = true) ∧
      ¬ (∀ payload, s.checker payload = false) := by
  obtain ⟨newest, cursor, start, head, next, _, hc, hh, hb, hr, hts, _⟩ := Pop_some s f h
  obtain ⟨hlt, pkt, hpkt, hchk⟩ := headSearch_some _ _ _ _ _ _ hc hh
  obtain ⟨new, hps, hlen, hnext, hrun, q, hq, hqts⟩ :=
    extendRun_complete _ _ _ _ _ _ _ _ hlt hr
  rw [List.nil_append] at hps
  subst hps
  have hpos : 1 ≤ f.Packets.length := by
    rcases Nat.eq_zero_or_pos f.Packets.length with h0 | h0
    · rw [h0, Nat.add_zero, Nat.mod_eq_of_lt hlt] at hnext
      rw [hnext, hb] at hq
      exact absurd (congrArg Packet.Timestamp (Option.some.inj hq)).symm hqts
    · exact h0
  refine ⟨start, hlt, hpos, hlen, ?_, ⟨pkt, hpkt, hchk⟩, ?_⟩
  · intro j hj
    obtain ⟨pk, h1, h2, h3⟩ := hrun j hj
    exact ⟨pk, h1, by rw [hts]; exact h2, h3⟩
  · intro hall
    rw [hall] at hchk
    exact Bool.noConfusion hchk

/-- Witness of C3: the test scenario with a gap bridged by a head. -/
theorem pop_frame_is_run_witness :
    ∃ start, start < 65536 ∧
      1 ≤ ({ Packets := [[0x02]], Timestamp := 6 } : Frame).Packets.length ∧
      ({ Packets := [[0x02]], Timestamp := 6 } : Frame).Packets.length < 65536 ∧
      (∀ j, j < ({ Packets := [[0x02]], Timestamp := 6 } : Frame).Packets.length →
        ∃ pkt, gapScenario.buffer ((start + j) % 65536) = some pkt ∧
          pkt.Timestamp = ({ Packets := [[0x02]], Timestamp := 6 } : Frame).Timestamp ∧
          gapScenario.depacketizer pkt.Payload
            = ({ Packets := [[0x02]], Timestamp := 6 } : Frame).Packets[j]?) ∧
      (∃ head, gapScenario.buffer start = some head ∧
        gapScenario.checker head.Payload = true) ∧
      ¬ (∀ payload, gapScenario.checker payload = false) :=
  pop_frame_is_run gapScenario { Packets := [[0x02]], Timestamp := 6 } gapScenario_pop

/-- C4, as stated, fails in its last clause: with lateness 50, packet 32774 is
pushed, then packet 6, which is stored without moving `newest` (the forward and
the backward step from 32774 are both 32768), then packet 5, which becomes
`newest`; slot 6, right after `newest`, still holds its packet, of another
timestamp, and `Pop` returns the frame of packet 5: a run that ends at the
newest buffered packet is emitted. -/
theorem pop_run_ends_at_newest_counterexample :
    staleAheadScenario.newest = some 5 ∧
    staleAheadScenario.buffer 5
      = some { SequenceNumber := 5, Timestamp := 3, Payload := [0x01] } ∧
    staleAheadScenario.buffer 6
      = some { SequenceNumber := 6, Timestamp := 2, Payload := [0x01] } ∧
    staleAheadScenario.Pop.2 = some { Packets := [[0x01]], Timestamp := 3 } := by
  decide

/-- C4 (amended): when `Pop` returns a frame, its run starting at `start` ends at
the sequence number `k`, the cursor moves to `k + 1`, and the slot `k + 1`
(mod 65536) held, when `Pop` was called, a packet whose timestamp is not the
frame's: a run followed by an empty slot is not returned.  In particular a run
that ends at `newest` is returned only when the slot after `newest` is occupied:
when that slot is empty, `k` is not `newest`. -/
theorem pop_frame_end_confirmed (s : FrameBuilder) (f : Frame) (h : s.Pop.2 = some f) :
    ∃ start k, start < 65536 ∧ 1 ≤ f.Packets.length ∧
      k = (start + (f.Packets.length - 1)) % 65536 ∧
      (∀ j, j < f.Packets.length → ∃ pkt, s.buffer ((start + j) % 65536) = some pkt ∧
        pkt.Timestamp = f.Timestamp) ∧
      s.Pop.1.cursor = some ((k + 1) % 65536) ∧
      s.buffer ((k + 1) % 65536) ≠ none ∧
      (∃ q, s.buffer ((k + 1) % 65536) = some q ∧ q.Timestamp ≠ f.Timestamp) ∧
      (∀ newest, s.newest = some newest → s.buffer ((newest + 1) % 65536) = none →
        k ≠ newest) := by
  obtain ⟨newest, cursor, start, head, next, _, hc, hh, hb, hr, hts, hcur⟩ := Pop_some s f h
  obtain ⟨hlt, pkt, hpkt, hchk⟩ := headSearch_some _ _ _ _ _ _ hc hh
  obtain ⟨new, hps, hlen, hnext, hrun, q, hq, hqts⟩ :=
    extendRun_complete _ _ _ _ _ _ _ _ hlt hr
  rw [List.nil_append] at hps
  subst hps
  have hpos : 1 ≤ f.Packets.length := by
    rcases Nat.eq_zero_or_pos f.Packets.length with h0 | h0
    · rw [h0, Nat.add_zero, Nat.mod_eq_of_lt hlt] at hnext
      rw [hnext, hb] at hq
      exact absurd (congrArg Packet.Timestamp (Option.some.inj hq)).symm hqts
    · exact h0
  have hk : ((start + (f.Packets.length - 1)) % 65536 + 1) % 65536 = next := by
    rw [hnext]; omega
  refine ⟨start, _, hlt, hpos, rfl, ?_, ?_, ?_, ?_, ?_⟩
  · intro j hj
    obtain ⟨pk, h1, h2, _⟩ := hrun j hj
    exact ⟨pk, h1, by rw [hts]; exact h2⟩
  · rw [hk]; exact hcur
  · rw [hk, hq]; exact Option.noConfusion
  · rw [hk]; exact ⟨q, hq, by rw [hts]; exact hqts⟩
  · intro n _ hempty hkn
    rw [← hkn, hk, hq] at hempty
    exact Option.noConfusion hempty

/-- Witness of C4 (amended): the test scenario with a gap bridged by a head,
where the frame of packet 5007 is confirmed by packet 5008. -/
theorem pop_frame_end_confirmed_witness :
    ∃ start k, start < 65536 ∧
      1 ≤ ({ Packets := [[0x02]], Timestamp := 6 } : Frame).Packets.length ∧
      k = (start + (({ Packets := [[0x02]], Timestamp := 6 } : Frame).Packets.length - 1))
        % 65536 ∧
      (∀ j, j < ({ Packets := [[0x02]], Timestamp := 6 } : Frame).Packets.length →
        ∃ pkt, gapScenario.buffer ((start + j) % 65536) = some pkt ∧
          pkt.Timestamp = ({ Packets := [[0x02]], Timestamp := 6 } : Frame).Timestamp) ∧
      gapScenario.Pop.1.cursor = some ((k + 1) % 65536) ∧
      gapScenario.buffer ((k + 1) % 65536) ≠ none ∧
      (∃ q, gapScenario.buffer ((k + 1) % 65536) = some q ∧
        q.Timestamp ≠ ({ Packets := [[0x02]], Timestamp := 6 } : Frame).Timestamp) ∧
      (∀ newest, gapScenario.newest = some newest →
        gapScenario.buffer ((newest + 1) % 65536) = none → k ≠ newest) :=
  pop_frame_end_confirmed gapScenario { Packets := [[0x02]], Timestamp := 6 } gapScenario_pop

end decoder

/-! ## The partition head checker and the sequence-number distance -/

namespace vpx

/-- What `IsPartitionHead` does when the parser returns, whatever the parser of
the library: on an error it returns false (the error is not propagated), and
without error it is true exactly when the flag B is set and L and D are not both
set. -/
theorem isPartitionHead_spec (unmarshal : Option (List Nat) → Option Outcome)
    (packet : Option (List Nat)) (p : VP9Packet) (payload : Option (List Nat))
    (err : Option Error) (h : unmarshal packet = some (p, payload, err)) :
    (err ≠ none → IsPartitionHead unmarshal packet = some false) ∧
    (err = none →
      (IsPartitionHead unmarshal packet = some true ↔
        (p.B = true ∧ ¬ (p.L = true ∧ p.D = true))) ∧
      (IsPartitionHead unmarshal packet = some false ↔
        ¬ (p.B = true ∧ ¬ (p.L = true ∧ p.D = true)))) := by
  unfold IsPartitionHead
  rw [h]
  constructor
  · intro he
    simp [he]
  · intro he
    subst he
    cases hB : p.B <;> cases hL : p.L <;> cases hD : p.D <;> simp [hB, hL, hD]

/-- An instance: the parser of this package standing for the library's, on a
one-byte packet with only the flag B set. -/
theorem isPartitionHead_spec_witness :
    ((none : Option Error) ≠ none →
      IsPartitionHead VP9Packet.zero.Unmarshal (some [0x08]) = some false) ∧
    ((none : Option Error) = none →
      (IsPartitionHead VP9Packet.zero.Unmarshal (some [0x08]) = some true ↔
        (({ VP9Packet.zero with I := false, B := true, Payload := some [] } : VP9Packet).B = true ∧
          ¬ (({ VP9Packet.zero with I := false, B := true, Payload := some [] } : VP9Packet).L
                = true ∧
             ({ VP9Packet.zero with I := false, B := true, Payload := some [] } : VP9Packet).D
                = true))) ∧
      (IsPartitionHead VP9Packet.zero.Unmarshal (some [0x08]) = some false ↔
        ¬ (({ VP9Packet.zero with I := false, B := true, Payload := some [] } : VP9Packet).B
              = true ∧
          ¬ (({ VP9Packet.zero with I := false, B := true, Payload := some [] } : VP9Packet).L
                = true ∧
             ({ VP9Packet.zero with I := false, B := true, Payload := some [] } : VP9Packet).D
                = true)))) :=
  isPartitionHead_spec VP9Packet.zero.Unmarshal (some [0x08])
    { VP9Packet.zero with I := false, B := true, Payload := some [] } (some []) none
    (by decide)

/-- C11: `IsPartitionHead` does not return false on every payload that fails to
parse: it turns an error of the parser into false, but it has no `recover`, so a
run-time panic of the parser is a panic of `IsPartitionHead`, whatever the
parser.  With the parser of this package standing for the library's, the payload
`0A 10` (B and V set, a scalability-structure byte with Y set and nothing behind
it) makes the parser read out of range, and `IsPartitionHead` panics; on the
payload `0A` alone the parser returns the short-packet error and
`IsPartitionHead` returns false. -/
theorem isPartitionHead_panics_on_truncated_ss :
    (∀ (unmarshal : Option (List Nat) → Option Outcome) (packet : Option (List Nat)),
      IsPartitionHead unmarshal packet = none ↔ unmarshal packet = none) ∧
    VP9Packet.zero.Unmarshal (some [0x0A, 0x10]) = none ∧
    IsPartitionHead VP9Packet.zero.Unmarshal (some [0x0A, 0x10]) = none ∧
    (VP9Packet.zero.Unmarshal (some [0x0A])).map (fun r => r.2)
      = some (none, some Error.errShortPacket) ∧
    IsPartitionHead VP9Packet.zero.Unmarshal (some [0x0A]) = some false := by
  refine ⟨?_, by decide, by decide, by decide, by decide⟩
  intro unmarshal packet
  unfold IsPartitionHead
  cases h : unmarshal packet with
  | none => exact ⟨fun _ => rfl, fun _ => rfl⟩
  | some r =>
    obtain ⟨p, payload, err⟩ := r
    constructor
    · intro hc
      dsimp only at hc
      split at hc <;> exact Option.noConfusion hc
    · intro hc
      exact Option.noConfusion hc

end vpx

namespace decoder

/-- The model gives the distances of the table of `TestSeqnumDistance`. -/
theorem seqnumDistance_test_table :
    seqnumDistance 0x0001 0x0003 = 0x0002 ∧ seqnumDistance 0x0003 0x0001 = 0x0002 ∧
    seqnumDistance 0xFFF3 0xFFF1 = 0x0002 ∧ seqnumDistance 0xFFF1 0xFFF3 = 0x0002 ∧
    seqnumDistance 0xFFFF 0x0001 = 0x0002 ∧ seqnumDistance 0x0001 0xFFFF = 0x0002 := by
  decide

/-- C17: for 16-bit `x` and `y`, `seqnumDistance x y` is the smaller of
`(x - y) mod 65536` and `(y - x) mod 65536`; it is symmetric, zero when the two
are equal, at most `0x8000`, and 2 between `0xFFFF` and `0x0001`. -/
theorem seqnumDistance_spec (x y : Nat) (hx : x < 65536) (hy : y < 65536) :
    (seqnumDistance x y : Int) = Min.min (((x : Int) - y) % 65536) (((y : Int) - x) % 65536) ∧
    seqnumDistance x y = seqnumDistance y x ∧
    seqnumDistance x x = 0 ∧
    (x = y → seqnumDistance x y = 0) ∧
    seqnumDistance x y ≤ 0x8000 ∧
    seqnumDistance 0xFFFF 0x0001 = 2 := by
  have hd : ∀ a b : Nat, seqnumDistance a b =
      if (a + 65536 - b % 65536) % 65536 ≤ (b + 65536 - a % 65536) % 65536
      then (a + 65536 - b % 65536) % 65536 else (b + 65536 - a % 65536) % 65536 := by
    intro a b; rfl
  refine ⟨?_, ?_, ?_, ?_, ?_, by decide⟩
  · rw [hd, Int.min_def]
    split_ifs <;> omega
  · rw [hd, hd]
    split_ifs <;> omega
  · rw [hd]
    split_ifs <;> omega
  · intro hxy
    rw [hd]
    split_ifs <;> omega
  · rw [hd]
    split_ifs <;> omega

/-- Witness of C17: the wrap boundary. -/
theorem seqnumDistance_spec_witness :
    (seqnumDistance 0xFFFF 0x0001 : Int)
        = Min.min ((((0xFFFF : Nat) : Int) - (0x0001 : Nat)) % 65536)
            ((((0x0001 : Nat) : Int) - (0xFFFF : Nat)) % 65536) ∧
    seqnumDistance 0xFFFF 0x0001 = seqnumDistance 0x0001 0xFFFF ∧
    seqnumDistance 0xFFFF 0xFFFF = 0 ∧
    (0xFFFF = 0x0001 → seqnumDistance 0xFFFF 0x0001 = 0) ∧
    seqnumDistance 0xFFFF 0x0001 ≤ 0x8000 ∧
    seqnumDistance 0xFFFF 0x0001 = 2 :=
  seqnumDistance_spec 0xFFFF 0x0001 (by decide) (by decide)

end decoder

/-! ## Defects of the parser shown on concrete packets -/

namespace vpx

/-- C14: on a fresh receiver a packet with F=1, P=1 and I=0 does not fail with the
no-picture-ID error: the picture ID of a fresh `VP9Packet` is 0, not
`noPictureID`, so the guard of `parseRefIndices` lets the reference indices be
read, with or without a layer byte. -/
theorem unmarshal_no_picture_id_not_raised :
    VP9Packet.zero.PictureID ≠ noPictureID ∧
    (VP9Packet.zero.Unmarshal (some [0x50, 0x02])).map (fun r => (r.1.PDiff, r.2))
      = some ([1], some [], none) ∧
    (VP9Packet.zero.Unmarshal (some [0x70, 0x00, 0x02])).map (fun r => (r.1.PDiff, r.2))
      = some ([1], some [], none) ∧
    (VP9Packet.Unmarshal { VP9Packet.zero with PictureID := noPictureID }
        (some [0x50, 0x02])).map (fun r => r.2)
      = some (none, some Error.errNoPictureID) :=
  ⟨by decide, by decide, by decide, by decide⟩

/-- C20: the flag G is not read from bit 0x08 of the SS byte alone: with SS byte
0x02 or 0x04 (a reserved bit set, bit 0x08 clear) `Unmarshal` sets G and takes the
next byte for `N_G`, so that the payload loses its first byte; with 0x08 it does
the same, and with 0x00 it does not. -/
theorem unmarshal_ss_reserved_bits_read_as_G :
    (VP9Packet.zero.Unmarshal (some [0x02, 0x02, 0x00, 0xAA])).map
        (fun r => (r.1.G, r.1.N_G, r.2))
      = some (true, 0, some [0xAA], none) ∧
    (VP9Packet.zero.Unmarshal (some [0x02, 0x04, 0x00, 0xAA])).map
        (fun r => (r.1.G, r.1.N_G, r.2))
      = some (true, 0, some [0xAA], none) ∧
    (VP9Packet.zero.Unmarshal (some [0x02, 0x08, 0x00, 0xAA])).map
        (fun r => (r.1.G, r.1.N_G, r.2))
      = some (true, 0, some [0xAA], none) ∧
    (VP9Packet.zero.Unmarshal (some [0x02, 0x00, 0x00, 0xAA])).map
        (fun r => (r.1.G, r.1.N_G, r.2))
      = some (false, 0, some [0x00, 0xAA], none) :=
  ⟨by decide, by decide, by decide, by decide⟩

end vpx

/-! ## The ring of the frame builder -/

namespace decoder

/-- The model passes `TestFrameBuilderCleanReference`: after the jump to
`seqStart + 14` the three old slots are empty and the two new packets are kept,
from each of the three starting sequence numbers of the test. -/
theorem cleanReferenceScenario_test :
    (∀ seqStart ∈ [0, 0xFFF8, 0xFFFE], ∀ i ∈ [0, 1, 2],
      (cleanReferenceScenario seqStart).buffer ((i + seqStart) % 65536) = none) ∧
    (∀ seqStart ∈ [0, 0xFFF8, 0xFFFE],
      (cleanReferenceScenario seqStart).buffer ((14 + seqStart) % 65536)
        = some { SequenceNumber := (14 + seqStart) % 65536, Timestamp := 120, Payload := [0x04] } ∧
      (cleanReferenceScenario seqStart).buffer ((12 + seqStart) % 65536)
        = some { SequenceNumber := (12 + seqStart) % 65536, Timestamp := 120,
                 Payload := [0x05] }) := by
  decide

/-- C12, as stated, fails: a packet pushed far behind `newest` is stored
whatever its distance, so after that insert an occupied slot lies farther from
`newest` than the lateness. -/
theorem push_invariant_counterexample :
    latePacketScenario.maxLate = 10 ∧ latePacketScenario.newest = some 100 ∧
    latePacketScenario.buffer 50
      = some { SequenceNumber := 50, Timestamp := 3, Payload := [0x02] } ∧
    ¬ (seqnumDistance 50 100 ≤ latePacketScenario.maxLate) := by
  decide

theorem seqnumDistance_self (x : Nat) : seqnumDistance (x % 65536) (x % 65536) = 0 := by
  have hd : seqnumDistance (x % 65536) (x % 65536) =
      if (x % 65536 + 65536 - x % 65536 % 65536) % 65536
          ≤ (x % 65536 + 65536 - x % 65536 % 65536) % 65536
      then (x % 65536 + 65536 - x % 65536 % 65536) % 65536
      else (x % 65536 + 65536 - x % 65536 % 65536) % 65536 := rfl
  rw [hd]
  split_ifs <;> omega

/-- C12 (amended): a push stores its packet in its slot; when it advances
`newest`, afterwards every occupied slot is within the lateness of the new
`newest`, and every other slot is emptied exactly when it is farther than the
lateness from the new `newest` and otherwise left as it was; when it does not
advance `newest`, `newest` and every other slot are left as they were. -/
theorem push_eviction (s : FrameBuilder) (p : Packet) :
    (s.Push p).maxLate = s.maxLate ∧
    (s.Push p).buffer (p.SequenceNumber % 65536) = some p ∧
    (s.advances p = true →
      (s.Push p).newest = some (p.SequenceNumber % 65536) ∧
      (∀ i pkt, (s.Push p).buffer i = some pkt →
        seqnumDistance i (p.SequenceNumber % 65536) ≤ s.maxLate) ∧
      (∀ i, i ≠ p.SequenceNumber % 65536 →
        (s.Push p).buffer i =
          if seqnumDistance i (p.SequenceNumber % 65536) > s.maxLate then none
          else s.buffer i)) ∧
    (s.advances p = false →
      (s.Push p).newest = s.newest ∧
      ∀ i, i ≠ p.SequenceNumber % 65536 → (s.Push p).buffer i = s.buffer i) := by
  unfold FrameBuilder.Push FrameBuilder.advances
  cases hn : s.newest with
  | none =>
    simp only [if_true]
    refine ⟨trivial, by simp, ?_, by simp⟩
    intro _
    refine ⟨trivial, ?_, ?_⟩
    · intro i pkt hi
      by_cases hi2 : i = p.SequenceNumber % 65536
      · rw [hi2, seqnumDistance_self]; exact Nat.zero_le _
      · simp only [hi2, if_false] at hi
        by_contra hcon
        rw [if_pos (by omega)] at hi
        exact Option.noConfusion hi
    · intro i hi
      simp only [hi, if_false]
  | some n =>
    by_cases ha : (p.SequenceNumber % 65536 + 65536 - n) % 65536
        < (n + 65536 - p.SequenceNumber % 65536) % 65536
    · simp only [ha, decide_True, if_true]
      refine ⟨trivial, by simp, ?_, by simp⟩
      intro _
      refine ⟨trivial, ?_, ?_⟩
      · intro i pkt hi
        by_cases hi2 : i = p.SequenceNumber % 65536
        · rw [hi2, seqnumDistance_self]; exact Nat.zero_le _
        · simp only [hi2, if_false] at hi
          by_contra hcon
          rw [if_pos (by omega)] at hi
          exact Option.noConfusion hi
      · intro i hi
        simp only [hi, if_false]
    · simp only [ha, decide_False, Bool.false_eq_true, if_false]
      refine ⟨trivial, by simp, by simp, ?_⟩
      intro _
      refine ⟨hn, ?_⟩
      intro i hi
      simp only [hi, if_false]

end decoder

namespace decoder

/-- Witness of C12 (amended): on the builder holding packets 100 and 50 with
lateness 10, the push of packet 120 advances `newest` and the push of packet 60
does not. -/
theorem push_eviction_witness :
    (latePacketScenario.advances { SequenceNumber := 120, Timestamp := 9, Payload := [0x03] }
        = true ∧
      (latePacketScenario.Push
          { SequenceNumber := 120, Timestamp := 9, Payload := [0x03] }).newest
        = some (120 % 65536) ∧
      (∀ i pkt, (latePacketScenario.Push
          { SequenceNumber := 120, Timestamp := 9, Payload := [0x03] }).buffer i = some pkt →
        seqnumDistance i (120 % 65536) ≤ latePacketScenario.maxLate) ∧
      (∀ i, i ≠ 120 % 65536 →
        (latePacketScenario.Push
            { SequenceNumber := 120, Timestamp := 9, Payload := [0x03] }).buffer i =
          if seqnumDistance i (120 % 65536) > latePacketScenario.maxLate then none
          else latePacketScenario.buffer i)) ∧
    (latePacketScenario.advances { SequenceNumber := 60, Timestamp := 4, Payload := [0x04] }
        = false ∧
      (latePacketScenario.Push
          { SequenceNumber := 60, Timestamp := 4, Payload := [0x04] }).newest
        = latePacketScenario.newest ∧
      ∀ i, i ≠ 60 % 65536 →
        (latePacketScenario.Push
            { SequenceNumber := 60, Timestamp := 4, Payload := [0x04] }).buffer i
          = latePacketScenario.buffer i) :=
  ⟨⟨by decide,
      (push_eviction latePacketScenario
        { SequenceNumber := 120, Timestamp := 9, Payload := [0x03] }).2.2.1 (by decide)⟩,
    ⟨by decide,
      (push_eviction latePacketScenario
        { SequenceNumber := 60, Timestamp := 4, Payload := [0x04] }).2.2.2 (by decide)⟩⟩

end decoder

/-! ## `Pop` without a frame -/

namespace decoder

theorem extendRun_gap_mono (b b2 : Nat → Option Packet)
    (depacketizer : List Nat → Option (List Nat)) (ts : Nat)
    (hsub : ∀ j, b2 j = b j ∨ b2 j = none) :
    ∀ (fuel i : Nat) (parts : List (List Nat)),
      extendRun b depacketizer ts fuel i parts = RunEnd.gap →
      extendRun b2 depacketizer ts fuel i parts = RunEnd.gap := by
  intro fuel
  induction fuel with
  | zero => intro i parts h; simp [extendRun] at h
  | succ fuel ih =>
    intro i parts h
    unfold extendRun at h ⊢
    rcases hsub i with h2 | h2
    · rw [h2]
      cases hb : b i with
      | none => rfl
      | some pkt =>
        rw [hb] at h
        dsimp only at h ⊢
        split at h
        · cases hd : depacketizer pkt.Payload with
          | none => rw [hd] at h; exact RunEnd.noConfusion h
          | some part =>
            rw [hd] at h
            dsimp only at h ⊢
            rename_i hts
            rw [if_pos hts]
            exact ih _ _ h
        · exact RunEnd.noConfusion h
    · rw [h2]

theorem inRange_self (a i : Nat) : inRange a a i = false := by
  simp [inRange]

/-- `Pop`, with the start of its head search named. -/
theorem Pop_eq (s : FrameBuilder) :
    s.Pop =
      match s.newest with
      | none => (s, none)
      | some newest =>
        match s.popStart with
        | none => (s, none)
        | some cursor =>
          match headSearch s.buffer s.checker newest 65536 cursor with
          | none => (s, none)
          | some h =>
            match s.buffer h with
            | none => (s, none)
            | some head =>
              match extendRun s.buffer s.depacketizer head.Timestamp 65536 h [] with
              | RunEnd.complete parts next =>
                ({ s with cursor := some next,
                          buffer := fun i =>
                            if (inRange cursor h i && i != cursor) || inRange h next i then none
                            else s.buffer i },
                 some { Packets := parts, Timestamp := head.Timestamp })
              | RunEnd.gap =>
                ({ s with cursor := some h,
                          buffer := fun i =>
                            if inRange cursor h i && i != cursor then none else s.buffer i },
                 none)
              | RunEnd.depacketizerError => (s, none)
              | RunEnd.exhausted => (s, none) := by
  unfold FrameBuilder.Pop FrameBuilder.popStart
  cases s.newest with
  | none => rfl
  | some newest => cases s.cursor <;> rfl

/-- What `Pop` does in each of its cases without a frame. -/
theorem Pop_none_cases (s : FrameBuilder) (h : s.Pop.2 = none) :
    s.Pop = (s, none) ∨
    ∃ newest cursor hd head,
      s.newest = some newest ∧ s.popStart = some cursor ∧
      headSearch s.buffer s.checker newest 65536 cursor = some hd ∧
      s.buffer hd = some head ∧
      extendRun s.buffer s.depacketizer head.Timestamp 65536 hd [] = RunEnd.gap ∧
      s.Pop = ({ s with cursor := some hd,
                        buffer := fun i =>
                          if inRange cursor hd i && i != cursor then none else s.buffer i },
               none) := by
  rw [Pop_eq] at h ⊢
  cases hn : s.newest with
  | none => exact Or.inl rfl
  | some newest =>
    rw [hn] at h
    dsimp only at h ⊢
    cases hs : s.popStart with
    | none => exact Or.inl rfl
    | some cursor =>
      rw [hs] at h
      dsimp only at h ⊢
      cases hh : headSearch s.buffer s.checker newest 65536 cursor with
      | none => exact Or.inl rfl
      | some hd =>
        rw [hh] at h
        dsimp only at h ⊢
        cases hb : s.buffer hd with
        | none => exact Or.inl rfl
        | some head =>
          rw [hb] at h
          dsimp only at h ⊢
          cases hr : extendRun s.buffer s.depacketizer head.Timestamp 65536 hd [] with
          | gap =>
            exact Or.inr ⟨newest, cursor, hd, head, rfl, rfl, hh, hb, hr, rfl⟩
          | depacketizerError => exact Or.inl rfl
          | exhausted => exact Or.inl rfl
          | complete parts next =>
            rw [hr] at h
            exact Option.noConfusion h

theorem popStart_lt (s : FrameBuilder) (c : Nat) (h : s.popStart = some c) : c < 65536 := by
  unfold FrameBuilder.popStart at h
  cases hc : s.cursor with
  | none => rw [hc] at h; exact lowestBuffered_lt _ _ _ _ (by omega) h
  | some c0 =>
    rw [hc] at h
    have := Option.some.inj h
    omega

/-- After a `Pop` that stopped at a gap behind the head `hd`, the next `Pop` finds
the same head, stops at a gap again and leaves cursor and ring as they are. -/
theorem Pop_after_gap (s : FrameBuilder) (newest cursor hd : Nat) (head : Packet)
    (hn : s.newest = some newest) (hs : s.popStart = some cursor)
    (hh : headSearch s.buffer s.checker newest 65536 cursor = some hd)
    (hb : s.buffer hd = some head)
    (hr : extendRun s.buffer s.depacketizer head.Timestamp 65536 hd [] = RunEnd.gap) :
    (FrameBuilder.Pop
        { s with cursor := some hd,
                 buffer := fun i =>
                   if inRange cursor hd i && i != cursor then none else s.buffer i }).2 = none ∧
    (FrameBuilder.Pop
        { s with cursor := some hd,
                 buffer := fun i =>
                   if inRange cursor hd i && i != cursor then none else s.buffer i }).1.cursor
      = some hd ∧
    ∀ i, (FrameBuilder.Pop
        { s with cursor := some hd,
                 buffer := fun i =>
                   if inRange cursor hd i && i != cursor then none else s.buffer i }).1.buffer i
      = if inRange cursor hd i && i != cursor then none else s.buffer i := by
  obtain ⟨hlt, pkt, hpkt, hchk⟩ := headSearch_some _ _ _ _ _ _ (popStart_lt s cursor hs) hh
  rw [hb] at hpkt
  have hpk : head = pkt := Option.some.inj hpkt
  subst hpk
  have hbhd : (if inRange cursor hd hd && hd != cursor then none else s.buffer hd)
      = some head := by
    have : inRange cursor hd hd = false := by simp [inRange]
    rw [this, hb]; rfl
  have hsub : ∀ j, (if inRange cursor hd j && j != cursor then none else s.buffer j)
      = s.buffer j ∨ (if inRange cursor hd j && j != cursor then none else s.buffer j) = none := by
    intro j
    split
    · exact Or.inr rfl
    · exact Or.inl rfl
  have hr2 := extendRun_gap_mono s.buffer
    (fun i => if inRange cursor hd i && i != cursor then none else s.buffer i)
    s.depacketizer head.Timestamp hsub 65536 hd [] hr
  have hh2 : headSearch
      (fun i => if inRange cursor hd i && i != cursor then none else s.buffer i)
      s.checker newest 65536 (hd % 65536) = some hd := by
    rw [Nat.mod_eq_of_lt hlt]
    show headSearch _ _ _ (65535 + 1) hd = some hd
    unfold headSearch
    simp only [hbhd, hchk, if_true]
  have hpop : FrameBuilder.Pop
        { s with cursor := some hd,
                 buffer := fun i =>
                   if inRange cursor hd i && i != cursor then none else s.buffer i }
      = ({ s with cursor := some hd,
                  buffer := fun i =>
                    if inRange hd hd i && i != hd then none
                    else (if inRange cursor hd i && i != cursor then none else s.buffer i) },
         none) := by
    rw [Pop_eq]
    simp only [hn, FrameBuilder.popStart, hh2, hbhd, hr2]
    rw [Nat.mod_eq_of_lt hlt]
  rw [hpop]
  refine ⟨rfl, rfl, ?_⟩
  intro i
  simp only [inRange_self, Bool.false_and, Bool.false_eq_true, if_false]

set_option maxRecDepth 100000 in
/-- C13, as stated, fails: with the cursor on packet 1, which is not a head, and
the head 2 followed by an empty slot, `Pop` returns no frame and yet moves the
cursor from 1 to 2. -/
theorem pop_none_counterexample :
    gapAfterPopScenario.Pop.2 = none ∧ gapAfterPopScenario.cursor = some 1 ∧
    gapAfterPopScenario.Pop.1.cursor = some 2 := by
  decide

/-- C13 (amended): when `Pop` returns no frame, an immediately repeated `Pop`
returns no frame either and changes neither the cursor nor any slot; the first
call leaves the builder as it was when nothing is buffered, no head is found,
the depacketizer fails or the run goes round the whole ring, and when the run
after the head `hd` stops at a gap it leaves the cursor on `hd` and empties
exactly the slots skipped strictly between the start of the search and `hd`. -/
theorem pop_none_idempotent (s : FrameBuilder) (h : s.Pop.2 = none) :
    (s.Pop.1.Pop.2 = none ∧ s.Pop.1.Pop.1.cursor = s.Pop.1.cursor ∧
      ∀ i, s.Pop.1.Pop.1.buffer i = s.Pop.1.buffer i) ∧
    (s.Pop.1 = s ∨
      ∃ newest cursor hd head,
        s.newest = some newest ∧ s.popStart = some cursor ∧
        headSearch s.buffer s.checker newest 65536 cursor = some hd ∧
        s.buffer hd = some head ∧
        extendRun s.buffer s.depacketizer head.Timestamp 65536 hd [] = RunEnd.gap ∧
        s.Pop.1.cursor = some hd ∧
        ∀ i, s.Pop.1.buffer i
          = if inRange cursor hd i && i != cursor then none else s.buffer i) ∧
    (s.newest = none → s.Pop.1 = s) ∧
    (s.popStart = none → s.Pop.1 = s) ∧
    (∀ newest cursor, s.newest = some newest → s.popStart = some cursor →
      headSearch s.buffer s.checker newest 65536 cursor = none → s.Pop.1 = s) ∧
    (∀ newest cursor hd head, s.newest = some newest → s.popStart = some cursor →
      headSearch s.buffer s.checker newest 65536 cursor = some hd →
      s.buffer hd = some head →
      extendRun s.buffer s.depacketizer head.Timestamp 65536 hd []
        = RunEnd.depacketizerError → s.Pop.1 = s) := by
  refine ⟨?_, ?_, ?_, ?_, ?_, ?_⟩
  · rcases Pop_none_cases s h with h1 | ⟨newest, cursor, hd, head, hn, hs, hh, hb, hr, hp⟩
    · rw [h1]
      dsimp only
      rw [h1]
      exact ⟨rfl, rfl, fun _ => rfl⟩
    · rw [hp]
      dsimp only
      obtain ⟨h1, h2, h3⟩ := Pop_after_gap s newest cursor hd head hn hs hh hb hr
      exact ⟨h1, h2, h3⟩
  · rcases Pop_none_cases s h with h1 | ⟨newest, cursor, hd, head, hn, hs, hh, hb, hr, hp⟩
    · left; rw [h1]
    · right
      refine ⟨newest, cursor, hd, head, hn, hs, hh, hb, hr, ?_, ?_⟩
      · rw [hp]
      · intro i; rw [hp]
  · intro hn
    rw [Pop_eq]; simp only [hn]
  · intro hs
    rw [Pop_eq]
    cases hn : s.newest with
    | none => rfl
    | some newest => simp only [hs]
  · intro newest cursor hn hs hh
    rw [Pop_eq]; simp only [hn, hs, hh]
  · intro newest cursor hd head hn hs hh hb hr
    rw [Pop_eq]; simp only [hn, hs, hh, hb, hr]

set_option maxRecDepth 100000 in
/-- Witness of C13 (amended): the builder whose cursor stands on a packet that is
not a head. -/
theorem pop_none_idempotent_witness :
    (gapAfterPopScenario.Pop.1.Pop.2 = none ∧
      gapAfterPopScenario.Pop.1.Pop.1.cursor = gapAfterPopScenario.Pop.1.cursor ∧
      ∀ i, gapAfterPopScenario.Pop.1.Pop.1.buffer i = gapAfterPopScenario.Pop.1.buffer i) ∧
    (gapAfterPopScenario.Pop.1 = gapAfterPopScenario ∨
      ∃ newest cursor hd head,
        gapAfterPopScenario.newest = some newest ∧
        gapAfterPopScenario.popStart = some cursor ∧
        headSearch gapAfterPopScenario.buffer gapAfterPopScenario.checker newest 65536 cursor
          = some hd ∧
        gapAfterPopScenario.buffer hd = some head ∧
        extendRun gapAfterPopScenario.buffer gapAfterPopScenario.depacketizer head.Timestamp
          65536 hd [] = RunEnd.gap ∧
        gapAfterPopScenario.Pop.1.cursor = some hd ∧
        ∀ i, gapAfterPopScenario.Pop.1.buffer i
          = if inRange cursor hd i && i != cursor then none
            else gapAfterPopScenario.buffer i) ∧
    (gapAfterPopScenario.newest = none → gapAfterPopScenario.Pop.1 = gapAfterPopScenario) ∧
    (gapAfterPopScenario.popStart = none → gapAfterPopScenario.Pop.1 = gapAfterPopScenario) ∧
    (∀ newest cursor, gapAfterPopScenario.newest = some newest →
      gapAfterPopScenario.popStart = some cursor →
      headSearch gapAfterPopScenario.buffer gapAfterPopScenario.checker newest 65536 cursor
        = none → gapAfterPopScenario.Pop.1 = gapAfterPopScenario) ∧
    (∀ newest cursor hd head, gapAfterPopScenario.newest = some newest →
      gapAfterPopScenario.popStart = some cursor →
      headSearch gapAfterPopScenario.buffer gapAfterPopScenario.checker newest 65536 cursor
        = some hd →
      gapAfterPopScenario.buffer hd = some head →
      extendRun gapAfterPopScenario.buffer gapAfterPopScenario.depacketizer head.Timestamp
        65536 hd [] = RunEnd.depacketizerError →
      gapAfterPopScenario.Pop.1 = gapAfterPopScenario) :=
  pop_none_idempotent gapAfterPopScenario (by decide)

end decoder

/-! ## `Unmarshal` stage by stage -/

namespace vpx

theorem Unmarshal_eq (p : VP9Packet) (packet : List Nat) (b0 : Nat)
    (h0 : packet[0]? = some b0) :
    p.Unmarshal (some packet) =
      (if (setFlags p b0).I then parsePictureID (setFlags p b0) packet 1
       else some (setFlags p b0, 1, none)).bind (fromLayer packet) := by
  have hlen : ¬ packet.length < 1 := by
    intro hl
    have : packet.length ≤ 0 := by omega
    rw [List.getElem?_eq_none this] at h0
    exact Option.noConfusion h0
  unfold VP9Packet.Unmarshal
  simp only [hlen, if_false, h0, Option.bind_eq_bind, Option.some_bind]
  rfl

end vpx

namespace vpx

theorem lt_length_of_getElem? {packet : List Nat} {pos b : Nat} (h : packet[pos]? = some b) :
    pos < packet.length := by
  by_contra hcon
  rw [List.getElem?_eq_none (by omega)] at h
  exact Option.noConfusion h

theorem length_le_of_getElem? {packet : List Nat} {pos : Nat} (h : packet[pos]? = none) :
    packet.length ≤ pos := by
  by_contra hcon
  have hlt : pos < packet.length := by omega
  rw [List.getElem?_eq_getElem hlt] at h
  exact Option.noConfusion h

theorem getD_of_getElem? {packet : List Nat} {pos b : Nat} (h : packet[pos]? = some b) :
    packet.getD pos 0 = b := by
  rw [List.getD_eq_getElem?_getD, h]; rfl

/-! ### The parsers without their bound checks -/

theorem parsePictureID_none (p : VP9Packet) (packet : List Nat) (pos : Nat)
    (h : packet[pos]? = none) :
    parsePictureID p packet pos = some (p, pos, some Error.errShortPacket) := by
  simp [parsePictureID, length_le_of_getElem? h]

theorem parsePictureID_one (p : VP9Packet) (packet : List Nat) (pos b : Nat)
    (h : packet[pos]? = some b) (hm : b &&& 0x80 = 0) :
    parsePictureID p packet pos
      = some ({ p with PictureID := Int.ofNat (b &&& 0x7F) }, pos + 1, none) := by
  have hl := lt_length_of_getElem? h
  simp [parsePictureID, h, hm, Nat.not_le.mpr hl]

theorem parsePictureID_two_none (p : VP9Packet) (packet : List Nat) (pos b : Nat)
    (h : packet[pos]? = some b) (hm : b &&& 0x80 ≠ 0) (h2 : packet[pos + 1]? = none) :
    parsePictureID p packet pos
      = some ({ p with PictureID := Int.ofNat (b &&& 0x7F) }, pos + 1,
          some Error.errShortPacket) := by
  have hl := lt_length_of_getElem? h
  have hl2 := length_le_of_getElem? h2
  simp [parsePictureID, h, hm, Nat.not_le.mpr hl, hl2]

theorem parsePictureID_two (p : VP9Packet) (packet : List Nat) (pos b b2 : Nat)
    (h : packet[pos]? = some b) (hm : b &&& 0x80 ≠ 0) (h2 : packet[pos + 1]? = some b2) :
    parsePictureID p packet pos
      = some ({ p with PictureID := Int.ofNat (((b &&& 0x7F) <<< 8) ||| b2) }, pos + 2,
          none) := by
  have hl := lt_length_of_getElem? h
  have hl2 := lt_length_of_getElem? h2
  simp [parsePictureID, h, hm, h2, Nat.not_le.mpr hl, Nat.not_le.mpr hl2]

theorem parseLayerInfo_none (p : VP9Packet) (packet : List Nat) (pos : Nat)
    (h : packet[pos]? = none) :
    parseLayerInfo p packet pos = some (p, pos, some Error.errShortPacket) := by
  simp [parseLayerInfo, parseLayerInfoCommon, length_le_of_getElem? h]

theorem parseLayerInfo_tooMany (p : VP9Packet) (packet : List Nat) (pos b : Nat)
    (h : packet[pos]? = some b) (hs : (b >>> 1) &&& 0x7 ≥ 5) :
    parseLayerInfo p packet pos
      = some ({ p with TID := b >>> 5, U := b &&& 0x10 ≠ 0, SID := (b >>> 1) &&& 0x7,
                       D := b &&& 0x01 ≠ 0 }, pos, some Error.errTooManySpatialLayers) := by
  have hl := lt_length_of_getElem? h
  simp [parseLayerInfo, parseLayerInfoCommon, h, Nat.not_le.mpr hl, maxSpatialLayers, hs]

theorem parseLayerInfo_flexible (p : VP9Packet) (packet : List Nat) (pos b : Nat)
    (h : packet[pos]? = some b) (hs : (b >>> 1) &&& 0x7 < 5) (hF : p.F = true) :
    parseLayerInfo p packet pos
      = some ({ p with TID := b >>> 5, U := b &&& 0x10 ≠ 0, SID := (b >>> 1) &&& 0x7,
                       D := b &&& 0x01 ≠ 0 }, pos + 1, none) := by
  have hl := lt_length_of_getElem? h
  simp [parseLayerInfo, parseLayerInfoCommon, h, Nat.not_le.mpr hl, maxSpatialLayers,
    Nat.not_le.mpr hs, hF]

theorem parseLayerInfo_nonflexible_none (p : VP9Packet) (packet : List Nat) (pos b : Nat)
    (h : packet[pos]? = some b) (hs : (b >>> 1) &&& 0x7 < 5) (hF : p.F = false)
    (h2 : packet[pos + 1]? = none) :
    parseLayerInfo p packet pos
      = some ({ p with TID := b >>> 5, U := b &&& 0x10 ≠ 0, SID := (b >>> 1) &&& 0x7,
                       D := b &&& 0x01 ≠ 0 }, pos + 1, some Error.errShortPacket) := by
  have hl := lt_length_of_getElem? h
  have hl2 := length_le_of_getElem? h2
  simp [parseLayerInfo, parseLayerInfoCommon, parseLayerInfoNonFlexibleMode, h,
    Nat.not_le.mpr hl, maxSpatialLayers, Nat.not_le.mpr hs, hF, hl2]

theorem parseLayerInfo_nonflexible (p : VP9Packet) (packet : List Nat) (pos b t : Nat)
    (h : packet[pos]? = some b) (hs : (b >>> 1) &&& 0x7 < 5) (hF : p.F = false)
    (h2 : packet[pos + 1]? = some t) :
    parseLayerInfo p packet pos
      = some ({ p with TID := b >>> 5, U := b &&& 0x10 ≠ 0, SID := (b >>> 1) &&& 0x7,
                       D := b &&& 0x01 ≠ 0, TL0PICIDX := t }, pos + 2, none) := by
  have hl := lt_length_of_getElem? h
  have hl2 := lt_length_of_getElem? h2
  simp [parseLayerInfo, parseLayerInfoCommon, parseLayerInfoNonFlexibleMode, h, h2,
    Nat.not_le.mpr hl, maxSpatialLayers, Nat.not_le.mpr hs, hF, Nat.not_le.mpr hl2]

end vpx

namespace vpx

/-! ### The reference-index loop on a receiver without reference indices -/

theorem parseRefIndices_loop (p : VP9Packet) (packet : List Nat) (pos : Nat)
    (hpid : p.PictureID ≠ noPictureID) :
    parseRefIndices p packet pos = some (parseRefIndicesLoop p (packet.drop pos) pos) := by
  simp [parseRefIndices, hpid]

theorem refLoop_nil (p : VP9Packet) (pos : Nat) :
    parseRefIndicesLoop p [] pos = (p, pos, some Error.errShortPacket) := rfl

theorem refLoop_last (p : VP9Packet) (b : Nat) (rest : List Nat) (pos : Nat)
    (hb : b &&& 0x01 = 0) :
    parseRefIndicesLoop p (b :: rest) pos
      = ({ p with PDiff := p.PDiff ++ [b >>> 1] }, pos + 1, none) := by
  simp only [parseRefIndicesLoop, hb, if_true]

theorem refLoop_more (p : VP9Packet) (b : Nat) (rest : List Nat) (pos : Nat)
    (hb : b &&& 0x01 ≠ 0) (hlen : p.PDiff.length + 1 < maxVP9RefPics) :
    parseRefIndicesLoop p (b :: rest) pos
      = parseRefIndicesLoop { p with PDiff := p.PDiff ++ [b >>> 1] } rest (pos + 1) := by
  have : ¬ (p.PDiff.length + 1 ≥ maxVP9RefPics) := by omega
  simp only [parseRefIndicesLoop, hb, if_false, List.length_append, List.length_cons,
    List.length_nil, Nat.zero_add, this]

theorem refLoop_tooMany (p : VP9Packet) (b : Nat) (rest : List Nat) (pos : Nat)
    (hb : b &&& 0x01 ≠ 0) (hlen : p.PDiff.length + 1 ≥ maxVP9RefPics) :
    parseRefIndicesLoop p (b :: rest) pos
      = ({ p with PDiff := p.PDiff ++ [b >>> 1] }, pos, some Error.errTooManyPDiff) := by
  simp only [parseRefIndicesLoop, hb, if_false, List.length_append, List.length_cons,
    List.length_nil, Nat.zero_add, hlen, if_true]

/-- Outcome of the reference-index loop on a receiver holding no reference index
yet, by the shape of the bytes left. -/
theorem refLoop_fresh (p : VP9Packet) (rs : List Nat) (pos : Nat) (hp : p.PDiff = []) :
    (rs = [] → parseRefIndicesLoop p rs pos = (p, pos, some Error.errShortPacket)) ∧
    (∀ b1 t, rs = b1 :: t → b1 &&& 0x01 = 0 →
      parseRefIndicesLoop p rs pos = ({ p with PDiff := [b1 >>> 1] }, pos + 1, none)) ∧
    (∀ b1, rs = [b1] → b1 &&& 0x01 ≠ 0 →
      parseRefIndicesLoop p rs pos
        = ({ p with PDiff := [b1 >>> 1] }, pos + 1, some Error.errShortPacket)) ∧
    (∀ b1 b2 t, rs = b1 :: b2 :: t → b1 &&& 0x01 ≠ 0 → b2 &&& 0x01 = 0 →
      parseRefIndicesLoop p rs pos
        = ({ p with PDiff := [b1 >>> 1, b2 >>> 1] }, pos + 2, none)) ∧
    (∀ b1 b2, rs = [b1, b2] → b1 &&& 0x01 ≠ 0 → b2 &&& 0x01 ≠ 0 →
      parseRefIndicesLoop p rs pos
        = ({ p with PDiff := [b1 >>> 1, b2 >>> 1] }, pos + 2, some Error.errShortPacket)) ∧
    (∀ b1 b2 b3 t, rs = b1 :: b2 :: b3 :: t → b1 &&& 0x01 ≠ 0 → b2 &&& 0x01 ≠ 0 →
      b3 &&& 0x01 = 0 →
      parseRefIndicesLoop p rs pos
        = ({ p with PDiff := [b1 >>> 1, b2 >>> 1, b3 >>> 1] }, pos + 3, none)) ∧
    (∀ b1 b2 b3 t, rs = b1 :: b2 :: b3 :: t → b1 &&& 0x01 ≠ 0 → b2 &&& 0x01 ≠ 0 →
      b3 &&& 0x01 ≠ 0 →
      parseRefIndicesLoop p rs pos
        = ({ p with PDiff := [b1 >>> 1, b2 >>> 1, b3 >>> 1] }, pos + 2,
            some Error.errTooManyPDiff)) := by
  refine ⟨?_, ?_, ?_, ?_, ?_, ?_, ?_⟩
  · intro h; subst h; rfl
  · intro b1 t h h1; subst h
    rw [refLoop_last p b1 t pos h1, hp]; rfl
  · intro b1 h h1; subst h
    rw [refLoop_more p b1 [] pos h1 (by rw [hp]; decide), refLoop_nil, hp]; rfl
  · intro b1 b2 t h h1 h2; subst h
    rw [refLoop_more p b1 _ pos h1 (by rw [hp]; decide), refLoop_last _ b2 t _ h2, hp]; rfl
  · intro b1 b2 h h1 h2; subst h
    rw [refLoop_more p b1 _ pos h1 (by rw [hp]; decide),
      refLoop_more _ b2 [] _ h2 (by simp [hp, maxVP9RefPics]), refLoop_nil, hp]; rfl
  · intro b1 b2 b3 t h h1 h2 h3; subst h
    rw [refLoop_more p b1 _ pos h1 (by rw [hp]; decide),
      refLoop_more _ b2 _ _ h2 (by simp [hp, maxVP9RefPics]), refLoop_last _ b3 t _ h3, hp]; rfl
  · intro b1 b2 b3 t h h1 h2 h3; subst h
    rw [refLoop_more p b1 _ pos h1 (by rw [hp]; decide),
      refLoop_more _ b2 _ _ h2 (by simp [hp, maxVP9RefPics]),
      refLoop_tooMany _ b3 t _ h3 (by simp [hp, maxVP9RefPics]), hp]; rfl

end vpx

namespace vpx

/-! ### The stages of `Unmarshal`, one by one -/

theorem getD_of_none {packet : List Nat} {pos : Nat} (h : packet[pos]? = none) :
    packet.getD pos 0 = 0 := by
  rw [List.getD_eq_getElem?_getD, h]; rfl

/-- The picture-ID stage: it changes the picture ID only, fails with the
short-packet error exactly when the bytes of the picture ID are not all there,
and otherwise stops behind them. -/
theorem stageI_total (p0 : VP9Packet) (packet : List Nat)
    (hI : p0.I = decide (packet.getD 0 0 &&& 0x80 ≠ 0)) (hlen : 1 ≤ packet.length) :
    ∃ q1 pos1 e1,
      (if p0.I then parsePictureID p0 packet 1 else some (p0, 1, none)) = some (q1, pos1, e1) ∧
      q1 = { p0 with PictureID := q1.PictureID } ∧
      (e1 = none ∨ e1 = some Error.errShortPacket) ∧
      (e1 = none ↔ 1 + pictureIDLength packet ≤ packet.length) ∧
      (e1 = none → pos1 = 1 + pictureIDLength packet) ∧
      (p0.I = false → q1 = p0) ∧
      (p0.I = true → e1 = none → q1.PictureID = Int.ofNat (pictureIDValue packet)) := by
  by_cases hIb : p0.I = true
  · rw [hIb] at hI
    have hflag : packet.getD 0 0 &&& 0x80 ≠ 0 := by
      intro hc
      rw [decide_eq_false (fun h => h hc)] at hI
      exact Bool.noConfusion hI
    rw [if_pos hIb]
    have hnf : ¬ (p0.I = false) := by rw [hIb]; exact Bool.noConfusion
    cases h1 : packet[1]? with
    | none =>
      have hl := length_le_of_getElem? h1
      have hpl : pictureIDLength packet = 1 := by
        unfold pictureIDLength
        rw [if_pos hflag, getD_of_none h1]; rfl
      refine ⟨_, _, _, parsePictureID_none p0 packet 1 h1, rfl, Or.inr rfl, ?_, ?_,
        fun hc => absurd hc hnf, ?_⟩
      · rw [hpl]; constructor
        · intro hc; exact Option.noConfusion hc
        · intro hc; omega
      · intro hc; exact Option.noConfusion hc
      · intro _ hc; exact Option.noConfusion hc
    | some b =>
      have hl := lt_length_of_getElem? h1
      have hb := getD_of_getElem? h1
      by_cases hm : b &&& 0x80 = 0
      · have hpl : pictureIDLength packet = 1 := by
          unfold pictureIDLength
          rw [if_pos hflag, hb, if_neg (not_not.mpr hm)]
        refine ⟨_, _, _, parsePictureID_one p0 packet 1 b h1 hm, rfl, Or.inl rfl, ?_, ?_,
          fun hc => absurd hc hnf, ?_⟩
        · rw [hpl]; constructor
          · intro _; omega
          · intro _; rfl
        · intro _; rw [hpl]
        · intro _ _
          unfold pictureIDValue
          rw [hb, if_neg (not_not.mpr hm)]
      · have hpl : pictureIDLength packet = 2 := by
          unfold pictureIDLength
          rw [if_pos hflag, hb, if_pos hm]
        cases h2 : packet[1 + 1]? with
        | none =>
          have hl2 := length_le_of_getElem? h2
          refine ⟨_, _, _, parsePictureID_two_none p0 packet 1 b h1 hm h2, rfl, Or.inr rfl,
            ?_, ?_, fun hc => absurd hc hnf, ?_⟩
          · rw [hpl]; constructor
            · intro hc; exact Option.noConfusion hc
            · intro hc; omega
          · intro hc; exact Option.noConfusion hc
          · intro _ hc; exact Option.noConfusion hc
        | some b2 =>
          have hl2 := lt_length_of_getElem? h2
          have hb2 : packet.getD 2 0 = b2 := getD_of_getElem? h2
          refine ⟨_, _, _, parsePictureID_two p0 packet 1 b b2 h1 hm h2, rfl, Or.inl rfl,
            ?_, ?_, fun hc => absurd hc hnf, ?_⟩
          · rw [hpl]; constructor
            · intro _; omega
            · intro _; rfl
          · intro _; rw [hpl]
          · intro _ _
            unfold pictureIDValue
            rw [hb, if_pos hm, hb2]
  · have hIf : p0.I = false := by
      cases hc : p0.I
      · rfl
      · exact absurd hc hIb
    rw [hIf] at hI
    have hflag : ¬ (packet.getD 0 0 &&& 0x80 ≠ 0) := by
      intro hc; rw [decide_eq_true hc] at hI; exact Bool.noConfusion hI
    have hpl : pictureIDLength packet = 0 := by
      unfold pictureIDLength; rw [if_neg hflag]
    rw [if_neg hIb]
    refine ⟨p0, 1, none, rfl, rfl, Or.inl rfl, ?_, ?_, fun _ => rfl, ?_⟩
    · rw [hpl]; constructor
      · intro _; omega
      · intro _; rfl
    · intro _; rw [hpl]
    · intro hc; exact absurd hc hIb

end vpx

namespace vpx

theorem KeepsI_refl (p : VP9Packet) : KeepsI p p := ⟨rfl, rfl, rfl, rfl, rfl, rfl, rfl, rfl⟩

theorem KeepsL_refl (p : VP9Packet) : KeepsL p p := ⟨KeepsI_refl p, rfl, rfl, rfl, rfl, rfl⟩

theorem KeepsR_refl (p : VP9Packet) : KeepsR p p := ⟨KeepsL_refl p, rfl⟩

theorem KeepsI_trans {p q r : VP9Packet} (h1 : KeepsI p q) (h2 : KeepsI q r) : KeepsI p r := by
  obtain ⟨a1, a2, a3, a4, a5, a6, a7, a8⟩ := h1
  obtain ⟨b1, b2, b3, b4, b5, b6, b7, b8⟩ := h2
  exact ⟨a1.trans b1, a2.trans b2, a3.trans b3, a4.trans b4, a5.trans b5, a6.trans b6,
    a7.trans b7, a8.trans b8⟩

theorem KeepsL_trans {p q r : VP9Packet} (h1 : KeepsL p q) (h2 : KeepsL q r) : KeepsL p r := by
  obtain ⟨a0, a1, a2, a3, a4, a5⟩ := h1
  obtain ⟨b0, b1, b2, b3, b4, b5⟩ := h2
  exact ⟨KeepsI_trans a0 b0, a1.trans b1, a2.trans b2, a3.trans b3, a4.trans b4, a5.trans b5⟩

theorem KeepsR_trans {p q r : VP9Packet} (h1 : KeepsR p q) (h2 : KeepsR q r) : KeepsR p r :=
  ⟨KeepsL_trans h1.1 h2.1, h1.2.trans h2.2⟩

/-- The layer stage: it changes the layer indices only; its error is the
short-packet error when a byte is missing and the spatial-layer error when the
spatial layer id is 5 or more. -/
theorem stageL_total (q1 : VP9Packet) (packet : List Nat) (pos1 : Nat)
    (hL : q1.L = decide (packet.getD 0 0 &&& 0x20 ≠ 0))
    (hF : q1.F = decide (packet.getD 0 0 &&& 0x10 ≠ 0)) (hpos : pos1 ≤ packet.length) :
    ∃ q2 pos2 e2,
      (if q1.L then parseLayerInfo q1 packet pos1 else some (q1, pos1, none))
        = some (q2, pos2, e2) ∧
      KeepsI q1 q2 ∧ q2.PDiff = q1.PDiff ∧
      (e2 = none ∨ e2 = some Error.errShortPacket ∨
        e2 = some Error.errTooManySpatialLayers) ∧
      (e2 = none ↔ pos1 + layerLength packet ≤ packet.length ∧
        (q1.L = true → (packet.getD pos1 0 >>> 1) &&& 0x7 < 5)) ∧
      (e2 = none → pos2 = pos1 + layerLength packet) ∧
      (q1.L = false → q2 = q1) ∧
      (q1.L = true → ∀ b, packet[pos1]? = some b →
        q2.TID = b >>> 5 ∧ q2.U = decide (b &&& 0x10 ≠ 0) ∧ q2.SID = (b >>> 1) &&& 0x7 ∧
        q2.D = decide (b &&& 0x01 ≠ 0) ∧
        (e2 = some Error.errTooManySpatialLayers ↔ (b >>> 1) &&& 0x7 ≥ 5)) := by
  by_cases hLb : q1.L = true
  · rw [hLb] at hL
    have hflag : packet.getD 0 0 &&& 0x20 ≠ 0 := by
      intro hc
      rw [decide_eq_false (fun h => h hc)] at hL
      exact Bool.noConfusion hL
    have hnf : ¬ (q1.L = false) := by rw [hLb]; exact Bool.noConfusion
    rw [if_pos hLb]
    cases h1 : packet[pos1]? with
    | none =>
      have hl := length_le_of_getElem? h1
      have hll : 1 ≤ layerLength packet := by
        unfold layerLength; rw [if_pos hflag]; split <;> omega
      refine ⟨_, _, _, parseLayerInfo_none q1 packet pos1 h1, KeepsI_refl _, rfl,
        Or.inr (Or.inl rfl), ?_, ?_, fun hc => absurd hc hnf, ?_⟩
      · constructor
        · intro hc; exact Option.noConfusion hc
        · intro hc; omega
      · intro hc; exact Option.noConfusion hc
      · intro _ b hb; exact Option.noConfusion hb
    | some b =>
      have hl := lt_length_of_getElem? h1
      have hb := getD_of_getElem? h1
      by_cases hs : (b >>> 1) &&& 0x7 ≥ 5
      · refine ⟨_, _, _, parseLayerInfo_tooMany q1 packet pos1 b h1 hs,
          ⟨rfl, rfl, rfl, rfl, rfl, rfl, rfl, rfl⟩, rfl, Or.inr (Or.inr rfl), ?_, ?_,
          fun hc => absurd hc hnf, ?_⟩
        · constructor
          · intro hc; exact Option.noConfusion hc
          · intro hc
            have := hc.2 hLb
            rw [hb] at this
            omega
        · intro hc; exact Option.noConfusion hc
        · intro _ b' hb'
          have : b' = b := Option.some.inj hb'.symm
          subst this
          exact ⟨rfl, rfl, rfl, rfl, fun _ => hs, fun _ => rfl⟩
      · have hs' : (b >>> 1) &&& 0x7 < 5 := by omega
        by_cases hFb : q1.F = true
        · rw [hFb] at hF
          have hflagF : packet.getD 0 0 &&& 0x10 ≠ 0 := by
            intro hc
            rw [decide_eq_false (fun h => h hc)] at hF
            exact Bool.noConfusion hF
          have hll : layerLength packet = 1 := by
            unfold layerLength; rw [if_pos hflag, if_pos hflagF]
          refine ⟨_, _, _, parseLayerInfo_flexible q1 packet pos1 b h1 hs' hFb,
            ⟨rfl, rfl, rfl, rfl, rfl, rfl, rfl, rfl⟩, rfl, Or.inl rfl, ?_, ?_,
            fun hc => absurd hc hnf, ?_⟩
          · rw [hll, hb]
            constructor
            · intro _; exact ⟨by omega, fun _ => hs'⟩
            · intro _; rfl
          · intro _; rw [hll]
          · intro _ b' hb'
            have : b' = b := Option.some.inj hb'.symm
            subst this
            refine ⟨rfl, rfl, rfl, rfl, fun hc => Option.noConfusion hc, fun hc => absurd hc hs⟩
        · have hFf : q1.F = false := by
            cases hc : q1.F
            · rfl
            · exact absurd hc hFb
          rw [hFf] at hF
          have hflagF : ¬ (packet.getD 0 0 &&& 0x10 ≠ 0) := by
            intro hc; rw [decide_eq_true hc] at hF; exact Bool.noConfusion hF
          have hll : layerLength packet = 2 := by
            unfold layerLength; rw [if_pos hflag, if_neg hflagF]
          cases h2 : packet[pos1 + 1]? with
          | none =>
            have hl2 := length_le_of_getElem? h2
            refine ⟨_, _, _, parseLayerInfo_nonflexible_none q1 packet pos1 b h1 hs' hFf h2,
              ⟨rfl, rfl, rfl, rfl, rfl, rfl, rfl, rfl⟩, rfl, Or.inr (Or.inl rfl), ?_, ?_,
              fun hc => absurd hc hnf, ?_⟩
            · rw [hll]
              constructor
              · intro hc; exact Option.noConfusion hc
              · intro hc; omega
            · intro hc; exact Option.noConfusion hc
            · intro _ b' hb'
              have : b' = b := Option.some.inj hb'.symm
              subst this
              refine ⟨rfl, rfl, rfl, rfl, fun hc => ?_, fun hc => absurd hc hs⟩
              exact Error.noConfusion (Option.some.inj hc)
          | some t =>
            have hl2 := lt_length_of_getElem? h2
            refine ⟨_, _, _, parseLayerInfo_nonflexible q1 packet pos1 b t h1 hs' hFf h2,
              ⟨rfl, rfl, rfl, rfl, rfl, rfl, rfl, rfl⟩, rfl, Or.inl rfl, ?_, ?_,
              fun hc => absurd hc hnf, ?_⟩
            · rw [hll, hb]
              constructor
              · intro _; exact ⟨by omega, fun _ => hs'⟩
              · intro _; rfl
            · intro _; rw [hll]
            · intro _ b' hb'
              have : b' = b := Option.some.inj hb'.symm
              subst this
              refine ⟨rfl, rfl, rfl, rfl, fun hc => Option.noConfusion hc, fun hc => absurd hc hs⟩
  · have hLf : q1.L = false := by
      cases hc : q1.L
      · rfl
      · exact absurd hc hLb
    rw [hLf] at hL
    have hflag : ¬ (packet.getD 0 0 &&& 0x20 ≠ 0) := by
      intro hc; rw [decide_eq_true hc] at hL; exact Bool.noConfusion hL
    have hll : layerLength packet = 0 := by
      unfold layerLength; rw [if_neg hflag]
    rw [if_neg hLb]
    refine ⟨q1, pos1, none, rfl, KeepsI_refl _, rfl, Or.inl rfl, ?_, ?_, fun _ => rfl, ?_⟩
    · rw [hll]
      constructor
      · intro _; exact ⟨by omega, fun hc => absurd hc hLb⟩
      · intro _; rfl
    · intro _; rw [hll]; rfl
    · intro hc; exact absurd hc hLb

end vpx

namespace vpx

/-! ### What each stage leaves untouched -/

theorem parseLayerInfo_spec (p : VP9Packet) (packet : List Nat) (pos : Nat) :
    ∃ q pos2 e, parseLayerInfo p packet pos = some (q, pos2, e) ∧ KeepsI p q ∧
      q.PDiff = p.PDiff ∧
      (e = none ∨ e = some Error.errShortPacket ∨ e = some Error.errTooManySpatialLayers) ∧
      (e = none → pos2 ≤ packet.length) := by
  cases h1 : packet[pos]? with
  | none =>
    exact ⟨_, _, _, parseLayerInfo_none p packet pos h1, KeepsI_refl _, rfl,
      Or.inr (Or.inl rfl), fun hc => Option.noConfusion hc⟩
  | some b =>
    have hl := lt_length_of_getElem? h1
    by_cases hs : (b >>> 1) &&& 0x7 ≥ 5
    · exact ⟨_, _, _, parseLayerInfo_tooMany p packet pos b h1 hs,
        ⟨rfl, rfl, rfl, rfl, rfl, rfl, rfl, rfl⟩, rfl, Or.inr (Or.inr rfl),
        fun hc => Option.noConfusion hc⟩
    · have hs2 : (b >>> 1) &&& 0x7 < 5 := by omega
      by_cases hF : p.F = true
      · exact ⟨_, _, _, parseLayerInfo_flexible p packet pos b h1 hs2 hF,
          ⟨rfl, rfl, rfl, rfl, rfl, rfl, rfl, rfl⟩, rfl, Or.inl rfl, fun _ => hl⟩
      · have hFf : p.F = false := by
          cases hc : p.F
          · rfl
          · exact absurd hc hF
        cases h2 : packet[pos + 1]? with
        | none =>
          exact ⟨_, _, _, parseLayerInfo_nonflexible_none p packet pos b h1 hs2 hFf h2,
            ⟨rfl, rfl, rfl, rfl, rfl, rfl, rfl, rfl⟩, rfl, Or.inr (Or.inl rfl),
            fun hc => Option.noConfusion hc⟩
        | some t =>
          exact ⟨_, _, _, parseLayerInfo_nonflexible p packet pos b t h1 hs2 hFf h2,
            ⟨rfl, rfl, rfl, rfl, rfl, rfl, rfl, rfl⟩, rfl, Or.inl rfl,
            fun _ => lt_length_of_getElem? h2⟩

theorem refLoop_spec (rs : List Nat) :
    ∀ (p : VP9Packet) (pos : Nat), ∃ q pos2 e, parseRefIndicesLoop p rs pos = (q, pos2, e) ∧
      KeepsL p q ∧
      (e = none ∨ e = some Error.errShortPacket ∨ e = some Error.errTooManyPDiff) ∧
      (e = none → pos2 ≤ pos + rs.length) := by
  induction rs with
  | nil =>
    intro p pos
    exact ⟨p, pos, _, refLoop_nil p pos, KeepsL_refl p, Or.inr (Or.inl rfl),
      fun hc => Option.noConfusion hc⟩
  | cons b rest ih =>
    intro p pos
    have hk : KeepsL p { p with PDiff := p.PDiff ++ [b >>> 1] } :=
      ⟨⟨rfl, rfl, rfl, rfl, rfl, rfl, rfl, rfl⟩, rfl, rfl, rfl, rfl, rfl⟩
    by_cases hb : b &&& 0x01 = 0
    · refine ⟨_, _, _, refLoop_last p b rest pos hb, hk, Or.inl rfl, fun _ => ?_⟩
      rw [List.length_cons]; omega
    · by_cases hlen : p.PDiff.length + 1 ≥ maxVP9RefPics
      · exact ⟨_, _, _, refLoop_tooMany p b rest pos hb hlen, hk, Or.inr (Or.inr rfl),
          fun hc => Option.noConfusion hc⟩
      · obtain ⟨q, pos2, e, h, hkq, he, hp⟩ :=
          ih { p with PDiff := p.PDiff ++ [b >>> 1] } (pos + 1)
        refine ⟨q, pos2, e, ?_, KeepsL_trans hk hkq, he, fun hc => ?_⟩
        · rw [refLoop_more p b rest pos hb (by omega)]; exact h
        · have := hp hc
          rw [List.length_cons]; omega

theorem parseRefIndices_spec (p : VP9Packet) (packet : List Nat) (pos : Nat)
    (hpos : pos ≤ packet.length) :
    ∃ q pos2 e, parseRefIndices p packet pos = some (q, pos2, e) ∧ KeepsL p q ∧
      (e = none ∨ e = some Error.errShortPacket ∨ e = some Error.errTooManyPDiff ∨
        e = some Error.errNoPictureID) ∧
      (e = none → pos2 ≤ packet.length) := by
  by_cases hpid : p.PictureID = noPictureID
  · refine ⟨p, pos, _, ?_, KeepsL_refl p, Or.inr (Or.inr (Or.inr rfl)),
      fun hc => Option.noConfusion hc⟩
    unfold parseRefIndices
    rw [if_pos hpid]
  · obtain ⟨q, pos2, e, h, hk, he, hp⟩ := refLoop_spec (packet.drop pos) p pos
    refine ⟨q, pos2, e, ?_, hk, ?_, fun hc => ?_⟩
    · rw [parseRefIndices_loop p packet pos hpid, h]
    · rcases he with he | he | he
      · exact Or.inl he
      · exact Or.inr (Or.inl he)
      · exact Or.inr (Or.inr (Or.inl he))
    · have := hp hc
      rw [List.length_drop] at this
      omega

/-- Whatever the scalability-structure parser returns, it leaves the flags, the
picture ID, the layer indices and the reference indices as they were, and its
only error is the short-packet one. -/
theorem parseSSData_spec (p : VP9Packet) (packet : List Nat) (pos : Nat) (q : VP9Packet)
    (pos2 : Nat) (e : Option Error) (h : parseSSData p packet pos = some (q, pos2, e)) :
    KeepsR p q ∧ (e = none ∨ e = some Error.errShortPacket) := by
  unfold parseSSData at h
  split at h
  · cases h
    exact ⟨KeepsR_refl _, Or.inr rfl⟩
  · cases hb : packet[pos]? with
    | none => rw [hb] at h; exact Option.noConfusion h
    | some b =>
      rw [hb] at h
      simp only [Option.bind_eq_bind, Option.some_bind, Option.pure_def] at h
      split at h
      · cases hr : parseSSResolutions packet ((b >>> 5 + 1) % 256) (pos + 1) [] [] with
        | none => rw [hr] at h; exact Option.noConfusion h
        | some r =>
          obtain ⟨pos3, w, hh⟩ := r
          rw [hr] at h
          simp only [Option.some_bind] at h
          split at h
          · cases hg : packet[pos3]? with
            | none => rw [hg] at h; exact Option.noConfusion h
            | some g =>
              rw [hg] at h
              simp only [Option.some_bind] at h
              cases ha : parseSSGroups packet g (pos3 + 1) with
              | none => rw [ha] at h; exact Option.noConfusion h
              | some a =>
                rw [ha] at h
                cases h
                exact ⟨⟨⟨⟨rfl, rfl, rfl, rfl, rfl, rfl, rfl, rfl⟩, rfl, rfl, rfl, rfl, rfl⟩,
                  rfl⟩, Or.inl rfl⟩
          · cases ha : parseSSGroups packet 0 pos3 with
            | none => rw [ha] at h; exact Option.noConfusion h
            | some a =>
              rw [ha] at h
              cases h
              exact ⟨⟨⟨⟨rfl, rfl, rfl, rfl, rfl, rfl, rfl, rfl⟩, rfl, rfl, rfl, rfl, rfl⟩,
                rfl⟩, Or.inl rfl⟩
      · split at h
        · cases hg : packet[pos + 1]? with
          | none => rw [hg] at h; exact Option.noConfusion h
          | some g =>
            rw [hg] at h
            simp only [Option.some_bind] at h
            cases ha : parseSSGroups packet g (pos + 1 + 1) with
            | none => rw [ha] at h; exact Option.noConfusion h
            | some a =>
              rw [ha] at h
              cases h
              exact ⟨⟨⟨⟨rfl, rfl, rfl, rfl, rfl, rfl, rfl, rfl⟩, rfl, rfl, rfl, rfl, rfl⟩,
                rfl⟩, Or.inl rfl⟩
        · cases ha : parseSSGroups packet 0 (pos + 1) with
          | none => rw [ha] at h; exact Option.noConfusion h
          | some a =>
            rw [ha] at h
            cases h
            exact ⟨⟨⟨⟨rfl, rfl, rfl, rfl, rfl, rfl, rfl, rfl⟩, rfl, rfl, rfl, rfl, rfl⟩,
              rfl⟩, Or.inl rfl⟩

end vpx

namespace vpx

/-! ### The continuations of `Unmarshal` -/

theorem finish_err (packet : List Nat) (p : VP9Packet) (pos : Nat) (err : Option Error)
    (he : err ≠ none) : finish packet (p, pos, err) = some (p, none, err) := by
  simp only [finish, he, ne_eq, not_false_eq_true, if_true]

theorem finish_ok (packet : List Nat) (p : VP9Packet) (pos : Nat) (hpos : pos ≤ packet.length) :
    finish packet (p, pos, none)
      = some ({ p with Payload := some (packet.drop pos) }, some (packet.drop pos), none) := by
  simp only [finish, ne_eq, not_true_eq_false, if_false, hpos, if_true]

theorem fromSS_err (packet : List Nat) (p : VP9Packet) (pos : Nat) (err : Option Error)
    (he : err ≠ none) : fromSS packet (p, pos, err) = some (p, none, err) := by
  simp only [fromSS, he, ne_eq, not_false_eq_true, if_true]

theorem fromSS_ok (packet : List Nat) (p : VP9Packet) (pos : Nat) :
    fromSS packet (p, pos, none)
      = (if p.V then parseSSData p packet pos else some (p, pos, none)).bind (finish packet) := by
  simp only [fromSS, ne_eq, not_true_eq_false, if_false]

theorem fromRefs_err (packet : List Nat) (p : VP9Packet) (pos : Nat) (err : Option Error)
    (he : err ≠ none) : fromRefs packet (p, pos, err) = some (p, none, err) := by
  simp only [fromRefs, he, ne_eq, not_false_eq_true, if_true]

theorem fromRefs_ok (packet : List Nat) (p : VP9Packet) (pos : Nat) :
    fromRefs packet (p, pos, none)
      = (if p.F && p.P then parseRefIndices p packet pos else some (p, pos, none)).bind
          (fromSS packet) := by
  simp only [fromRefs, ne_eq, not_true_eq_false, if_false]

theorem fromLayer_err (packet : List Nat) (p : VP9Packet) (pos : Nat) (err : Option Error)
    (he : err ≠ none) : fromLayer packet (p, pos, err) = some (p, none, err) := by
  simp only [fromLayer, he, ne_eq, not_false_eq_true, if_true]

theorem fromLayer_ok (packet : List Nat) (p : VP9Packet) (pos : Nat) :
    fromLayer packet (p, pos, none)
      = (if p.L then parseLayerInfo p packet pos else some (p, pos, none)).bind
          (fromRefs packet) := by
  simp only [fromLayer, ne_eq, not_true_eq_false, if_false]

/-- From the scalability-structure stage on: the receiver keeps its header
fields, the error is the one handed in or the short-packet error, and without
the flag V the call returns, with the bytes from `pos` on as payload. -/
theorem fromSS_spec (packet : List Nat) (p : VP9Packet) (pos : Nat) (hpos : pos ≤ packet.length) :
    (∀ q payload e, fromSS packet (p, pos, none) = some (q, payload, e) →
      KeepsR p q ∧ (e = none ∨ e = some Error.errShortPacket)) ∧
    (p.V = false → fromSS packet (p, pos, none)
      = some ({ p with Payload := some (packet.drop pos) }, some (packet.drop pos), none)) := by
  rw [fromSS_ok]
  constructor
  · intro q payload e h
    by_cases hV : p.V = true
    · rw [if_pos hV] at h
      cases hs : parseSSData p packet pos with
      | none => rw [hs] at h; exact Option.noConfusion h
      | some s =>
        obtain ⟨q4, pos4, e4⟩ := s
        rw [hs, Option.some_bind] at h
        obtain ⟨hk, he⟩ := parseSSData_spec p packet pos q4 pos4 e4 hs
        rcases he with he | he
        · subst he
          by_cases hp4 : pos4 ≤ packet.length
          · rw [finish_ok packet q4 pos4 hp4] at h
            cases h
            exact ⟨KeepsR_trans hk ⟨⟨⟨rfl, rfl, rfl, rfl, rfl, rfl, rfl, rfl⟩, rfl, rfl, rfl, rfl,
              rfl⟩, rfl⟩, Or.inl rfl⟩
          · simp only [finish, ne_eq, not_true_eq_false, if_false, hp4] at h
            exact Option.noConfusion h
        · subst he
          rw [finish_err packet q4 pos4 _ (fun hc => Option.noConfusion hc)] at h
          cases h
          exact ⟨hk, Or.inr rfl⟩
    · rw [if_neg hV, Option.some_bind, finish_ok packet p pos hpos] at h
      cases h
      exact ⟨⟨⟨⟨rfl, rfl, rfl, rfl, rfl, rfl, rfl, rfl⟩, rfl, rfl, rfl, rfl, rfl⟩, rfl⟩,
        Or.inl rfl⟩
  · intro hV
    have hVt : ¬ (p.V = true) := by rw [hV]; exact Bool.noConfusion
    rw [if_neg hVt, Option.some_bind]
    exact finish_ok packet p pos hpos

/-- From the reference-index stage on. -/
theorem fromRefs_spec (packet : List Nat) (p : VP9Packet) (pos : Nat)
    (hpos : pos ≤ packet.length) :
    (∀ q payload e, fromRefs packet (p, pos, none) = some (q, payload, e) →
      KeepsL p q ∧
      (e = none ∨ e = some Error.errShortPacket ∨ e = some Error.errTooManyPDiff ∨
        e = some Error.errNoPictureID)) ∧
    (p.V = false → fromRefs packet (p, pos, none) ≠ none) := by
  rw [fromRefs_ok]
  by_cases hFP : (p.F && p.P) = true
  · rw [if_pos hFP]
    obtain ⟨q3, pos3, e3, h3, hk3, he3, hp3⟩ := parseRefIndices_spec p packet pos hpos
    rw [h3, Option.some_bind]
    by_cases hn : e3 = none
    · subst hn
      obtain ⟨hs1, hs2⟩ := fromSS_spec packet q3 pos3 (hp3 rfl)
      constructor
      · intro q payload e h
        obtain ⟨hk, he⟩ := hs1 q payload e h
        refine ⟨KeepsL_trans hk3 hk.1, ?_⟩
        rcases he with he | he
        · exact Or.inl he
        · exact Or.inr (Or.inl he)
      · intro hV
        rw [hs2 (by rw [← hk3.1.2.2.2.2.2.2.1]; exact hV)]
        exact fun hc => Option.noConfusion hc
    · rw [fromSS_err packet q3 pos3 e3 hn]
      constructor
      · intro q payload e h
        cases h
        exact ⟨hk3, he3⟩
      · intro _ hc; exact Option.noConfusion hc
  · rw [if_neg hFP, Option.some_bind]
    obtain ⟨hs1, hs2⟩ := fromSS_spec packet p pos hpos
    constructor
    · intro q payload e h
      obtain ⟨hk, he⟩ := hs1 q payload e h
      refine ⟨hk.1, ?_⟩
      rcases he with he | he
      · exact Or.inl he
      · exact Or.inr (Or.inl he)
    · intro hV
      rw [hs2 hV]
      exact fun hc => Option.noConfusion hc

/-- From the layer stage on. -/
theorem fromLayer_spec (packet : List Nat) (p : VP9Packet) (pos : Nat)
    (hpos : pos ≤ packet.length) :
    (∀ q payload e, fromLayer packet (p, pos, none) = some (q, payload, e) →
      KeepsI p q ∧
      (e = none ∨ e = some Error.errShortPacket ∨ e = some Error.errTooManyPDiff ∨
        e = some Error.errNoPictureID ∨ e = some Error.errTooManySpatialLayers)) ∧
    (p.V = false → fromLayer packet (p, pos, none) ≠ none) := by
  rw [fromLayer_ok]
  have key : ∀ (q2 : VP9Packet) (pos2 : Nat) (e2 : Option Error), KeepsI p q2 →
      (e2 = none ∨ e2 = some Error.errShortPacket ∨
        e2 = some Error.errTooManySpatialLayers) →
      (e2 = none → pos2 ≤ packet.length) →
      (∀ q payload e, fromRefs packet (q2, pos2, e2) = some (q, payload, e) →
        KeepsI p q ∧
        (e = none ∨ e = some Error.errShortPacket ∨ e = some Error.errTooManyPDiff ∨
          e = some Error.errNoPictureID ∨ e = some Error.errTooManySpatialLayers)) ∧
      (p.V = false → fromRefs packet (q2, pos2, e2) ≠ none) := by
    intro q2 pos2 e2 hk2 he2 hp2
    by_cases hn : e2 = none
    · subst hn
      obtain ⟨hs1, hs2⟩ := fromRefs_spec packet q2 pos2 (hp2 rfl)
      constructor
      · intro q payload e h
        obtain ⟨hk, he⟩ := hs1 q payload e h
        refine ⟨KeepsI_trans hk2 hk.1, ?_⟩
        rcases he with he | he | he | he
        · exact Or.inl he
        · exact Or.inr (Or.inl he)
        · exact Or.inr (Or.inr (Or.inl he))
        · exact Or.inr (Or.inr (Or.inr (Or.inl he)))
      · intro hV
        exact hs2 (by rw [← hk2.2.2.2.2.2.2.1]; exact hV)
    · rw [fromRefs_err packet q2 pos2 e2 hn]
      constructor
      · intro q payload e h
        cases h
        refine ⟨hk2, ?_⟩
        rcases he2 with he | he | he
        · exact Or.inl he
        · exact Or.inr (Or.inl he)
        · exact Or.inr (Or.inr (Or.inr (Or.inr he)))
      · intro _ hc; exact Option.noConfusion hc
  by_cases hL : p.L = true
  · rw [if_pos hL]
    obtain ⟨q2, pos2, e2, h2, hk2, _, he2, hp2⟩ := parseLayerInfo_spec p packet pos
    rw [h2, Option.some_bind]
    exact key q2 pos2 e2 hk2 he2 hp2
  · rw [if_neg hL, Option.some_bind]
    exact key p pos none (KeepsI_refl p) (Or.inl rfl) (fun _ => hpos)

end vpx

namespace vpx

/-! ## The picture ID -/

theorem setFlags_I (p : VP9Packet) (b0 : Nat) (h : b0 &&& 0x80 ≠ 0) :
    (setFlags p b0).I = true := decide_eq_true h

theorem shift_or_eq (hi lo : Nat) (hlo : lo < 256) : (hi <<< 8) ||| lo = hi * 256 + lo := by
  have h := @Nat.mul_add_lt_is_or 8 lo hlo hi
  rw [Nat.shiftLeft_eq, Nat.mul_comm hi (2 ^ 8), ← h, Nat.mul_comm]

theorem or_marker_and (h : Nat) (hh : h < 128) : (h ||| 0x80) &&& 0x7F = h := by
  have h1 := @Nat.mul_add_lt_is_or 7 h hh 1
  have h2 : h ||| 0x80 = 128 + h := by
    rw [Nat.lor_comm]; exact h1.symm
  have h3 := Nat.and_pow_two_sub_one_eq_mod (128 + h) 7
  rw [h2]
  have h4 : (128 + h) &&& 0x7F = (128 + h) % 128 := h3
  rw [h4]
  omega

/-- The two header bytes the payloader writes for a picture ID below `0x8000`
decode to that picture ID. -/
theorem pictureID_bytes (k : Nat) (hk : k < 0x8000) :
    ((((k >>> 8) % 256) ||| 0x80) &&& 0x7F) <<< 8 ||| (k % 256) = k := by
  have h : k >>> 8 < 128 := by
    rw [Nat.shiftRight_eq_div_pow]; omega
  rw [Nat.mod_eq_of_lt (by omega), or_marker_and _ h, shift_or_eq _ _ (by omega),
    Nat.shiftRight_eq_div_pow]
  omega

theorem chunkAt_flag (k m : Nat) (payload : List Nat) (n i : Nat) :
    ∃ b0, (chunkAt k m payload n i)[0]? = some b0 ∧ b0 &&& 0x80 ≠ 0 := by
  unfold chunkAt
  by_cases h1 : i + 1 = n
  · by_cases h2 : i = 0
    · rw [if_pos h1, if_pos h2]; exact ⟨0x90 ||| 0x08 ||| 0x04, rfl, by decide⟩
    · rw [if_pos h1, if_neg h2]; exact ⟨0x90 ||| 0x04, rfl, by decide⟩
  · by_cases h2 : i = 0
    · rw [if_neg h1, if_pos h2]; exact ⟨0x90 ||| 0x08, rfl, by decide⟩
    · rw [if_neg h1, if_neg h2]; exact ⟨0x90, rfl, by decide⟩

end vpx

namespace vpx

/-- C19: on any receiver, for a packet with I set whose picture-ID byte `b` is
present, the picture-ID parser stores `b & 0x7F` and stops after one byte when
the marker bit 0x80 of `b` is clear, and stores `((b & 0x7F) << 8) | b2` and
stops after two bytes when it is set and the next byte `b2` is present; this is
the picture ID `Unmarshal` leaves, whatever follows; it lies in `[0, 0x7FFF]`;
and without the flag V the call returns.  Hence every chunk emitted by `Payload`
from a reachable payloader with picture ID `k` in effect parses, successfully, to
`PictureID = k`. -/
theorem pictureID_decoding :
    (∀ (p : VP9Packet) (packet : List Nat) (b0 b : Nat),
      packet[0]? = some b0 → b0 &&& 0x80 ≠ 0 → packet[1]? = some b →
      (b &&& 0x80 = 0 →
        parsePictureID (setFlags p b0) packet 1
          = some ({ setFlags p b0 with PictureID := Int.ofNat (b &&& 0x7F) }, 2, none) ∧
        (∀ q payload e, p.Unmarshal (some packet) = some (q, payload, e) →
          q.PictureID = Int.ofNat (b &&& 0x7F)) ∧
        b &&& 0x7F ≤ 0x7F ∧
        (b0 &&& 0x02 = 0 → p.Unmarshal (some packet) ≠ none)) ∧
      (b &&& 0x80 ≠ 0 → ∀ b2, packet[2]? = some b2 →
        parsePictureID (setFlags p b0) packet 1
          = some ({ setFlags p b0 with
                      PictureID := Int.ofNat (((b &&& 0x7F) <<< 8) ||| b2) }, 3, none) ∧
        (∀ q payload e, p.Unmarshal (some packet) = some (q, payload, e) →
          q.PictureID = Int.ofNat (((b &&& 0x7F) <<< 8) ||| b2)) ∧
        (b2 < 256 → ((b &&& 0x7F) <<< 8) ||| b2 ≤ 0x7FFF) ∧
        (b0 &&& 0x02 = 0 → p.Unmarshal (some packet) ≠ none))) ∧
    (∀ (pl pl2 : VP9Payloader) (seed : Nat) (mtu : Int) (payload : Option (List Nat))
      (chunks : List (List Nat)),
      Reachable pl → seed < 0x7FFF → pl.Payload seed mtu payload = some (pl2, chunks) →
      ∀ c ∈ chunks, ∀ r : VP9Packet,
        ∃ q media, r.Unmarshal (some c) = some (q, some media, none) ∧
          q.PictureID = Int.ofNat (effectivePictureID pl seed)) := by
  have partA : ∀ (p : VP9Packet) (packet : List Nat) (b0 b : Nat),
      packet[0]? = some b0 → b0 &&& 0x80 ≠ 0 → packet[1]? = some b →
      (b &&& 0x80 = 0 →
        parsePictureID (setFlags p b0) packet 1
          = some ({ setFlags p b0 with PictureID := Int.ofNat (b &&& 0x7F) }, 2, none) ∧
        (∀ q payload e, p.Unmarshal (some packet) = some (q, payload, e) →
          q.PictureID = Int.ofNat (b &&& 0x7F)) ∧
        b &&& 0x7F ≤ 0x7F ∧
        (b0 &&& 0x02 = 0 → p.Unmarshal (some packet) ≠ none)) ∧
      (b &&& 0x80 ≠ 0 → ∀ b2, packet[2]? = some b2 →
        parsePictureID (setFlags p b0) packet 1
          = some ({ setFlags p b0 with
                      PictureID := Int.ofNat (((b &&& 0x7F) <<< 8) ||| b2) }, 3, none) ∧
        (∀ q payload e, p.Unmarshal (some packet) = some (q, payload, e) →
          q.PictureID = Int.ofNat (((b &&& 0x7F) <<< 8) ||| b2)) ∧
        (b2 < 256 → ((b &&& 0x7F) <<< 8) ||| b2 ≤ 0x7FFF) ∧
        (b0 &&& 0x02 = 0 → p.Unmarshal (some packet) ≠ none)) := by
    intro p packet b0 b h0 hI h1
    have hl1 := lt_length_of_getElem? h1
    have hle : b &&& 0x7F ≤ 0x7F := Nat.and_le_right
    constructor
    · intro hm
      have hp := parsePictureID_one (setFlags p b0) packet 1 b h1 hm
      have hU : p.Unmarshal (some packet)
          = fromLayer packet
              ({ setFlags p b0 with PictureID := Int.ofNat (b &&& 0x7F) }, 2, none) := by
        rw [Unmarshal_eq p packet b0 h0, if_pos (setFlags_I p b0 hI), hp, Option.some_bind]
      obtain ⟨hs1, hs2⟩ := fromLayer_spec packet
        { setFlags p b0 with PictureID := Int.ofNat (b &&& 0x7F) } 2 hl1
      refine ⟨hp, ?_, hle, ?_⟩
      · intro q payload e h
        rw [hU] at h
        exact ((hs1 q payload e h).1.2.2.2.2.2.2.2).symm
      · intro hV
        rw [hU]
        refine hs2 ?_
        show decide (b0 &&& 0x02 ≠ 0) = false
        exact decide_eq_false (fun h => h hV)
    · intro hm b2 h2
      have hl2 := lt_length_of_getElem? h2
      have hp := parsePictureID_two (setFlags p b0) packet 1 b b2 h1 hm h2
      have hU : p.Unmarshal (some packet)
          = fromLayer packet
              ({ setFlags p b0 with
                   PictureID := Int.ofNat (((b &&& 0x7F) <<< 8) ||| b2) }, 3, none) := by
        rw [Unmarshal_eq p packet b0 h0, if_pos (setFlags_I p b0 hI), hp, Option.some_bind]
      obtain ⟨hs1, hs2⟩ := fromLayer_spec packet
        { setFlags p b0 with PictureID := Int.ofNat (((b &&& 0x7F) <<< 8) ||| b2) } 3 hl2
      refine ⟨hp, ?_, ?_, ?_⟩
      · intro q payload e h
        rw [hU] at h
        exact ((hs1 q payload e h).1.2.2.2.2.2.2.2).symm
      · intro hb2
        rw [shift_or_eq _ _ hb2]
        omega
      · intro hV
        rw [hU]
        refine hs2 ?_
        show decide (b0 &&& 0x02 ≠ 0) = false
        exact decide_eq_false (fun h => h hV)
  refine ⟨partA, ?_⟩
  intro pl pl2 seed mtu payload chunks hr hs h c hc r
  have hk := effectivePictureID_lt pl seed hr.pictureID_lt hs
  rcases Payload_cases pl pl2 seed mtu payload chunks h with
    ⟨he, _, _⟩ | ⟨data, m, _, _, _, _, _, hch, _⟩
  · rw [he] at hc
    exact absurd hc (List.not_mem_nil c)
  · rw [hch, List.mem_map] at hc
    obtain ⟨i, _, hi⟩ := hc
    subst hi
    obtain ⟨q, hq⟩ := Unmarshal_chunkAt r (effectivePictureID pl seed) m data
      (numChunks data.length m) i
    obtain ⟨b0, hb0, hI⟩ := chunkAt_flag (effectivePictureID pl seed) m data
      (numChunks data.length m) i
    have h1 : (chunkAt (effectivePictureID pl seed) m data (numChunks data.length m) i)[1]?
        = some (((effectivePictureID pl seed >>> 8) % 256) ||| 0x80) := rfl
    have h2 : (chunkAt (effectivePictureID pl seed) m data (numChunks data.length m) i)[2]?
        = some (effectivePictureID pl seed % 256) := by
      simp [chunkAt]
    have := ((partA r _ b0 _ hb0 hI h1).2 (marker_bit_set _) _ h2).2.1 _ _ _ hq
    rw [pictureID_bytes _ hk] at this
    exact ⟨q, _, hq, this⟩

/-- Witness of C19: the packets `90 05 AA` (7-bit picture ID 5) and
`90 81 02 AA` (15-bit picture ID 0x0102) on a fresh receiver, and the chunks of
a five-byte payload cut with mtu 5 by a fresh payloader seeded with `0x1234`. -/
theorem pictureID_decoding_witness :
    (parsePictureID (setFlags VP9Packet.zero 0x90) [0x90, 0x05, 0xAA] 1
        = some ({ setFlags VP9Packet.zero 0x90 with PictureID := Int.ofNat (0x05 &&& 0x7F) },
            2, none) ∧
      (∀ q payload e, VP9Packet.zero.Unmarshal (some [0x90, 0x05, 0xAA])
          = some (q, payload, e) → q.PictureID = Int.ofNat (0x05 &&& 0x7F)) ∧
      0x05 &&& 0x7F ≤ 0x7F ∧
      (0x90 &&& 0x02 = 0 → VP9Packet.zero.Unmarshal (some [0x90, 0x05, 0xAA]) ≠ none)) ∧
    (parsePictureID (setFlags VP9Packet.zero 0x90) [0x90, 0x81, 0x02, 0xAA] 1
        = some ({ setFlags VP9Packet.zero 0x90 with
                    PictureID := Int.ofNat (((0x81 &&& 0x7F) <<< 8) ||| 0x02) }, 3, none) ∧
      (∀ q payload e, VP9Packet.zero.Unmarshal (some [0x90, 0x81, 0x02, 0xAA])
          = some (q, payload, e) →
        q.PictureID = Int.ofNat (((0x81 &&& 0x7F) <<< 8) ||| 0x02)) ∧
      (0x02 < 256 → ((0x81 &&& 0x7F) <<< 8) ||| 0x02 ≤ 0x7FFF) ∧
      (0x90 &&& 0x02 = 0 →
        VP9Packet.zero.Unmarshal (some [0x90, 0x81, 0x02, 0xAA]) ≠ none)) ∧
    (∀ c ∈ [[0x98, 0x92, 0x34, 1, 2], [0x90, 0x92, 0x34, 3, 4], [0x94, 0x92, 0x34, 5]],
      ∀ r : VP9Packet, ∃ q media, r.Unmarshal (some c) = some (q, some media, none) ∧
        q.PictureID = Int.ofNat
          (effectivePictureID { pictureID := 0, initialized := false } 0x1234)) :=
  ⟨(pictureID_decoding.1 VP9Packet.zero [0x90, 0x05, 0xAA] 0x90 0x05 rfl (by decide) rfl).1
      (by decide),
    (pictureID_decoding.1 VP9Packet.zero [0x90, 0x81, 0x02, 0xAA] 0x90 0x81 rfl (by decide)
      rfl).2 (by decide) 0x02 rfl,
    pictureID_decoding.2 { pictureID := 0, initialized := false }
      { pictureID := 0x1235, initialized := true } 0x1234 5 (some [1, 2, 3, 4, 5])
      [[0x98, 0x92, 0x34, 1, 2], [0x90, 0x92, 0x34, 3, 4], [0x94, 0x92, 0x34, 5]]
      Reachable.zero (by decide) (by decide)⟩

end vpx

namespace vpx

/-! ## The layer indices -/

/-- C16: on any receiver, for a packet with L set whose picture ID (if any) is
complete and whose layer byte `b` is present, `Unmarshal` returns the
too-many-spatial-layers error if and only if the spatial layer id `(b >> 1) & 7`
is 5 or more; whatever it returns, it has set `TID = b >> 5`, `U` = bit 0x10,
`SID = (b >> 1) & 7` and `D` = bit 0x01 of `b`; and without the flag V it
returns. -/
theorem layer_indices (p : VP9Packet) (packet : List Nat) (b0 b : Nat)
    (h0 : packet[0]? = some b0) (hL : b0 &&& 0x20 ≠ 0)
    (hb : packet[1 + pictureIDLength packet]? = some b) :
    ((∃ q, p.Unmarshal (some packet) = some (q, none, some Error.errTooManySpatialLayers)) ↔
      (b >>> 1) &&& 0x7 ≥ 5) ∧
    (∀ q payload e, p.Unmarshal (some packet) = some (q, payload, e) →
      (e = some Error.errTooManySpatialLayers ↔ (b >>> 1) &&& 0x7 ≥ 5) ∧
      q.TID = b >>> 5 ∧ q.U = decide (b &&& 0x10 ≠ 0) ∧ q.SID = (b >>> 1) &&& 0x7 ∧
      q.D = decide (b &&& 0x01 ≠ 0)) ∧
    (b0 &&& 0x02 = 0 → p.Unmarshal (some packet) ≠ none) := by
  have hl0 := lt_length_of_getElem? h0
  have hlb := lt_length_of_getElem? hb
  have hg0 := getD_of_getElem? h0
  have hI0 : (setFlags p b0).I = decide (packet.getD 0 0 &&& 0x80 ≠ 0) := by rw [hg0]; rfl
  obtain ⟨q1, pos1, e1, h1, hq1, _, he1, hp1, _, _⟩ :=
    stageI_total (setFlags p b0) packet hI0 (by omega)
  have he1n : e1 = none := he1.mpr (by omega)
  subst he1n
  have hpos1 : pos1 = 1 + pictureIDLength packet := hp1 rfl
  subst hpos1
  have hq1L : q1.L = true :=
    (congrArg VP9Packet.L hq1).trans (decide_eq_true hL)
  have hq1L2 : q1.L = decide (packet.getD 0 0 &&& 0x20 ≠ 0) := by
    rw [hg0]; exact congrArg VP9Packet.L hq1
  have hq1F : q1.F = decide (packet.getD 0 0 &&& 0x10 ≠ 0) := by
    rw [hg0]; exact congrArg VP9Packet.F hq1
  have hq1V : q1.V = decide (b0 &&& 0x02 ≠ 0) := congrArg VP9Packet.V hq1
  obtain ⟨q2, pos2, e2, h2, hk2, _, he2, he2n, hp2, _, hf2⟩ :=
    stageL_total q1 packet (1 + pictureIDLength packet) hq1L2 hq1F (by omega)
  obtain ⟨hTID, hU, hSID, hD, hiff⟩ := hf2 hq1L b hb
  rw [if_pos hq1L] at h2
  have hU2 : p.Unmarshal (some packet) = fromRefs packet (q2, pos2, e2) := by
    rw [Unmarshal_eq p packet b0 h0, h1, Option.some_bind, fromLayer_ok, if_pos hq1L, h2,
      Option.some_bind]
  have main : ∀ q payload e, p.Unmarshal (some packet) = some (q, payload, e) →
      (e = some Error.errTooManySpatialLayers ↔ (b >>> 1) &&& 0x7 ≥ 5) ∧
      q.TID = b >>> 5 ∧ q.U = decide (b &&& 0x10 ≠ 0) ∧ q.SID = (b >>> 1) &&& 0x7 ∧
      q.D = decide (b &&& 0x01 ≠ 0) := by
    intro q payload e h
    rw [hU2] at h
    by_cases hn : e2 = none
    · subst hn
      have hpos2 : pos2 ≤ packet.length := by
        have := (he2n.mp rfl).1
        rw [hp2 rfl]; exact this
      obtain ⟨hk, he⟩ := (fromRefs_spec packet q2 pos2 hpos2).1 q payload e h
      have hs : ¬ ((b >>> 1) &&& 0x7 ≥ 5) := fun hc => Option.noConfusion (hiff.mpr hc)
      refine ⟨⟨fun hc => ?_, fun hc => absurd hc hs⟩, hk.2.1 ▸ hTID, hk.2.2.1 ▸ hU,
        hk.2.2.2.1 ▸ hSID, hk.2.2.2.2.1 ▸ hD⟩
      subst hc
      rcases he with he | he | he | he
      · exact Option.noConfusion he
      · exact Error.noConfusion (Option.some.inj he)
      · exact Error.noConfusion (Option.some.inj he)
      · exact Error.noConfusion (Option.some.inj he)
    · rw [fromRefs_err packet q2 pos2 e2 hn] at h
      cases h
      exact ⟨hiff, hTID, hU, hSID, hD⟩
  refine ⟨⟨fun ⟨q, hq⟩ => ((main q _ _ hq).1).mp rfl, fun hs => ?_⟩, main, fun hV => ?_⟩
  · have he := hiff.mpr hs
    subst he
    exact ⟨q2, by rw [hU2, fromRefs_err packet q2 pos2 _ (fun hc => Option.noConfusion hc)]⟩
  · rw [hU2]
    by_cases hn : e2 = none
    · subst hn
      have hpos2 : pos2 ≤ packet.length := by
        have := (he2n.mp rfl).1
        rw [hp2 rfl]; exact this
      refine (fromRefs_spec packet q2 pos2 hpos2).2 ?_
      rw [← hk2.2.2.2.2.2.2.1, hq1V]
      exact decide_eq_false (fun h => h hV)
    · rw [fromRefs_err packet q2 pos2 e2 hn]
      exact fun hc => Option.noConfusion hc

/-- Witness of C16: the packet `30 65 AA` (L and F set, layer byte `0x65`: TID 3,
SID 2, D set) on a fresh receiver. -/
theorem layer_indices_witness :
    ((∃ q, VP9Packet.zero.Unmarshal (some [0x30, 0x65, 0xAA])
        = some (q, none, some Error.errTooManySpatialLayers)) ↔ (0x65 >>> 1) &&& 0x7 ≥ 5) ∧
    (∀ q payload e, VP9Packet.zero.Unmarshal (some [0x30, 0x65, 0xAA])
        = some (q, payload, e) →
      (e = some Error.errTooManySpatialLayers ↔ (0x65 >>> 1) &&& 0x7 ≥ 5) ∧
      q.TID = 0x65 >>> 5 ∧ q.U = decide (0x65 &&& 0x10 ≠ 0) ∧ q.SID = (0x65 >>> 1) &&& 0x7 ∧
      q.D = decide (0x65 &&& 0x01 ≠ 0)) ∧
    (0x30 &&& 0x02 = 0 → VP9Packet.zero.Unmarshal (some [0x30, 0x65, 0xAA]) ≠ none) :=
  layer_indices VP9Packet.zero [0x30, 0x65, 0xAA] 0x30 0x65 rfl (by decide) (by decide)

end vpx

namespace vpx

/-! ## The reference indices -/

/-- A fresh receiver, on a packet whose picture ID and layer indices parse,
reaches the reference-index stage behind those fields, with no reference index
stored and a picture ID other than `noPictureID`. -/
theorem Unmarshal_to_refs (packet : List Nat) (b0 : Nat) (h0 : packet[0]? = some b0)
    (hlen : 1 + pictureIDLength packet + layerLength packet ≤ packet.length)
    (hsid : b0 &&& 0x20 ≠ 0 → (packet.getD (1 + pictureIDLength packet) 0 >>> 1) &&& 0x7 < 5) :
    ∃ q2, VP9Packet.zero.Unmarshal (some packet)
        = fromRefs packet (q2, 1 + pictureIDLength packet + layerLength packet, none) ∧
      q2.PDiff = [] ∧ q2.PictureID ≠ noPictureID ∧
      q2.F = decide (b0 &&& 0x10 ≠ 0) ∧ q2.P = decide (b0 &&& 0x40 ≠ 0) ∧
      q2.V = decide (b0 &&& 0x02 ≠ 0) ∧
      (b0 &&& 0x80 = 0 → b0 &&& 0x20 = 0 → q2 = setFlags VP9Packet.zero b0) := by
  have hl0 := lt_length_of_getElem? h0
  have hg0 := getD_of_getElem? h0
  have hI0 : (setFlags VP9Packet.zero b0).I = decide (packet.getD 0 0 &&& 0x80 ≠ 0) := by
    rw [hg0]; rfl
  obtain ⟨q1, pos1, e1, h1, hq1, _, he1, hp1, hq1f, hq1t⟩ :=
    stageI_total (setFlags VP9Packet.zero b0) packet hI0 (by omega)
  have he1n : e1 = none := he1.mpr (by omega)
  subst he1n
  have hpos1 : pos1 = 1 + pictureIDLength packet := hp1 rfl
  subst hpos1
  have hq1L : q1.L = decide (packet.getD 0 0 &&& 0x20 ≠ 0) := by
    rw [hg0]; exact congrArg VP9Packet.L hq1
  have hq1F : q1.F = decide (packet.getD 0 0 &&& 0x10 ≠ 0) := by
    rw [hg0]; exact congrArg VP9Packet.F hq1
  have hq1pid : q1.PictureID ≠ noPictureID := by
    by_cases hI : (setFlags VP9Packet.zero b0).I = true
    · rw [hq1t hI rfl]
      intro hc
      have : (0 : Int) ≤ Int.ofNat (pictureIDValue packet) := Int.ofNat_nonneg _
      rw [hc] at this
      exact absurd this (by decide)
    · have hIf : (setFlags VP9Packet.zero b0).I = false := by
        cases hc : (setFlags VP9Packet.zero b0).I
        · rfl
        · exact absurd hc hI
      rw [hq1f hIf]
      show (0 : Int) ≠ noPictureID
      decide
  obtain ⟨q2, pos2, e2, h2, hk2, hpd2, _, he2n, hp2, hq2f, _⟩ :=
    stageL_total q1 packet (1 + pictureIDLength packet) hq1L hq1F (by omega)
  have he2 : e2 = none := by
    refine he2n.mpr ⟨by omega, fun hL => hsid ?_⟩
    intro hc
    rw [hq1L, hg0, decide_eq_false (fun h => h hc)] at hL
    exact Bool.noConfusion hL
  subst he2
  have hpos2 : pos2 = 1 + pictureIDLength packet + layerLength packet := hp2 rfl
  subst hpos2
  refine ⟨q2, ?_, ?_, ?_, ?_, ?_, ?_, ?_⟩
  · rw [Unmarshal_eq VP9Packet.zero packet b0 h0, h1, Option.some_bind, fromLayer_ok, h2,
      Option.some_bind]
  · rw [hpd2]; exact congrArg VP9Packet.PDiff hq1
  · rw [← hk2.2.2.2.2.2.2.2]; exact hq1pid
  · rw [← hk2.2.2.2.1]; exact congrArg VP9Packet.F hq1
  · rw [← hk2.2.1]; exact congrArg VP9Packet.P hq1
  · rw [← hk2.2.2.2.2.2.2.1]; exact congrArg VP9Packet.V hq1
  · intro hI hL
    have hIf : (setFlags VP9Packet.zero b0).I = false := decide_eq_false (fun h => h hI)
    have hq1e := hq1f hIf
    have hLf : q1.L = false := by
      rw [hq1e]; exact decide_eq_false (fun h => h hL)
    rw [hq2f hLf, hq1e]

/-- The end of `Unmarshal` once the reference indices `l` have been read up to
`pos`: they stay, and without the flag V the bytes from `pos` on are returned. -/
theorem refs_done (packet : List Nat) (q3 : VP9Packet) (pos3 : Nat) (l : List Nat)
    (hpos : pos3 ≤ packet.length) (hl : q3.PDiff = l) :
    (∀ q payload e, fromSS packet (q3, pos3, none) = some (q, payload, e) →
      q.PDiff = l ∧ (e = none ∨ e = some Error.errShortPacket)) ∧
    (q3.V = false → ∃ q, fromSS packet (q3, pos3, none)
      = some (q, some (packet.drop pos3), none) ∧ q.PDiff = l) := by
  obtain ⟨hs1, hs2⟩ := fromSS_spec packet q3 pos3 hpos
  constructor
  · intro q payload e h
    obtain ⟨hk, he⟩ := hs1 q payload e h
    exact ⟨hk.2 ▸ hl, he⟩
  · intro hV
    exact ⟨_, hs2 hV, hl⟩

theorem drop_succ_of_drop {packet : List Nat} {n : Nat} {b : Nat} {t : List Nat}
    (h : packet.drop n = b :: t) : packet.drop (n + 1) = t := by
  rw [← List.drop_drop, h]; rfl

theorem length_of_drop {packet : List Nat} {n : Nat} {rs : List Nat}
    (h : packet.drop n = rs) (hn : n ≤ packet.length) : packet.length = n + rs.length := by
  rw [← h, List.length_drop]; omega

end vpx

namespace vpx

/-- C15: a fresh receiver parses a packet with F and P set whose picture ID and
layer indices parse; `rs` is what is left of the packet behind them.  The
reference-index bytes are read up to the first one whose bit N (bit 0) is clear:
when it is the first, second or third byte, `Unmarshal` leaves as `PDiff` the
bytes read, each shifted right by one, in order (and, without the flag V,
returns the bytes behind them); when the packet ends first the short-packet
error is returned; when the first three bytes all have N set the
too-many-reference-pictures error is returned. -/
theorem reference_indices (packet : List Nat) (b0 : Nat) (rs : List Nat)
    (h0 : packet[0]? = some b0) (hF : b0 &&& 0x10 ≠ 0) (hP : b0 &&& 0x40 ≠ 0)
    (hlen : 1 + pictureIDLength packet + layerLength packet ≤ packet.length)
    (hsid : b0 &&& 0x20 ≠ 0 → (packet.getD (1 + pictureIDLength packet) 0 >>> 1) &&& 0x7 < 5)
    (hrs : packet.drop (1 + pictureIDLength packet + layerLength packet) = rs) :
    (rs = [] →
      ∃ q, VP9Packet.zero.Unmarshal (some packet)
        = some (q, none, some Error.errShortPacket)) ∧
    (∀ b1 t, rs = b1 :: t → b1 &&& 0x01 = 0 →
      (∀ q payload e, VP9Packet.zero.Unmarshal (some packet) = some (q, payload, e) →
        q.PDiff = [b1 >>> 1] ∧ (e = none ∨ e = some Error.errShortPacket)) ∧
      (b0 &&& 0x02 = 0 → ∃ q, VP9Packet.zero.Unmarshal (some packet)
        = some (q, some t, none) ∧ q.PDiff = [b1 >>> 1])) ∧
    (∀ b1, rs = [b1] → b1 &&& 0x01 ≠ 0 →
      ∃ q, VP9Packet.zero.Unmarshal (some packet)
        = some (q, none, some Error.errShortPacket)) ∧
    (∀ b1 b2 t, rs = b1 :: b2 :: t → b1 &&& 0x01 ≠ 0 → b2 &&& 0x01 = 0 →
      (∀ q payload e, VP9Packet.zero.Unmarshal (some packet) = some (q, payload, e) →
        q.PDiff = [b1 >>> 1, b2 >>> 1] ∧ (e = none ∨ e = some Error.errShortPacket)) ∧
      (b0 &&& 0x02 = 0 → ∃ q, VP9Packet.zero.Unmarshal (some packet)
        = some (q, some t, none) ∧ q.PDiff = [b1 >>> 1, b2 >>> 1])) ∧
    (∀ b1 b2, rs = [b1, b2] → b1 &&& 0x01 ≠ 0 → b2 &&& 0x01 ≠ 0 →
      ∃ q, VP9Packet.zero.Unmarshal (some packet)
        = some (q, none, some Error.errShortPacket)) ∧
    (∀ b1 b2 b3 t, rs = b1 :: b2 :: b3 :: t → b1 &&& 0x01 ≠ 0 → b2 &&& 0x01 ≠ 0 →
      b3 &&& 0x01 = 0 →
      (∀ q payload e, VP9Packet.zero.Unmarshal (some packet) = some (q, payload, e) →
        q.PDiff = [b1 >>> 1, b2 >>> 1, b3 >>> 1] ∧
        (e = none ∨ e = some Error.errShortPacket)) ∧
      (b0 &&& 0x02 = 0 → ∃ q, VP9Packet.zero.Unmarshal (some packet)
        = some (q, some t, none) ∧ q.PDiff = [b1 >>> 1, b2 >>> 1, b3 >>> 1])) ∧
    (∀ b1 b2 b3 t, rs = b1 :: b2 :: b3 :: t → b1 &&& 0x01 ≠ 0 → b2 &&& 0x01 ≠ 0 →
      b3 &&& 0x01 ≠ 0 →
      ∃ q, VP9Packet.zero.Unmarshal (some packet)
        = some (q, none, some Error.errTooManyPDiff)) := by
  obtain ⟨q2, hU, hpd, hpid, hqF, hqP, hqV, _⟩ := Unmarshal_to_refs packet b0 h0 hlen hsid
  have hFP : (q2.F && q2.P) = true := by
    rw [hqF, hqP, decide_eq_true hF, decide_eq_true hP]; rfl
  have hVf : b0 &&& 0x02 = 0 → q2.V = false := fun hV => by
    rw [hqV]; exact decide_eq_false (fun h => h hV)
  have hlenrs := length_of_drop hrs hlen
  rw [hU, fromRefs_ok, if_pos hFP, parseRefIndices_loop q2 packet _ hpid, hrs,
    Option.some_bind]
  obtain ⟨c1, c2, c3, c4, c5, c6, c7⟩ :=
    refLoop_fresh q2 rs (1 + pictureIDLength packet + layerLength packet) hpd
  refine ⟨?_, ?_, ?_, ?_, ?_, ?_, ?_⟩
  · intro h
    rw [c1 h, fromSS_err _ _ _ _ (fun hc => Option.noConfusion hc)]
    exact ⟨_, rfl⟩
  · intro b1 t h h1
    rw [c2 b1 t h h1]
    rw [h, List.length_cons] at hlenrs
    obtain ⟨r1, r2⟩ := refs_done packet { q2 with PDiff := [b1 >>> 1] }
      (1 + pictureIDLength packet + layerLength packet + 1) [b1 >>> 1] (by omega) rfl
    refine ⟨r1, fun hV => ?_⟩
    have := r2 (hVf hV)
    rw [drop_succ_of_drop (hrs.trans h)] at this
    exact this
  · intro b1 h h1
    rw [c3 b1 h h1, fromSS_err _ _ _ _ (fun hc => Option.noConfusion hc)]
    exact ⟨_, rfl⟩
  · intro b1 b2 t h h1 h2
    rw [c4 b1 b2 t h h1 h2]
    rw [h, List.length_cons, List.length_cons] at hlenrs
    obtain ⟨r1, r2⟩ := refs_done packet { q2 with PDiff := [b1 >>> 1, b2 >>> 1] }
      (1 + pictureIDLength packet + layerLength packet + 2) [b1 >>> 1, b2 >>> 1]
      (by omega) rfl
    refine ⟨r1, fun hV => ?_⟩
    have := r2 (hVf hV)
    rw [drop_succ_of_drop (drop_succ_of_drop (hrs.trans h))] at this
    exact this
  · intro b1 b2 h h1 h2
    rw [c5 b1 b2 h h1 h2, fromSS_err _ _ _ _ (fun hc => Option.noConfusion hc)]
    exact ⟨_, rfl⟩
  · intro b1 b2 b3 t h h1 h2 h3
    rw [c6 b1 b2 b3 t h h1 h2 h3]
    rw [h, List.length_cons, List.length_cons, List.length_cons] at hlenrs
    obtain ⟨r1, r2⟩ := refs_done packet { q2 with PDiff := [b1 >>> 1, b2 >>> 1, b3 >>> 1] }
      (1 + pictureIDLength packet + layerLength packet + 3)
      [b1 >>> 1, b2 >>> 1, b3 >>> 1] (by omega) rfl
    refine ⟨r1, fun hV => ?_⟩
    have := r2 (hVf hV)
    rw [drop_succ_of_drop (drop_succ_of_drop (drop_succ_of_drop (hrs.trans h)))] at this
    exact this
  · intro b1 b2 b3 t h h1 h2 h3
    rw [c7 b1 b2 b3 t h h1 h2 h3, fromSS_err _ _ _ _ (fun hc => Option.noConfusion hc)]
    exact ⟨_, rfl⟩

end vpx

namespace vpx

/-- Witness of C15: the packet `D0 05 03 04 AA` (I, P and F set, picture ID 5,
reference indices 1 and 2, one byte of media) on a fresh receiver. -/
theorem reference_indices_witness :
    (∀ q payload e, VP9Packet.zero.Unmarshal (some [0xD0, 0x05, 0x03, 0x04, 0xAA])
        = some (q, payload, e) →
      q.PDiff = [0x03 >>> 1, 0x04 >>> 1] ∧ (e = none ∨ e = some Error.errShortPacket)) ∧
    (0xD0 &&& 0x02 = 0 → ∃ q, VP9Packet.zero.Unmarshal (some [0xD0, 0x05, 0x03, 0x04, 0xAA])
        = some (q, some [0xAA], none) ∧ q.PDiff = [0x03 >>> 1, 0x04 >>> 1]) :=
  (reference_indices [0xD0, 0x05, 0x03, 0x04, 0xAA] 0xD0 [0x03, 0x04, 0xAA] rfl (by decide)
    (by decide) (by decide) (by decide) (by decide)).2.2.2.1 0x03 0x04 [0xAA] rfl (by decide)
    (by decide)

end vpx

namespace vpx

/-! ## The payload is what follows the header -/

/-- When the reference-index loop succeeds on a receiver without reference
indices, it has read `refIndexCount` bytes, between one and three. -/
theorem refLoop_fresh_ok (p : VP9Packet) (rs : List Nat) (pos : Nat) (q : VP9Packet)
    (pos3 : Nat) (hp : p.PDiff = []) (h : parseRefIndicesLoop p rs pos = (q, pos3, none)) :
    pos3 = pos + refIndexCount rs ∧ 1 ≤ refIndexCount rs ∧ refIndexCount rs ≤ 3 ∧
      refIndexCount rs ≤ rs.length := by
  obtain ⟨c1, c2, c3, c4, c5, c6, c7⟩ := refLoop_fresh p rs pos hp
  have bad : ∀ {a : VP9Packet} {n : Nat} {e : Error} {P : Prop},
      (a, n, some e) = (q, pos3, (none : Option Error)) → P := by
    intro a n e P hc
    have := congrArg (fun s => s.2.2) hc
    exact Option.noConfusion this
  cases rs with
  | nil => rw [c1 rfl] at h; exact bad h
  | cons b1 t =>
    by_cases h1 : b1 &&& 0x01 = 0
    · rw [c2 b1 t rfl h1] at h
      have hpos := congrArg (fun s => s.2.1) h
      simp only at hpos
      have hc : refIndexCount (b1 :: t) = 1 := by simp only [refIndexCount, h1, if_true]
      rw [hc, List.length_cons]
      omega
    · cases t with
      | nil => rw [c3 b1 rfl h1] at h; exact bad h
      | cons b2 t2 =>
        by_cases h2 : b2 &&& 0x01 = 0
        · rw [c4 b1 b2 t2 rfl h1 h2] at h
          have hpos := congrArg (fun s => s.2.1) h
          simp only at hpos
          have hc : refIndexCount (b1 :: b2 :: t2) = 2 := by
            simp only [refIndexCount, h1, h2, if_true, if_false]
          rw [hc, List.length_cons, List.length_cons]
          omega
        · cases t2 with
          | nil => rw [c5 b1 b2 rfl h1 h2] at h; exact bad h
          | cons b3 t3 =>
            by_cases h3 : b3 &&& 0x01 = 0
            · rw [c6 b1 b2 b3 t3 rfl h1 h2 h3] at h
              have hpos := congrArg (fun s => s.2.1) h
              simp only at hpos
              have hc : refIndexCount (b1 :: b2 :: b3 :: t3) = 3 := by
                simp only [refIndexCount, h1, h2, h3, if_true, if_false]
              rw [hc, List.length_cons, List.length_cons, List.length_cons]
              omega
            · rw [c7 b1 b2 b3 t3 rfl h1 h2 h3] at h; exact bad h

theorem and_eq_zero_of_flags {b0 m : Nat} (h : b0 &&& 0xFE = 0) (hm : 0xFE &&& m = m) :
    b0 &&& m = 0 := by
  rw [← hm, ← Nat.land_assoc, h, Nat.zero_and]

end vpx

namespace vpx

/-- Without the flag V, `Unmarshal` returns on every non-empty packet. -/
theorem Unmarshal_total (p : VP9Packet) (packet : List Nat) (b0 : Nat)
    (h0 : packet[0]? = some b0) (hV : b0 &&& 0x02 = 0) : p.Unmarshal (some packet) ≠ none := by
  have hl0 := lt_length_of_getElem? h0
  have hg0 := getD_of_getElem? h0
  have hI0 : (setFlags p b0).I = decide (packet.getD 0 0 &&& 0x80 ≠ 0) := by rw [hg0]; rfl
  obtain ⟨q1, pos1, e1, h1, hq1, _, he1, hp1, _, _⟩ :=
    stageI_total (setFlags p b0) packet hI0 (by omega)
  rw [Unmarshal_eq p packet b0 h0, h1, Option.some_bind]
  by_cases hn : e1 = none
  · subst hn
    have hpos : pos1 ≤ packet.length := by
      rw [hp1 rfl]; exact he1.mp rfl
    refine (fromLayer_spec packet q1 pos1 hpos).2 ?_
    exact (congrArg VP9Packet.V hq1).trans (decide_eq_false (fun h => h hV))
  · rw [fromLayer_err packet q1 pos1 e1 hn]
    exact fun hc => Option.noConfusion hc

/-- A successful `Unmarshal` of a fresh receiver went through the picture-ID
and layer stages without error. -/
theorem Unmarshal_ok_parsed (packet : List Nat) (b0 : Nat) (h0 : packet[0]? = some b0)
    (q : VP9Packet) (payload : Option (List Nat))
    (h : VP9Packet.zero.Unmarshal (some packet) = some (q, payload, none)) :
    1 + pictureIDLength packet + layerLength packet ≤ packet.length ∧
    (b0 &&& 0x20 ≠ 0 → (packet.getD (1 + pictureIDLength packet) 0 >>> 1) &&& 0x7 < 5) := by
  have hl0 := lt_length_of_getElem? h0
  have hg0 := getD_of_getElem? h0
  have hI0 : (setFlags VP9Packet.zero b0).I = decide (packet.getD 0 0 &&& 0x80 ≠ 0) := by
    rw [hg0]; rfl
  obtain ⟨q1, pos1, e1, h1, hq1, _, he1, hp1, _, _⟩ :=
    stageI_total (setFlags VP9Packet.zero b0) packet hI0 (by omega)
  rw [Unmarshal_eq VP9Packet.zero packet b0 h0, h1, Option.some_bind] at h
  have he1n : e1 = none := by
    by_contra hn
    rw [fromLayer_err packet q1 pos1 e1 hn] at h
    have := congrArg (fun r => r.map (fun s => s.2.2)) h
    simp only [Option.map_some'] at this
    exact hn (Option.some.inj this)
  subst he1n
  have hlen1 := he1.mp rfl
  have hpos1 : pos1 = 1 + pictureIDLength packet := hp1 rfl
  subst hpos1
  have hq1L : q1.L = decide (packet.getD 0 0 &&& 0x20 ≠ 0) := by
    rw [hg0]; exact congrArg VP9Packet.L hq1
  have hq1F : q1.F = decide (packet.getD 0 0 &&& 0x10 ≠ 0) := by
    rw [hg0]; exact congrArg VP9Packet.F hq1
  obtain ⟨q2, pos2, e2, h2, _, _, _, he2n, _, _, _⟩ :=
    stageL_total q1 packet (1 + pictureIDLength packet) hq1L hq1F hlen1
  rw [fromLayer_ok, h2, Option.some_bind] at h
  have he2 : e2 = none := by
    by_contra hn
    rw [fromRefs_err packet q2 pos2 e2 hn] at h
    have := congrArg (fun r => r.map (fun s => s.2.2)) h
    simp only [Option.map_some'] at this
    exact hn (Option.some.inj this)
  obtain ⟨hlen2, hs⟩ := he2n.mp he2
  refine ⟨hlen2, fun hL => hs ?_⟩
  rw [hq1L, hg0]
  exact decide_eq_true hL

/-- C18: for every non-empty packet whose flag V is clear, `Unmarshal` on a fresh
receiver returns (no access is out of range); when it succeeds, the payload it
returns and stores is the suffix `packet[n:]` with `n = headerLength packet`
(one flag byte, the picture ID, the layer indices, the reference indices), `n`
is at most the length of the packet, and with F and P set the reference indices
take one to three bytes; a packet whose flag bits are all zero parses
successfully to `packet[1:]` and the receiver is otherwise still the zero
value. -/
theorem payload_is_suffix (packet : List Nat) (b0 : Nat) (h0 : packet[0]? = some b0)
    (hV : b0 &&& 0x02 = 0) :
    VP9Packet.zero.Unmarshal (some packet) ≠ none ∧
    (∀ q payload, VP9Packet.zero.Unmarshal (some packet) = some (q, payload, none) →
      payload = some (packet.drop (headerLength packet)) ∧ q.Payload = payload ∧
      headerLength packet ≤ packet.length ∧
      (b0 &&& 0x10 ≠ 0 → b0 &&& 0x40 ≠ 0 →
        1 ≤ refIndexLength packet ∧ refIndexLength packet ≤ 3)) ∧
    (b0 &&& 0xFE = 0 →
      headerLength packet = 1 ∧
      VP9Packet.zero.Unmarshal (some packet)
        = some ({ VP9Packet.zero with Payload := some (packet.drop 1) },
            some (packet.drop 1), none)) := by
  have hl0 := lt_length_of_getElem? h0
  have hg0 := getD_of_getElem? h0
  have main : ∀ q payload, VP9Packet.zero.Unmarshal (some packet) = some (q, payload, none) →
      payload = some (packet.drop (headerLength packet)) ∧
      q = { q with Payload := payload } ∧
      headerLength packet ≤ packet.length ∧
      (b0 &&& 0x10 ≠ 0 → b0 &&& 0x40 ≠ 0 →
        1 ≤ refIndexLength packet ∧ refIndexLength packet ≤ 3) ∧
      (b0 &&& 0x80 = 0 → b0 &&& 0x20 = 0 → ¬ (b0 &&& 0x10 ≠ 0 ∧ b0 &&& 0x40 ≠ 0) →
        q = { setFlags VP9Packet.zero b0 with Payload := payload }) := by
    intro q payload h
    obtain ⟨hlen, hsid⟩ := Unmarshal_ok_parsed packet b0 h0 q payload h
    obtain ⟨q2, hU, hpd, hpid, hqF, hqP, hqV, hq2z⟩ :=
      Unmarshal_to_refs packet b0 h0 hlen hsid
    have hq2V : q2.V = false := by
      rw [hqV]; exact decide_eq_false (fun h => h hV)
    rw [hU, fromRefs_ok] at h
    by_cases hFP : b0 &&& 0x10 ≠ 0 ∧ b0 &&& 0x40 ≠ 0
    · have hFPb : (q2.F && q2.P) = true := by
        rw [hqF, hqP, decide_eq_true hFP.1, decide_eq_true hFP.2]; rfl
      have hrl : refIndexLength packet
          = refIndexCount (packet.drop (1 + pictureIDLength packet + layerLength packet)) := by
        unfold refIndexLength
        rw [hg0, if_pos hFP]
      rw [if_pos hFPb, parseRefIndices_loop q2 packet _ hpid, Option.some_bind] at h
      obtain ⟨q3, pos3, e3, h3, hk3, _, _⟩ :=
        refLoop_spec (packet.drop (1 + pictureIDLength packet + layerLength packet)) q2
          (1 + pictureIDLength packet + layerLength packet)
      rw [h3] at h
      have he3 : e3 = none := by
        by_contra hn
        rw [fromSS_err packet q3 pos3 e3 hn] at h
        have := congrArg (fun r => r.map (fun s => s.2.2)) h
        simp only [Option.map_some'] at this
        exact hn (Option.some.inj this)
      subst he3
      obtain ⟨hp3, hc1, hc3, hcl⟩ := refLoop_fresh_ok q2 _ _ q3 pos3 hpd h3
      rw [List.length_drop] at hcl
      have hhl : headerLength packet = pos3 := by
        unfold headerLength; rw [hrl, hp3]
      have hpos3 : pos3 ≤ packet.length := by rw [hp3]; omega
      have hq3V : q3.V = false := by rw [← hk3.1.2.2.2.2.2.2.1]; exact hq2V
      rw [(fromSS_spec packet q3 pos3 hpos3).2 hq3V] at h
      cases h
      rw [hhl]
      refine ⟨rfl, rfl, hpos3, fun _ _ => ?_, fun _ _ hc => absurd hFP hc⟩
      rw [hrl]; exact ⟨hc1, hc3⟩
    · have hFPb : ¬ ((q2.F && q2.P) = true) := by
        rw [hqF, hqP]
        intro hc
        rw [Bool.and_eq_true] at hc
        exact hFP ⟨of_decide_eq_true hc.1, of_decide_eq_true hc.2⟩
      have hrl : refIndexLength packet = 0 := by
        unfold refIndexLength
        rw [hg0, if_neg hFP]
      have hhl : headerLength packet
          = 1 + pictureIDLength packet + layerLength packet := by
        unfold headerLength; rw [hrl]; rfl
      rw [if_neg hFPb, Option.some_bind, (fromSS_spec packet q2 _ hlen).2 hq2V] at h
      cases h
      rw [hhl]
      refine ⟨rfl, rfl, hlen, fun hF hP => absurd ⟨hF, hP⟩ hFP, fun hI hL _ => ?_⟩
      rw [hq2z hI hL]
  have htot := Unmarshal_total VP9Packet.zero packet b0 h0 hV
  refine ⟨htot, ?_, ?_⟩
  · intro q payload h
    obtain ⟨m1, m2, m3, m4, _⟩ := main q payload h
    exact ⟨m1, congrArg VP9Packet.Payload m2, m3, m4⟩
  · intro hz
    have zI : b0 &&& 0x80 = 0 := and_eq_zero_of_flags hz (by decide)
    have zP : b0 &&& 0x40 = 0 := and_eq_zero_of_flags hz (by decide)
    have zL : b0 &&& 0x20 = 0 := and_eq_zero_of_flags hz (by decide)
    have zF : b0 &&& 0x10 = 0 := and_eq_zero_of_flags hz (by decide)
    have zB : b0 &&& 0x08 = 0 := and_eq_zero_of_flags hz (by decide)
    have zE : b0 &&& 0x04 = 0 := and_eq_zero_of_flags hz (by decide)
    have hset : setFlags VP9Packet.zero b0 = VP9Packet.zero := by
      unfold setFlags
      simp only [zI, zP, zL, zF, zB, zE, hV, ne_eq, not_true_eq_false, decide_False]
      rfl
    have hhl : headerLength packet = 1 := by
      unfold headerLength refIndexLength pictureIDLength layerLength
      rw [hg0, if_neg (not_not.mpr zI), if_neg (not_not.mpr zL),
        if_neg (fun hc => hc.1 zF)]
    refine ⟨hhl, ?_⟩
    have hlen : 1 + pictureIDLength packet + layerLength packet ≤ packet.length := by
      unfold pictureIDLength layerLength
      rw [hg0, if_neg (not_not.mpr zI), if_neg (not_not.mpr zL)]
      omega
    obtain ⟨q2, hU, _, _, _, _, hqV, hq2z⟩ :=
      Unmarshal_to_refs packet b0 h0 hlen (fun hc => absurd zL hc)
    have hq2 : q2 = VP9Packet.zero := (hq2z zI zL).trans hset
    subst hq2
    rw [hU, fromRefs_ok]
    have hlen1 : 1 + pictureIDLength packet + layerLength packet = 1 := by
      unfold pictureIDLength layerLength
      rw [hg0, if_neg (not_not.mpr zI), if_neg (not_not.mpr zL)]
    rw [hlen1]
    have : ¬ ((VP9Packet.zero.F && VP9Packet.zero.P) = true) := by decide
    rw [if_neg this, Option.some_bind, (fromSS_spec packet VP9Packet.zero 1 (by omega)).2 rfl]

/-- Witness of C18: the packet `F0 81 02 65 03 04 AA BB` (I, P, L and F set; a
15-bit picture ID, one layer byte, two reference indices) on a fresh receiver. -/
theorem payload_is_suffix_witness :
    VP9Packet.zero.Unmarshal (some [0xF0, 0x81, 0x02, 0x65, 0x03, 0x04, 0xAA, 0xBB]) ≠ none ∧
    (∀ q payload,
      VP9Packet.zero.Unmarshal (some [0xF0, 0x81, 0x02, 0x65, 0x03, 0x04, 0xAA, 0xBB])
        = some (q, payload, none) →
      payload = some (([0xF0, 0x81, 0x02, 0x65, 0x03, 0x04, 0xAA, 0xBB] : List Nat).drop
        (headerLength [0xF0, 0x81, 0x02, 0x65, 0x03, 0x04, 0xAA, 0xBB])) ∧
      q.Payload = payload ∧
      headerLength [0xF0, 0x81, 0x02, 0x65, 0x03, 0x04, 0xAA, 0xBB]
        ≤ ([0xF0, 0x81, 0x02, 0x65, 0x03, 0x04, 0xAA, 0xBB] : List Nat).length ∧
      (0xF0 &&& 0x10 ≠ 0 → 0xF0 &&& 0x40 ≠ 0 →
        1 ≤ refIndexLength [0xF0, 0x81, 0x02, 0x65, 0x03, 0x04, 0xAA, 0xBB] ∧
        refIndexLength [0xF0, 0x81, 0x02, 0x65, 0x03, 0x04, 0xAA, 0xBB] ≤ 3)) ∧
    (0xF0 &&& 0xFE = 0 →
      headerLength [0xF0, 0x81, 0x02, 0x65, 0x03, 0x04, 0xAA, 0xBB] = 1 ∧
      VP9Packet.zero.Unmarshal (some [0xF0, 0x81, 0x02, 0x65, 0x03, 0x04, 0xAA, 0xBB])
        = some ({ VP9Packet.zero with
                    Payload := some (([0xF0, 0x81, 0x02, 0x65, 0x03, 0x04, 0xAA, 0xBB] :
                      List Nat).drop 1) },
            some (([0xF0, 0x81, 0x02, 0x65, 0x03, 0x04, 0xAA, 0xBB] : List Nat).drop 1),
            none)) :=
  payload_is_suffix [0xF0, 0x81, 0x02, 0x65, 0x03, 0x04, 0xAA, 0xBB] 0xF0 rfl (by decide)

end vpx
